import Mathlib

/-!
# slang: diagnostics store, value expressions and assertion instances

A shallow embedding of parts of the slang semantic elaboration engine:

* `source/diagnostics/Diagnostics.cpp`: the diagnostic record, `Diagnostics::add`
  and `Diagnostics::sort`;
* `source/binding/MiscExpressions.cpp`: `ValueExpressionBase::fromSymbol`,
  `requireLValueImpl`, `checkVariableAssignment` and `checkConstantBase`,
  `NamedValueExpression::checkConstant` and `evalImpl`,
  `HierarchicalValueExpression::evalImpl`,
  `AssertionInstanceExpression::fromLookup` with its recursion check and argument
  mapping, `MinTypMaxExpression`, and `TaggedUnionExpression::fromSyntax` and
  `evalImpl`;
* `source/symbols/VariableSymbols.cpp`: the constructors of `ClockVarSymbol` and
  `LocalAssertionVarSymbol`;
* `source/symbols/CoverSymbols.cpp`: the getters of `CoverageBinSymbol` and `resolve`;
* `source/symbols/AttributeSymbol.cpp`: `createAttributes` and `fromSyntax`.

Pointers to arena objects are modelled by the objects themselves, bit masks by
lists of flags, and the diagnostics emitted through a binding or evaluation
context by the list of emitted records, oldest first. A failed `ASSERT` is the
`none` result of the function that makes it; `resolve`, whose flag outlives a failed
assertion, hands back the bin together with a mark of the failure.
-/

namespace slang

/-! ## Diagnostics.cpp -/

/-- The diagnostic record of `Diagnostics.h`: a code, a location, the symbol it was
issued for (when the three-argument constructor was used), streamed arguments,
highlighted ranges and attached notes. The types of codes and locations are left
as parameters: only their comparison operators are used by the store. -/
inductive Diagnostic (Code Loc : Type) where
  | mk (code : Code) (location : Loc) (symbol : Option Nat) (args : List String)
      (ranges : List (Loc × Loc)) (notes : List (Diagnostic Code Loc))

namespace Diagnostic

variable {Code Loc : Type}

/-- The field `Diagnostic::code`. -/
def code : Diagnostic Code Loc → Code
  | mk c _ _ _ _ _ => c

/-- The field `Diagnostic::location`. -/
def location : Diagnostic Code Loc → Loc
  | mk _ l _ _ _ _ => l

/-- The field `Diagnostic::symbol`. -/
def symbol : Diagnostic Code Loc → Option Nat
  | mk _ _ s _ _ _ => s

/-- The field `Diagnostic::args`. -/
def args : Diagnostic Code Loc → List String
  | mk _ _ _ a _ _ => a

/-- The field `Diagnostic::ranges`. -/
def ranges : Diagnostic Code Loc → List (Loc × Loc)
  | mk _ _ _ _ r _ => r

/-- The field `Diagnostic::notes`. -/
def notes : Diagnostic Code Loc → List (Diagnostic Code Loc)
  | mk _ _ _ _ _ n => n

/-- The constructor `Diagnostic::Diagnostic(DiagCode code, SourceLocation location)`. -/
def create (c : Code) (l : Loc) : Diagnostic Code Loc :=
  mk c l none [] [] []

/-- The constructor `Diagnostic::Diagnostic(const Symbol& source, DiagCode, SourceLocation)`. -/
def createFor (source : Nat) (c : Code) (l : Loc) : Diagnostic Code Loc :=
  mk c l (some source) [] [] []

/-- The member `Diagnostic::addNote(DiagCode, SourceLocation)`; `ASSERT(noteLocation)`
is the `none` result. The member hands back the new note; the embedded callers drop
it, so the result here is the diagnostic with the note attached. -/
def addNote (valid : Loc → Bool) (d : Diagnostic Code Loc) (noteCode : Code) (noteLocation : Loc) :
    Option (Diagnostic Code Loc) :=
  if valid noteLocation then
    some (mk d.code d.location d.symbol d.args d.ranges (d.notes ++ [create noteCode noteLocation]))
  else none

/-- The member `Diagnostic::operator<<(const std::string&)`. -/
def addArg (d : Diagnostic Code Loc) (arg : String) : Diagnostic Code Loc :=
  mk d.code d.location d.symbol (d.args ++ [arg]) d.ranges d.notes

/-- The member `Diagnostic::operator<<(SourceRange)`; the two assertions on the
ends of the range are the `none` result. -/
def addRange (valid : Loc → Bool) (d : Diagnostic Code Loc) (range : Loc × Loc) :
    Option (Diagnostic Code Loc) :=
  if valid range.1 && valid range.2 then
    some (mk d.code d.location d.symbol d.args (d.ranges ++ [range]) d.notes)
  else none

end Diagnostic

/-- The class `Diagnostics` is a `SmallVector<Diagnostic>`: a sequence in insertion order. -/
abbrev Diagnostics (Code Loc : Type) := List (Diagnostic Code Loc)

namespace Diagnostics

variable {Code Loc : Type}

/-- The member `Diagnostics::add(DiagCode code, SourceLocation location)`:
`ASSERT(location); emplace(code, location); return back();`. The assertion failure is
the `none` result; otherwise the grown store is returned, whose last element is the
one handed back to the caller. -/
def add (valid : Loc → Bool) (ds : Diagnostics Code Loc) (c : Code) (l : Loc) :
    Option (Diagnostics Code Loc) :=
  if valid l then some (ds ++ [Diagnostic.create c l]) else none

/-- The member `Diagnostics::add(DiagCode code, SourceRange range)`:
`return add(code, range.start()) << range;`. -/
def addRange (valid : Loc → Bool) (ds : Diagnostics Code Loc) (c : Code) (range : Loc × Loc) :
    Option (Diagnostics Code Loc) :=
  if valid range.1 then
    ((Diagnostic.create c range.1).addRange valid range).map (fun d => ds ++ [d])
  else none

/-- The member `Diagnostics::add(const Symbol& source, DiagCode code, SourceLocation)`. -/
def addFor (valid : Loc → Bool) (ds : Diagnostics Code Loc) (source : Nat) (c : Code) (l : Loc) :
    Option (Diagnostics Code Loc) :=
  if valid l then some (ds ++ [Diagnostic.createFor source c l]) else none

/-- The member `Diagnostics::add(const Symbol& source, DiagCode code, SourceRange range)`:
`return add(source, code, range.start()) << range;`. -/
def addForRange (valid : Loc → Bool) (ds : Diagnostics Code Loc) (source : Nat) (c : Code)
    (range : Loc × Loc) : Option (Diagnostics Code Loc) :=
  if valid range.1 then
    ((Diagnostic.createFor source c range.1).addRange valid range).map (fun d => ds ++ [d])
  else none

/-- One call of `Diagnostics::add`, by overload. -/
inductive Emission (Code Loc : Type) where
  | atLocation (c : Code) (l : Loc)
  | atRange (c : Code) (range : Loc × Loc)
  | forSymbolAtLocation (source : Nat) (c : Code) (l : Loc)
  | forSymbolAtRange (source : Nat) (c : Code) (range : Loc × Loc)

/-- The call of `Diagnostics::add` that an emission stands for. -/
def emit (valid : Loc → Bool) (ds : Diagnostics Code Loc) :
    Emission Code Loc → Option (Diagnostics Code Loc)
  | Emission.atLocation c l => add valid ds c l
  | Emission.atRange c range => addRange valid ds c range
  | Emission.forSymbolAtLocation source c l => addFor valid ds source c l
  | Emission.forSymbolAtRange source c range => addForRange valid ds source c range

/-- The assertions of the call hold: the location, or both ends of the range, are valid. -/
def Emission.asserted (valid : Loc → Bool) : Emission Code Loc → Bool
  | Emission.atLocation _ l => valid l
  | Emission.atRange _ range => valid range.1 && valid range.2
  | Emission.forSymbolAtLocation _ _ l => valid l
  | Emission.forSymbolAtRange _ _ range => valid range.1 && valid range.2

/-- The record that the call stores. -/
def Emission.record : Emission Code Loc → Diagnostic Code Loc
  | Emission.atLocation c l => Diagnostic.create c l
  | Emission.atRange c range => Diagnostic.mk c range.1 none [] [range] []
  | Emission.forSymbolAtLocation source c l => Diagnostic.createFor source c l
  | Emission.forSymbolAtRange source c range => Diagnostic.mk c range.1 (some source) [] [range] []

/-- The code and the location of the call. -/
def Emission.key : Emission Code Loc → Code × Loc
  | Emission.atLocation c l => (c, l)
  | Emission.atRange c range => (c, range.1)
  | Emission.forSymbolAtLocation _ c l => (c, l)
  | Emission.forSymbolAtRange _ c range => (c, range.1)

/-- A run of `Diagnostics::add` calls, left to right, from a given store. -/
def addAll (valid : Loc → Bool) :
    Diagnostics Code Loc → List (Emission Code Loc) → Option (Diagnostics Code Loc)
  | ds, [] => some ds
  | ds, e :: rest =>
    match emit valid ds e with
    | none => none
    | some ds1 => addAll valid ds1 rest

/-- The codes and locations of the stored diagnostics, in order. -/
def keys (ds : Diagnostics Code Loc) : List (Code × Loc) :=
  ds.map (fun d => (d.code, d.location))

variable [LinearOrder Code] [LinearOrder Loc]

/-- The lambda `compare` of `Diagnostics::sort`; `getFullyExpandedLoc` is the source
manager's mapping of a location to its fully expanded location. -/
def compare (getFullyExpandedLoc : Loc → Loc) (x y : Diagnostic Code Loc) : Bool :=
  let xl := getFullyExpandedLoc x.location
  let yl := getFullyExpandedLoc y.location
  if xl < yl then true
  else if xl = yl then decide (x.code < y.code)
  else false

/-- One insertion step of the stable sort: `x` stood before every element of the
already ordered `l`, so it passes exactly the elements strictly below it. -/
def stableInsert (lt : Diagnostic Code Loc → Diagnostic Code Loc → Bool)
    (x : Diagnostic Code Loc) : List (Diagnostic Code Loc) → List (Diagnostic Code Loc)
  | [] => [x]
  | y :: ys => if lt y x then y :: stableInsert lt x ys else x :: y :: ys

/-- The library call `std::stable_sort(begin(), end(), compare)`. The standard fixes
its result (ordered by `compare`, equivalent elements in their original order) and not
its algorithm; the embedding is the stable insertion sort. -/
def stable_sort (lt : Diagnostic Code Loc → Diagnostic Code Loc → Bool) :
    List (Diagnostic Code Loc) → List (Diagnostic Code Loc)
  | [] => []
  | x :: xs => stableInsert lt x (stable_sort lt xs)

/-- The member `Diagnostics::sort(const SourceManager&)`. -/
def sort (getFullyExpandedLoc : Loc → Loc) (ds : Diagnostics Code Loc) : Diagnostics Code Loc :=
  stable_sort (compare getFullyExpandedLoc) ds

/-- The order the sorted store is in: by fully expanded location, then by code. -/
def ordered (getFullyExpandedLoc : Loc → Loc) (x y : Diagnostic Code Loc) : Prop :=
  getFullyExpandedLoc x.location < getFullyExpandedLoc y.location ∨
    (getFullyExpandedLoc x.location = getFullyExpandedLoc y.location ∧ x.code ≤ y.code)

/-- The sort key test: fully expanded location `l` and code `c`. -/
def hasKey (getFullyExpandedLoc : Loc → Loc) (l : Loc) (c : Code) (x : Diagnostic Code Loc) :
    Bool :=
  decide (getFullyExpandedLoc x.location = l) && decide (x.code = c)

end Diagnostics

/-! ## Shared vocabulary of the binder -/

/-- The class `SourceLocation` (SourceLocation.h): a buffer and an offset into it. -/
structure SourceLocation where
  buffer : Nat
  offset : Nat
deriving DecidableEq, Repr

/-- Modelled from the spec: `SourceLocation::operator bool` (SourceLocation.h) is not
among the sources; a location is valid when it lies in a buffer, and buffer 0 is no
buffer (`SourceLocation::NoLocation`). -/
def SourceLocation.valid (l : SourceLocation) : Bool :=
  l.buffer != 0

/-- The class `SourceRange`, with `start()` and `end()`. -/
structure SourceRange where
  start : SourceLocation
  stop : SourceLocation
deriving DecidableEq, Repr

/-- A mask `bitmask<T>` of single-bit flags, as the list of the flags that are set. -/
abbrev bitmask (α : Type) := List α

/-- The member `bitmask<T>::has`. -/
def bitmask.has {α : Type} [DecidableEq α] (m : bitmask α) (f : α) : Bool :=
  decide (f ∈ m)

/-- The members of `SymbolKind` that the embedded sources name, for symbols and for
canonical types alike. -/
inductive SymbolKind where
  | Unknown | Root | CompilationUnit | Package | InstanceBody
  | Attribute | ClassProperty | ClassType | ClockVar | ClockingBlock | ConstraintBlock
  | CoverCross | CoverageBin | CovergroupBody | CovergroupType | Coverpoint | EnumValue
  | ErrorType | EventType | Field | FormalArgument | Iterator | LetDecl | LocalAssertionVar
  | MethodPrototype | Net | NetType | Parameter | PredefinedIntegerType | Property
  | PropertyType | Sequence | SequenceType | Specparam | StatementBlock | Subroutine
  | UntypedType | Variable | CHandleType | VoidType
deriving DecidableEq, Repr

/-- The diagnostic codes that the embedded sources issue. -/
inductive DiagCode where
  | ArgCannotBeEmpty | ArgDoesNotExist | AssertionArgNeedsRegExpr | AssertionArgTypeMismatch
  | AssertionArgTypeSequence | AssertionDelayFormalType | AssertionOutputLocalVar
  | AssertionPortTypedLValue | AssignToCHandle | AssignToNet | AssignmentToConstVar
  | AutoFromNonBlockingTiming | AutoFromNonProcedural | AutoFromStaticInit | CHandleInAssertion
  | CantModifyConst | ClockVarAssignConcat | ClockVarOutputRead | ClockVarSyncDrive
  | ConstEvalClassType | ConstEvalCovergroupType | ConstEvalFunctionIdentifiersMustBeLocal
  | ConstEvalHierarchicalName | ConstEvalIdUsedInCEBeforeDecl | ConstEvalNonConstVariable
  | CopyClassTarget | CoverageExprVar | CoverageSampleFormal | DuplicateArgAssignment
  | EventExprAssertionArg | ExpectedExpression | InOutUWireConn | InOutVarPortConn
  | InterconnectReference | LocalVarEventExpr | LocalVarOutputEmptyMatch
  | NonblockingAssignmentToAuto | NotAValue | NoteDeclarationHere | NotePreviousUsage
  | RecursiveLet | RecursivePropArgExpr | RecursivePropNegation | RecursivePropTimeAdvance
  | RecursiveSequence | SpecparamInConstant | TaggedUnionMissingInit | TaggedUnionTarget
  | TooFewArguments | TooManyArguments | UnboundedNotAllowed | UnconnectedArg
  | UnexpectedClockingExpr | UnknownMember | WriteToInputClockVar
  | CoverageBinTargetName | CoverageSetType | DuplicateAttribute
deriving DecidableEq, Repr

/-- The flags of `BindFlags` that the embedded sources name; `BindFlags::None` is the
empty mask. -/
inductive BindFlags where
  | AllowClockingBlock | AllowCoverageSampleFormal | AllowCoverpoint | AllowDataType
  | AllowInterconnect | AllowTypeReferences | AllowUnboundedLiteral
  | AssertionDelayOrRepetition | AssertionExpr | AssertionInstanceArgCheck | AssignmentAllowed
  | EventExpression | LValue | NoAttributes | NonBlockingTimingControl | NonProcedural
  | PropertyNegation | PropertyTimeAdvance | RecursivePropertyArg | StaticInitializer
  | UnevaluatedBranch
deriving DecidableEq, Repr

/-- The flags of `AssignFlags`. -/
inductive AssignFlags where
  | NonBlocking | InConcat | InOutPort | ClockVar | AssertionLocalVarFormalArg
deriving DecidableEq, Repr

/-- The flags of `VariableFlags`. -/
inductive VariableFlags where
  | Const | CompilerGenerated | ImmutableCoverageOption | CoverageSampleFormal
deriving DecidableEq, Repr

/-- The flags of `MethodFlags` that the embedded sources name. -/
inductive MethodFlags where
  | Constructor | Static
deriving DecidableEq, Repr

/-- The enumeration `VariableLifetime`. -/
inductive VariableLifetime where
  | Automatic | Static
deriving DecidableEq, Repr

/-- The enumeration `ArgumentDirection`. -/
inductive ArgumentDirection where
  | In | Out | InOut | Ref
deriving DecidableEq, Repr

/-- The net kinds of `NetType::NetKind` that the embedded sources name; the others are
`Other`. -/
inductive NetKind where
  | Unknown | UWire | Interconnect | Other
deriving DecidableEq, Repr

/-- The enumeration `DriverKind`. -/
inductive DriverKind where
  | Procedural | Continuous | Other
deriving DecidableEq, Repr

/-- A symbol as the value-expression code reads it: the header common to all symbols,
the canonical kind of its type, and the members of the subclasses that the code
reaches through `as<...>()`: `NetSymbol::netType.netKind`, `VariableSymbol::lifetime`
and `flags`, whether `getInitializer()` is non-null, and the member `direction` of
`ClockVarSymbol` and of `FormalArgumentSymbol`. -/
structure Symbol where
  kind : SymbolKind
  name : String
  location : SourceLocation
  typeKind : SymbolKind
  netKind : NetKind
  lifetime : VariableLifetime
  flags : bitmask VariableFlags
  hasInitializer : Bool
  direction : ArgumentDirection
deriving DecidableEq, Repr

/-- The test `Type::isCHandle` on the symbol's type. -/
def Symbol.isCHandle (s : Symbol) : Bool :=
  s.typeKind == SymbolKind.CHandleType

/-- Modelled from the spec: `VariableSymbol::isKind` (VariableSymbols.h) is not among
the sources; it holds of the kinds of the value symbols that are variables: variable,
formal argument, field, class property, iterator, clock var and local assertion var,
whose constructors pass their kind to the `VariableSymbol` constructor. -/
def VariableSymbol.isKind (k : SymbolKind) : Bool :=
  match k with
  | SymbolKind.Variable => true
  | SymbolKind.FormalArgument => true
  | SymbolKind.Field => true
  | SymbolKind.ClassProperty => true
  | SymbolKind.Iterator => true
  | SymbolKind.ClockVar => true
  | SymbolKind.LocalAssertionVar => true
  | _ => false

/-- The constructor `ClockVarSymbol::ClockVarSymbol(name, loc, direction, inputSkew,
outputSkew)`: kind `ClockVar`, static lifetime, no variable flag. The type and the
initializer are set afterwards by `fromSyntax`, so they are arguments here; the two
skews play no part in the embedded code. -/
def ClockVarSymbol.create (name : String) (loc : SourceLocation) (direction : ArgumentDirection)
    (typeKind : SymbolKind) (hasInitializer : Bool) : Symbol :=
  { kind := SymbolKind.ClockVar, name := name, location := loc, typeKind := typeKind,
    netKind := NetKind.Unknown, lifetime := VariableLifetime.Static, flags := [],
    hasInitializer := hasInitializer, direction := direction }

/-- The symbol of a scope, as far as `checkVariableAssignment` reads it: its kind and,
for a subroutine, `SubroutineSymbol::flags`. -/
structure ScopeSymbol where
  kind : SymbolKind
  name : String
  methodFlags : bitmask MethodFlags
deriving DecidableEq, Repr

/-- A scope with the chain of its enclosing scopes: `asSymbol()` is the first
component, `getParentScope()` of that symbol the second, absent at the top. -/
inductive Scope where
  | top (sym : ScopeSymbol)
  | nested (sym : ScopeSymbol) (parent : Scope)
deriving DecidableEq, Repr

/-- The member `Scope::asSymbol`. -/
def Scope.asSymbol : Scope → ScopeSymbol
  | Scope.top sym => sym
  | Scope.nested sym _ => sym

/-- The member `Symbol::getParentScope` of the scope's symbol. -/
def Scope.getParentScope : Scope → Option Scope
  | Scope.top _ => none
  | Scope.nested _ parent => some parent

/-- Expressions as far as the driver records look into them: the two value expression
kinds, any other expression by the identity of its node, and the
`HierarchicalReferenceExpression` that `fromSymbol` makes for a symbol that is not a
value. -/
inductive Expression where
  | NamedValue (symbol : Symbol) (sourceRange : SourceRange)
  | HierarchicalValue (symbol : Symbol) (sourceRange : SourceRange)
  | Other (node : Nat) (sourceRange : SourceRange)
  | HierarchicalReference (symbol : Symbol) (sourceRange : SourceRange)
deriving DecidableEq, Repr

/-- The class `ValueExpressionBase`: a named or hierarchical reference to a value symbol. -/
structure ValueExpressionBase where
  isHierarchical : Bool
  symbol : Symbol
  sourceRange : SourceRange
deriving DecidableEq, Repr

/-- The object itself (`this`) as an `Expression`. -/
def ValueExpressionBase.toExpression (e : ValueExpressionBase) : Expression :=
  if e.isHierarchical then Expression.HierarchicalValue e.symbol e.sourceRange
  else Expression.NamedValue e.symbol e.sourceRange

/-- The driver record attached to a value symbol. -/
structure Driver where
  kind : DriverKind
  longestStaticPrefix : Expression
  flags : bitmask AssignFlags
  customEvalContext : Option Nat
deriving DecidableEq, Repr

/-- The class `BindContext` as far as the embedded code reads it: the scope, the
flags, and the kind of driver that an assignment bound in it makes. -/
structure BindContext where
  scope : Scope
  flags : bitmask BindFlags
  driverKind : DriverKind
deriving DecidableEq, Repr

/-- A diagnostic of the binder. -/
abbrev BindDiag := Diagnostic DiagCode SourceLocation

/-- What binding leaves behind in the compilation: the diagnostics issued, oldest
first, and the drivers attached to value symbols, oldest first. -/
structure BindState where
  diags : List BindDiag
  drivers : List (Symbol × Driver)

/-- The codes of the diagnostics issued so far, oldest first. -/
def BindState.codes (s : BindState) : List DiagCode :=
  s.diags.map Diagnostic.code

/-- Modelled from the spec: `BindContext::addDiag(code, location)` (BindContext.cpp) is
the append API of the diagnostic store, which hands back the new record so that
arguments, ranges and notes can be streamed into it; here the finished record is
appended. -/
def BindState.addDiag (s : BindState) (d : BindDiag) : BindState :=
  { s with diags := s.diags ++ [d] }

/-- Modelled from the spec: `BindContext::addDiag(code, range)` (BindContext.cpp) issues
the diagnostic at the start of the range and streams the range into it; the
assertions of `Diagnostic::operator<<(SourceRange)` are the `none` result. -/
def rangeDiag (code : DiagCode) (range : SourceRange) : Option BindDiag :=
  (Diagnostic.create code range.start).addRange SourceLocation.valid (range.start, range.stop)

/-- Modelled from the spec: `BindContext::addDriver` (BindContext.cpp) appends a driver
record, of the kind of the context, to the drivers of the target symbol. -/
def BindContext.addDriver (context : BindContext) (s : BindState) (symbol : Symbol)
    (longestStaticPrefix : Expression) (flags : bitmask AssignFlags)
    (customEvalContext : Option Nat) : BindState :=
  { s with drivers := s.drivers ++
      [(symbol, { kind := context.driverKind, longestStaticPrefix := longestStaticPrefix,
                  flags := flags, customEvalContext := customEvalContext })] }

/-- The drivers attached to one symbol, oldest first. -/
def BindState.driversOf (s : BindState) (symbol : Symbol) : List Driver :=
  (s.drivers.filter (fun p => decide (p.1 = symbol))).map Prod.snd

/-! ## MiscExpressions.cpp: assignability of value expressions -/

/-- The record that `reportErr` issues for `code`: at the assignment location, or at
the start of the variable's range when there is none, with the variable's name, its
range, and a note at its declaration. -/
def declarationDiag (var : Symbol) (assignLoc : SourceLocation) (varRange : SourceRange)
    (code : DiagCode) : BindDiag :=
  Diagnostic.mk code (if assignLoc.valid then assignLoc else varRange.start) none [var.name]
    [(varRange.start, varRange.stop)]
    [Diagnostic.create DiagCode.NoteDeclarationHere var.location]

/-- The record that `addDiag(code, range)` issues, with the arguments streamed after it. -/
def rangeDiagWith (code : DiagCode) (range : SourceRange) (args : List String) : BindDiag :=
  Diagnostic.mk code range.start none args [(range.start, range.stop)] []

/-- The lambda `reportErr` of `checkVariableAssignment`: the diagnostic `code` at the
assignment location, or at the start of the variable's range when there is none, with
a note at the declaration, the variable's name and its range; it yields `false`.
Assigning the captured `assignLoc` changes nothing for a second call. The assertions
of `addNote` and of the range insertion are the `none` result. -/
def reportErr (var : Symbol) (assignLoc : SourceLocation) (varRange : SourceRange)
    (code : DiagCode) (s : BindState) : Option (Bool × BindState) :=
  let assignLoc := if assignLoc.valid then assignLoc else varRange.start
  match (Diagnostic.create code assignLoc).addNote SourceLocation.valid
      DiagCode.NoteDeclarationHere var.location with
  | none => none
  | some d1 =>
    match (d1.addArg var.name).addRange SourceLocation.valid (varRange.start, varRange.stop) with
    | none => none
    | some d2 => some (false, s.addDiag d2)

/-- The loop at the head of the `Const` branch of `checkVariableAssignment`: from the
symbol of the binding scope, leave statement blocks upwards. `ASSERT(parentScope)` is
the `none` result. -/
def constructorParent : Scope → Option ScopeSymbol
  | Scope.top sym => if sym.kind = SymbolKind.StatementBlock then none else some sym
  | Scope.nested sym parent =>
    if sym.kind = SymbolKind.StatementBlock then constructorParent parent else some sym

/-- The last check of `checkVariableAssignment` (lines 215 to 219). -/
def checkInOutPort (var : Symbol) (flags : bitmask AssignFlags) (assignLoc : SourceLocation)
    (varRange : SourceRange) (s : BindState) : Option (Bool × BindState) :=
  if flags.has AssignFlags.InOutPort then
    reportErr var assignLoc varRange DiagCode.InOutVarPortConn s
  else some (true, s)

/-- The part of `checkVariableAssignment` after the `Const` branch (lines 198 to 219).
In the clock variable branch the result of `reportErr(diag::ClockVarAssignConcat)` is
not returned: the diagnostic is issued and the checks go on. -/
def checkVariableAssignmentRest (var : Symbol) (flags : bitmask AssignFlags)
    (assignLoc : SourceLocation) (varRange : SourceRange) (s : BindState) :
    Option (Bool × BindState) :=
  if flags.has AssignFlags.NonBlocking && var.lifetime == VariableLifetime.Automatic &&
      var.kind != SymbolKind.ClassProperty then
    reportErr var assignLoc varRange DiagCode.NonblockingAssignmentToAuto s
  else if var.kind == SymbolKind.ClockVar then
    let afterConcat : Option BindState :=
      if flags.has AssignFlags.InConcat then
        (reportErr var assignLoc varRange DiagCode.ClockVarAssignConcat s).map Prod.snd
      else some s
    match afterConcat with
    | none => none
    | some s1 =>
      if var.direction == ArgumentDirection.In then
        reportErr var assignLoc varRange DiagCode.WriteToInputClockVar s1
      else if !flags.has AssignFlags.NonBlocking then
        reportErr var assignLoc varRange DiagCode.ClockVarSyncDrive s1
      else checkInOutPort var flags assignLoc varRange s1
  else checkInOutPort var flags assignLoc varRange s

/-- The function `ValueExpressionBase::checkVariableAssignment`. -/
def checkVariableAssignment (context : BindContext) (var : Symbol) (flags : bitmask AssignFlags)
    (assignLoc : SourceLocation) (varRange : SourceRange) (s : BindState) :
    Option (Bool × BindState) :=
  if var.flags.has VariableFlags.Const then
    match constructorParent context.scope with
    | none => none
    | some parent =>
      if var.hasInitializer || parent.kind != SymbolKind.Subroutine ||
          !parent.methodFlags.has MethodFlags.Constructor then
        reportErr var assignLoc varRange DiagCode.AssignmentToConstVar s
      else checkVariableAssignmentRest var flags assignLoc varRange s
  else checkVariableAssignmentRest var flags assignLoc varRange s

/-- The diagnostic of the first branch of `requireLValueImpl`: `CantModifyConst` at
`location` with the symbol's name, a note at its declaration and the range. -/
def cantModifyConst (symbol : Symbol) (location : SourceLocation) (sourceRange : SourceRange) :
    Option BindDiag :=
  match ((Diagnostic.create DiagCode.CantModifyConst location).addArg symbol.name).addNote
      SourceLocation.valid DiagCode.NoteDeclarationHere symbol.location with
  | none => none
  | some d => d.addRange SourceLocation.valid (sourceRange.start, sourceRange.stop)

/-- The tail of `requireLValueImpl` (lines 154 to 165): the variable checks, then the
driver. -/
def requireLValueDriver (self : ValueExpressionBase) (context : BindContext)
    (location : SourceLocation) (flags : bitmask AssignFlags)
    (longestStaticPrefix : Option Expression) (customEvalContext : Option Nat) (s : BindState) :
    Option (Bool × BindState) :=
  let checked : Option (Bool × BindState) :=
    if VariableSymbol.isKind self.symbol.kind then
      checkVariableAssignment context self.symbol flags location self.sourceRange s
    else some (true, s)
  match checked with
  | none => none
  | some (false, s1) => some (false, s1)
  | some (true, s1) =>
    let longestStaticPrefix := match longestStaticPrefix with
      | none => self.toExpression
      | some e => e
    some (true, context.addDriver s1 self.symbol longestStaticPrefix flags customEvalContext)

/-- The function `ValueExpressionBase::requireLValueImpl`. -/
def requireLValueImpl (self : ValueExpressionBase) (context : BindContext)
    (location : SourceLocation) (flags : bitmask AssignFlags)
    (longestStaticPrefix : Option Expression) (customEvalContext : Option Nat) (s : BindState) :
    Option (Bool × BindState) :=
  let location := if location.valid then location else self.sourceRange.start
  if self.symbol.kind == SymbolKind.Parameter || self.symbol.kind == SymbolKind.EnumValue ||
      self.symbol.kind == SymbolKind.Specparam then
    (cantModifyConst self.symbol location self.sourceRange).map (fun d => (false, s.addDiag d))
  else if context.flags.has BindFlags.NonProcedural then
    if self.symbol.isCHandle then
      (rangeDiag DiagCode.AssignToCHandle self.sourceRange).map (fun d => (false, s.addDiag d))
    else if self.symbol.kind == SymbolKind.Net && self.symbol.netKind == NetKind.UWire &&
        flags.has AssignFlags.InOutPort then
      ((rangeDiag DiagCode.InOutUWireConn self.sourceRange).map
        (fun d => d.addArg self.symbol.name)).map (fun d => (false, s.addDiag d))
    else requireLValueDriver self context location flags longestStaticPrefix customEvalContext s
  else if self.symbol.kind == SymbolKind.Net then
    (rangeDiag DiagCode.AssignToNet self.sourceRange).map (fun d => (false, s.addDiag d))
  else requireLValueDriver self context location flags longestStaticPrefix customEvalContext s

/-! ## MiscExpressions.cpp: the argument mapping of `AssertionInstanceExpression::fromLookup` -/

/-- A `PropertyExprSyntax` node: its identity and its range. -/
structure PropertyExprSyntax where
  node : Nat
  range : SourceRange
deriving DecidableEq, Repr

/-- An entry of `orderedArgs`: a node of kind `EmptyArgument`, or a property expression. -/
inductive ArgumentSyntax where
  | EmptyArgument (range : SourceRange)
  | PropertyExpr (expr : PropertyExprSyntax)
deriving DecidableEq, Repr

/-- The member `SyntaxNode::sourceRange` of an ordered argument. -/
def ArgumentSyntax.sourceRange : ArgumentSyntax → SourceRange
  | ArgumentSyntax.EmptyArgument range => range
  | ArgumentSyntax.PropertyExpr expr => expr.range

/-- A `NamedArgumentSyntax` node `.name(expr)`; the expression may be absent. -/
structure NamedArgumentSyntax where
  name : String
  nameLocation : SourceLocation
  expr : Option PropertyExprSyntax
  range : SourceRange
deriving DecidableEq, Repr

/-- The map `NamedArgMap`, from the name to the node and its `used` mark. -/
abbrev NamedArgMap := List (String × NamedArgumentSyntax × Bool)

/-- The member `find` of the map. -/
def NamedArgMap.find (m : NamedArgMap) (name : String) : Option (NamedArgumentSyntax × Bool) :=
  (List.find? (fun e => decide (e.1 = name)) m).map Prod.snd

/-- The assignment `it->second.second = true` on the entry found for `name`. -/
def NamedArgMap.markUsed (m : NamedArgMap) (name : String) : NamedArgMap :=
  m.map (fun e => if e.1 = name then (e.1, e.2.1, true) else e)

/-- The class `AssertionPortSymbol` as far as the mapping reads it. -/
structure AssertionPortSymbol where
  name : String
  location : SourceLocation
  defaultValueSyntax : Option PropertyExprSyntax
  localVarDirection : Option ArgumentDirection
deriving DecidableEq, Repr

/-- The binding context stored with an actual: the context of the call site, or the
context made by `setDefault` for the default value of a formal (the scope of the
instantiated symbol, looked up after that formal, inside the new instance). -/
inductive ArgContext where
  | callSite (context : BindContext)
  | defaultValue (formal : AssertionPortSymbol)
deriving DecidableEq, Repr

/-- The type `ActualArg`: the bound form of an actual, by the identity of its node. -/
abbrev ActualArg := Nat

/-- The function `checkAssertionArg`, whose binding calls lie outside these sources, as
a state transformer: the bound actual when the check succeeds, nothing when it fails. -/
abbrev ArgChecker :=
  PropertyExprSyntax → AssertionPortSymbol → ArgContext → Bool → BindState →
    Option ActualArg × BindState

/-- The variables of `fromLookup` that the loop over the formal ports updates. -/
structure ArgMapping where
  orderedIndex : Nat
  namedArgs : NamedArgMap
  bad : Bool
  argumentMap : List (AssertionPortSymbol × PropertyExprSyntax × ArgContext)
  actualArgs : List (AssertionPortSymbol × ActualArg)
  outputLocalVarArgLoc : SourceLocation
  state : BindState

/-- The member `argumentMap.find(formal)`. -/
def ArgMapping.findArgument (m : ArgMapping) (formal : AssertionPortSymbol) :
    Option (PropertyExprSyntax × ArgContext) :=
  (List.find? (fun e => decide (e.1 = formal)) m.argumentMap).map Prod.snd

/-- The member `argumentMap.emplace`: an entry already present for the key is kept. -/
def ArgMapping.emplaceArgument (m : ArgMapping) (formal : AssertionPortSymbol)
    (expr : PropertyExprSyntax) (argCtx : ArgContext) : ArgMapping :=
  match m.findArgument formal with
  | some _ => m
  | none => { m with argumentMap := m.argumentMap ++ [(formal, expr, argCtx)] }

/-- The variables `expr` and `argCtx` after the three-way choice of the actual for one
formal (lines 767 to 818), the updated loop variables, and whether `break` was taken. -/
structure ActualChoice where
  expr : Option PropertyExprSyntax
  argCtx : ArgContext
  mapping : ArgMapping
  broke : Bool

/-- The diagnostic `ArgCannotBeEmpty` or `UnconnectedArg`: at a range, with the name
of the formal. -/
def formalDiag (code : DiagCode) (range : SourceRange) (formal : AssertionPortSymbol) :
    Option BindDiag :=
  (rangeDiag code range).map (fun d => d.addArg formal.name)

/-- Lines 767 to 818 of `fromLookup`: the actual for one formal comes from the next
ordered argument, else from the named argument of its name, else from its default.
In the second branch `expr` is assigned only by `setDefault`, that is when the named
argument is empty. -/
def chooseActual (context : BindContext) (symbolName : String) (range : SourceRange)
    (numFormals : Nat) (orderedArgs : List ArgumentSyntax) (formal : AssertionPortSymbol)
    (m : ArgMapping) : Option ActualChoice :=
  match orderedArgs.get? m.orderedIndex with
  | some arg =>
    let m1 := { m with orderedIndex := m.orderedIndex + 1 }
    -- the empty argument takes the default, which must exist
    let first : Option (Option PropertyExprSyntax × ArgContext × BindState) :=
      match arg with
      | ArgumentSyntax.EmptyArgument argRange =>
        match formal.defaultValueSyntax with
        | some e => some (some e, ArgContext.defaultValue formal, m1.state)
        | none =>
          (formalDiag DiagCode.ArgCannotBeEmpty argRange formal).map
            (fun d => (none, ArgContext.defaultValue formal, m1.state.addDiag d))
      | ArgumentSyntax.PropertyExpr e => some (some e, ArgContext.callSite context, m1.state)
    match first with
    | none => none
    | some (expr, argCtx, s1) =>
      -- a named value for the same formal is a duplicate
      match m1.namedArgs.find formal.name with
      | some (named, _) =>
        match ((Diagnostic.create DiagCode.DuplicateArgAssignment named.nameLocation).addArg
            formal.name).addNote SourceLocation.valid DiagCode.NotePreviousUsage
            arg.sourceRange.start with
        | none => none
        | some d =>
          some { expr := expr, argCtx := argCtx, broke := false,
                 mapping := { m1 with state := s1.addDiag d,
                                      namedArgs := m1.namedArgs.markUsed formal.name,
                                      bad := true } }
      | none =>
        some { expr := expr, argCtx := argCtx, broke := false,
               mapping := { m1 with state := s1 } }
  | none =>
    match m.namedArgs.find formal.name with
    | some (named, _) =>
      let m1 := { m with namedArgs := m.namedArgs.markUsed formal.name }
      match named.expr with
      | none =>
        match formal.defaultValueSyntax with
        | some e =>
          some { expr := some e, argCtx := ArgContext.defaultValue formal, broke := false,
                 mapping := m1 }
        | none =>
          (formalDiag DiagCode.ArgCannotBeEmpty named.range formal).map
            (fun d => { expr := none, argCtx := ArgContext.defaultValue formal, broke := false,
                        mapping := { m1 with state := m1.state.addDiag d } })
      | some _ =>
        some { expr := none, argCtx := ArgContext.callSite context, broke := false,
               mapping := m1 }
    | none =>
      match formal.defaultValueSyntax with
      | some e =>
        some { expr := some e, argCtx := ArgContext.defaultValue formal, broke := false,
               mapping := m }
      | none =>
        if m.namedArgs.isEmpty then
          (rangeDiag DiagCode.TooFewArguments range).map
            (fun d => { expr := none, argCtx := ArgContext.defaultValue formal, broke := true,
                        mapping := { m with bad := true,
                                            state := m.state.addDiag
                                              (((d.addArg symbolName).addArg
                                                (toString numFormals)).addArg
                                                (toString orderedArgs.length)) } })
        else
          (formalDiag DiagCode.UnconnectedArg range formal).map
            (fun d => { expr := none, argCtx := ArgContext.defaultValue formal, broke := false,
                        mapping := { m with state := m.state.addDiag d } })

/-- One turn of the loop over the formal ports (lines 755 to 844); the second
component tells that `break` was taken. -/
def mapFormal (checkAssertionArg : ArgChecker) (context : BindContext) (symbolName : String)
    (range : SourceRange) (numFormals : Nat) (orderedArgs : List ArgumentSyntax)
    (isRecursive : Bool) (formal : AssertionPortSymbol) (m : ArgMapping) :
    Option (ArgMapping × Bool) :=
  match chooseActual context symbolName range numFormals orderedArgs formal m with
  | none => none
  | some choice =>
    if choice.broke then some (choice.mapping, true)
    else
      match choice.expr with
      | none => some ({ choice.mapping with bad := true }, false)
      | some expr =>
        let m1 := choice.mapping.emplaceArgument formal expr choice.argCtx
        let checked := checkAssertionArg expr formal choice.argCtx isRecursive m1.state
        let m2 : ArgMapping :=
          match checked.1 with
          | none => { m1 with bad := true, state := checked.2 }
          | some arg => { m1 with actualArgs := m1.actualArgs ++ [(formal, arg)],
                                  state := checked.2 }
        let m3 : ArgMapping :=
          if !m2.outputLocalVarArgLoc.valid &&
              (formal.localVarDirection == some ArgumentDirection.InOut ||
                formal.localVarDirection == some ArgumentDirection.Out) then
            { m2 with outputLocalVarArgLoc := formal.location }
          else m2
        some (m3, false)

/-- The loop `for (auto formal : formalPorts)`. -/
def mapFormals (checkAssertionArg : ArgChecker) (context : BindContext) (symbolName : String)
    (range : SourceRange) (numFormals : Nat) (orderedArgs : List ArgumentSyntax)
    (isRecursive : Bool) : List AssertionPortSymbol → ArgMapping → Option ArgMapping
  | [], m => some m
  | formal :: rest, m =>
    match mapFormal checkAssertionArg context symbolName range numFormals orderedArgs
        isRecursive formal m with
    | none => none
    | some (m1, true) => some m1
    | some (m1, false) =>
      mapFormals checkAssertionArg context symbolName range numFormals orderedArgs
        isRecursive rest m1

/-- The loop over `namedArgs` after the mapping (lines 855 to 864): a named argument
left unused names no formal. -/
def checkUnusedNamed (symbolName : String) :
    List (String × NamedArgumentSyntax × Bool) → Bool × BindState → Option (Bool × BindState)
  | [], r => some r
  | (_, named, used) :: rest, (bad, s) =>
    if used then checkUnusedNamed symbolName rest (bad, s)
    else
      checkUnusedNamed symbolName rest
        (true, s.addDiag (((Diagnostic.create DiagCode.ArgDoesNotExist named.nameLocation).addArg
          named.name).addArg symbolName))

/-- Lines 749 to 864 of `AssertionInstanceExpression::fromLookup`: all arguments are
mapped to the formal ports, then surplus ordered arguments and unused named arguments
are reported. The result holds `bad`, `instance.argumentMap` and `actualArgs`. -/
def mapArguments (checkAssertionArg : ArgChecker) (context : BindContext) (symbolName : String)
    (range : SourceRange) (formalPorts : List AssertionPortSymbol)
    (orderedArgs : List ArgumentSyntax) (namedArgs : NamedArgMap) (isRecursive : Bool)
    (s : BindState) : Option ArgMapping :=
  let init : ArgMapping :=
    { orderedIndex := 0, namedArgs := namedArgs, bad := false, argumentMap := [],
      actualArgs := [], outputLocalVarArgLoc := { buffer := 0, offset := 0 }, state := s }
  match mapFormals checkAssertionArg context symbolName range formalPorts.length orderedArgs
      isRecursive formalPorts init with
  | none => none
  | some m =>
    let tooMany : Option ArgMapping :=
      if m.orderedIndex < orderedArgs.length then
        (rangeDiag DiagCode.TooManyArguments range).map
          (fun d => { m with bad := true,
                             state := m.state.addDiag
                               (((d.addArg symbolName).addArg
                                 (toString formalPorts.length)).addArg
                                 (toString orderedArgs.length)) })
      else some m
    match tooMany with
    | none => none
    | some m1 =>
      (checkUnusedNamed symbolName m1.namedArgs (m1.bad, m1.state)).map
        (fun r => { m1 with bad := r.1, state := r.2 })

/-- The end of `fromLookup` (lines 893 to 896): the instance is invalid when the
mapping went wrong or the bound body is invalid. -/
def instanceIsBad (m : ArgMapping) (bodyBad : Bool) : Bool :=
  m.bad || bodyBad

/-! ## MiscExpressions.cpp: `MinTypMaxExpression` -/

/-- The enumeration `MinTypMax` of `Compilation.h`. -/
inductive MinTypMax where
  | Min | Typ | Max
deriving DecidableEq, Repr

/-- The structure `CompilationOptions` of `Compilation.h`, with its defaults. -/
structure CompilationOptions where
  maxInstanceDepth : Nat := 128
  maxGenerateSteps : Nat := 131072
  maxConstexprDepth : Nat := 128
  maxConstexprSteps : Nat := 100000
  maxConstexprBacktrace : Nat := 10
  maxDefParamSteps : Nat := 128
  errorLimit : Nat := 64
  typoCorrectionLimit : Nat := 32
  minTypMax : MinTypMax := MinTypMax.Typ
  allowHierarchicalConst : Bool := false
  relaxEnumConversions : Bool := false
  allowDupInitialDrivers : Bool := false
  strictDriverChecking : Bool := false
  lintMode : Bool := false
  suppressUnused : Bool := true
deriving DecidableEq, Repr

/-- The result of a binding function: the expression, or the invalid expression that
`badExpr(compilation, child)` wraps around what was built. -/
inductive Bound (α : Type) where
  | ok (expr : α)
  | invalid (child : Option α)
deriving DecidableEq, Repr

/-- The member `Expression::bad` of a binding result. -/
def Bound.bad {α : Type} : Bound α → Bool
  | Bound.ok _ => false
  | Bound.invalid _ => true

/-- A `MinTypMaxExpressionSyntax` node, over the type `S` of expression syntax. -/
structure MinTypMaxExpressionSyntax (S : Type) where
  min : S
  typ : S
  max : S
  range : SourceRange

/-- The class `MinTypMaxExpression`, over the type `E` of bound expressions and the
type `T` of types. The member `selected_` points at one of the three operands and is
kept as the tag of that operand. -/
structure MinTypMaxExpression (E T : Type) where
  type : T
  min_ : E
  typ_ : E
  max_ : E
  selected_ : MinTypMax
  sourceRange : SourceRange

/-- The member `MinTypMaxExpression::selected`. -/
def MinTypMaxExpression.selected {E T : Type} (m : MinTypMaxExpression E T) : E :=
  match m.selected_ with
  | MinTypMax.Min => m.min_
  | MinTypMax.Typ => m.typ_
  | MinTypMax.Max => m.max_

/-- Lines 1133 to 1166 of `MinTypMaxExpression::fromSyntax`: the object `result`.
`create` is `Expression::create` with its extra flags and assignment target, and
`typeOf` reads the member `type` of a bound expression. -/
def MinTypMaxExpression.build {S E T : Type}
    (create : S → BindContext → bitmask BindFlags → Option T → E) (typeOf : E → T)
    (options : CompilationOptions) (syn : MinTypMaxExpressionSyntax S) (context : BindContext)
    (assignmentTarget : Option T) : MinTypMaxExpression E T :=
  let minFlags : bitmask BindFlags :=
    match options.minTypMax with
    | MinTypMax.Min => []
    | _ => [BindFlags.UnevaluatedBranch]
  let typFlags : bitmask BindFlags :=
    match options.minTypMax with
    | MinTypMax.Typ => []
    | _ => [BindFlags.UnevaluatedBranch]
  let maxFlags : bitmask BindFlags :=
    match options.minTypMax with
    | MinTypMax.Max => []
    | _ => [BindFlags.UnevaluatedBranch]
  let min := create syn.min context minFlags assignmentTarget
  let typ := create syn.typ context typFlags assignmentTarget
  let max := create syn.max context maxFlags assignmentTarget
  let selected : E :=
    match options.minTypMax with
    | MinTypMax.Min => min
    | MinTypMax.Typ => typ
    | MinTypMax.Max => max
  { type := typeOf selected, min_ := min, typ_ := typ, max_ := max,
    selected_ := options.minTypMax, sourceRange := syn.range }

/-- The function `MinTypMaxExpression::fromSyntax`; `bad` is `Expression::bad`. -/
def MinTypMaxExpression.fromSyntax {S E T : Type}
    (create : S → BindContext → bitmask BindFlags → Option T → E) (typeOf : E → T)
    (bad : E → Bool) (options : CompilationOptions) (syn : MinTypMaxExpressionSyntax S)
    (context : BindContext) (assignmentTarget : Option T) : Bound (MinTypMaxExpression E T) :=
  let result := MinTypMaxExpression.build create typeOf options syn context assignmentTarget
  if bad result.min_ || bad result.typ_ || bad result.max_ then Bound.invalid (some result)
  else Bound.ok result

/-- The function `MinTypMaxExpression::evalImpl`; `eval` is `Expression::eval`. -/
def MinTypMaxExpression.evalImpl {E T Ctx V : Type} (eval : E → Ctx → V)
    (m : MinTypMaxExpression E T) (context : Ctx) : V :=
  eval m.selected context

/-- The class `SVInt` without unknown bits: the width, the sign flag and the bits. -/
structure SVInt where
  width : Nat
  isSigned : Bool
  bits : Nat
deriving DecidableEq, Repr

/-- The constructor `SVInt(bits, value, isSigned)`: the value is cut to the width. -/
def SVInt.create (width : Nat) (value : Nat) (isSigned : Bool) : SVInt :=
  { width := width, isSigned := isSigned, bits := value % 2 ^ width }

/-- The variants of `ConstantValue` that the embedded code makes or inspects. -/
inductive ConstantValue where
  | null
  | integer (value : SVInt)
  | str (value : String)
  | queue (elements : List ConstantValue)
  | unbounded
  | unpackedUnion (activeMember : Nat) (value : ConstantValue)

/-- Modelled from the spec: the binding of an integer literal (LiteralExpressions.cpp);
the bound literal keeps its value whatever the flags. -/
def literalCreate (syn : Nat) (_context : BindContext) (_flags : bitmask BindFlags)
    (_assignmentTarget : Option SymbolKind) : Nat :=
  syn

/-- Modelled from the spec: the evaluation of a bound integer literal
(LiteralExpressions.cpp) is its value, as a signed 32-bit integer. -/
def literalEval (e : Nat) (_context : Unit) : ConstantValue :=
  ConstantValue.integer (SVInt.create 32 e true)

/-! ## MiscExpressions.cpp: `ValueExpressionBase::fromSymbol` -/

/-- A `LookupLocation`: a scope and an index into its members. -/
structure LookupLocation where
  scope : Option Scope
  index : Nat
deriving DecidableEq, Repr

/-- The variants of `ConstantValue` tested by the embedded code: `isUnbounded`. -/
def ConstantValue.isUnbounded : ConstantValue → Bool
  | ConstantValue.unbounded => true
  | _ => false

/-- What the embedded code asks of the symbol graph and of the lookup, answered by code
outside these sources: `ParameterSymbol::getValue` (and the same member of enum values
and specparams), `ConstraintBlockSymbol::isStatic`, `Symbol::getParentScope`,
`Symbol::isDeclaredBefore` and `Lookup::ensureAccessible`, which may issue
diagnostics. -/
structure SymbolGraph where
  getValue : Symbol → ConstantValue
  isStatic : Symbol → Bool
  getParentScope : Symbol → Option Scope
  isDeclaredBefore : Symbol → LookupLocation → Option Bool
  ensureAccessible : Symbol → BindContext → SourceRange → BindState → Bool × BindState

/-- Modelled from the spec: `Symbol::isValue` (Symbol.h) is not among the sources; the
value symbols are parameter, enum value, specparam, net and the variable kinds
(variable, formal argument, field, class property, iterator, clock var, local assertion
var). -/
def Symbol.isValue (s : Symbol) : Bool :=
  VariableSymbol.isKind s.kind || s.kind == SymbolKind.Parameter ||
    s.kind == SymbolKind.EnumValue || s.kind == SymbolKind.Specparam ||
    s.kind == SymbolKind.Net

/-- The constructor `LocalAssertionVarSymbol::LocalAssertionVarSymbol(name, loc)`: kind
`LocalAssertionVar`, automatic lifetime, no variable flag. The type is resolved from the
declaration afterwards, so its canonical kind is an argument here. -/
def LocalAssertionVarSymbol.create (name : String) (loc : SourceLocation)
    (typeKind : SymbolKind) : Symbol :=
  { kind := SymbolKind.LocalAssertionVar, name := name, location := loc, typeKind := typeKind,
    netKind := NetKind.Unknown, lifetime := VariableLifetime.Automatic, flags := [],
    hasInitializer := false, direction := ArgumentDirection.In }

/-- A rejection of `fromSymbol`: the diagnostic `code` at the range, with the name of the
symbol when `named`; the answer `true` tells the caller to return `badExpr`. -/
def rejectSymbol (code : DiagCode) (sourceRange : SourceRange) (symbol : Symbol) (named : Bool)
    (s : BindState) : Option (Bool × BindState) :=
  (rangeDiag code sourceRange).map
    (fun d => (true, s.addDiag (if named then d.addArg symbol.name else d)))

/-- Lines 35 to 87 of `fromSymbol`: the restrictions on the reference by kind of symbol.
The answer `true` stands for `return badExpr(comp, nullptr)`, the answer `false` for
leaving the chain of conditions. -/
def fromSymbolRestrictions (g : SymbolGraph) (context : BindContext) (symbol : Symbol)
    (sourceRange : SourceRange) (s : BindState) : Option (Bool × BindState) :=
  if VariableSymbol.isKind symbol.kind && symbol.lifetime == VariableLifetime.Automatic then
    if symbol.kind == SymbolKind.ClassProperty then
      let accessible := g.ensureAccessible symbol context sourceRange s
      if !accessible.1 then some (true, accessible.2) else some (false, accessible.2)
    else if context.flags.has BindFlags.NonProcedural then
      rejectSymbol DiagCode.AutoFromNonProcedural sourceRange symbol true s
    else if context.flags.has BindFlags.StaticInitializer then
      rejectSymbol DiagCode.AutoFromStaticInit sourceRange symbol true s
    else if context.flags.has BindFlags.NonBlockingTimingControl then
      rejectSymbol DiagCode.AutoFromNonBlockingTiming sourceRange symbol true s
    else if !context.flags.has BindFlags.AllowCoverageSampleFormal &&
        symbol.flags.has VariableFlags.CoverageSampleFormal then
      rejectSymbol DiagCode.CoverageSampleFormal sourceRange symbol true s
    else if context.flags.has BindFlags.EventExpression &&
        symbol.kind == SymbolKind.LocalAssertionVar then
      rejectSymbol DiagCode.LocalVarEventExpr sourceRange symbol true s
    else some (false, s)
  else if symbol.kind == SymbolKind.ConstraintBlock then
    if !g.isStatic symbol then
      some (false, (g.ensureAccessible symbol context sourceRange s).2)
    else some (false, s)
  else if symbol.kind == SymbolKind.Parameter &&
      !context.flags.has BindFlags.AllowUnboundedLiteral && (g.getValue symbol).isUnbounded then
    rejectSymbol DiagCode.UnboundedNotAllowed sourceRange symbol false s
  else if symbol.kind == SymbolKind.Net && symbol.netKind == NetKind.Interconnect &&
      !context.flags.has BindFlags.AllowInterconnect then
    rejectSymbol DiagCode.InterconnectReference sourceRange symbol true s
  else if symbol.kind == SymbolKind.ClockVar && !context.flags.has BindFlags.LValue &&
      symbol.direction == ArgumentDirection.Out then
    rejectSymbol DiagCode.ClockVarOutputRead sourceRange symbol true s
  else some (false, s)

/-- Lines 89 to 114 of `fromSymbol`: the expression for a symbol that passed the
restrictions. -/
def fromSymbolExpression (context : BindContext) (symbol : Symbol) (isHierarchical : Bool)
    (sourceRange : SourceRange) (constraintAllowed : Bool) (s : BindState) :
    Option (Bound Expression × BindState) :=
  if !symbol.isValue then
    if (symbol.kind == SymbolKind.ClockingBlock &&
          context.flags.has BindFlags.AllowClockingBlock) ||
        (symbol.kind == SymbolKind.ConstraintBlock && constraintAllowed) ||
        (symbol.kind == SymbolKind.Coverpoint && context.flags.has BindFlags.AllowCoverpoint) then
      some (Bound.ok (Expression.HierarchicalReference symbol sourceRange), s)
    else
      (rejectSymbol DiagCode.NotAValue sourceRange symbol true s).map
        (fun r => (Bound.invalid none, r.2))
  else if context.flags.has BindFlags.AssertionExpr && symbol.isCHandle then
    (rejectSymbol DiagCode.CHandleInAssertion sourceRange symbol false s).map
      (fun r => (Bound.invalid none, r.2))
  else if isHierarchical then some (Bound.ok (Expression.HierarchicalValue symbol sourceRange), s)
  else some (Bound.ok (Expression.NamedValue symbol sourceRange), s)

/-- The function `ValueExpressionBase::fromSymbol`. -/
def ValueExpressionBase.fromSymbol (g : SymbolGraph) (context : BindContext) (symbol : Symbol)
    (isHierarchical : Bool) (sourceRange : SourceRange) (constraintAllowed : Bool)
    (s : BindState) : Option (Bound Expression × BindState) :=
  match fromSymbolRestrictions g context symbol sourceRange s with
  | none => none
  | some (true, s1) => some (Bound.invalid none, s1)
  | some (false, s1) =>
    fromSymbolExpression context symbol isHierarchical sourceRange constraintAllowed s1

/-! ## MiscExpressions.cpp: constant evaluation of value expressions -/

/-- The flags of `EvalFlags` that the embedded sources name. -/
inductive EvalFlags where
  | IsScript | CovergroupExpr | SpecparamsAllowed
deriving DecidableEq, Repr

/-- The structure `EvalContext::Frame`: the local values, the subroutine that runs in
the frame (none for an empty frame), and the location and lookup location of the call. -/
structure Frame where
  temporaries : List (Symbol × ConstantValue)
  subroutine : Option Scope
  callLocation : SourceLocation
  lookupLocation : LookupLocation

/-- The class `EvalContext` as far as the embedded code reads it: the options of its
compilation, the flags, the call stack (bottom frame first), the queue target, and the
diagnostics issued so far. -/
structure EvalContext where
  options : CompilationOptions
  flags : bitmask EvalFlags
  stack : List Frame
  queueTarget : Option ConstantValue
  diags : List BindDiag

/-- The codes of the diagnostics issued so far, oldest first. -/
def EvalContext.codes (context : EvalContext) : List DiagCode :=
  context.diags.map Diagnostic.code

/-- Modelled from the spec: `EvalContext::addDiag(code, range)` (EvalContext.cpp) adds to
the diagnostics of the context through the append API of the store and hands back the
record for streaming; here the finished record is appended. The notes that describe the
call stack are left out. -/
def EvalContext.addDiag (context : EvalContext) (d : BindDiag) : EvalContext :=
  { context with diags := context.diags ++ [d] }

/-- Modelled from the spec: `EvalContext::inFunction` (EvalContext.h) is not among the
sources; the context is within a function call when a frame has been pushed on the
bottom frame of the stack. -/
def EvalContext.inFunction (context : EvalContext) : Bool :=
  decide (1 < context.stack.length)

/-- Modelled from the spec: `EvalContext::topFrame` (EvalContext.h) is the last frame
pushed; there is none on an empty stack. -/
def EvalContext.topFrame (context : EvalContext) : Option Frame :=
  context.stack.getLast?

/-- The test `ConstantValue::bad`: the value is the null placeholder. -/
def ConstantValue.bad : ConstantValue → Bool
  | ConstantValue.null => true
  | _ => false

/-- The cast `(int32_t)` of a size. -/
def toInt32 (n : Nat) : Int :=
  if n % 2 ^ 32 < 2 ^ 31 then ((n % 2 ^ 32 : Nat) : Int) else ((n % 2 ^ 32 : Nat) : Int) - 2 ^ 32

/-- The cast `uint64_t(...)` of a signed value. -/
def toUInt64 (i : Int) : Nat :=
  (i % 2 ^ 64).toNat

/-- The call `target->queue()->size()`; a target that is not a queue has none. -/
def ConstantValue.queueSize : ConstantValue → Option Nat
  | ConstantValue.queue elements => some elements.length
  | _ => none

/-- The function `ValueExpressionBase::checkConstantBase`; the type of the expression
is the type of its symbol. -/
def checkConstantBase (self : ValueExpressionBase) (context : EvalContext) :
    Option (Bool × EvalContext) :=
  if self.symbol.typeKind == SymbolKind.ClassType then
    (rangeDiag DiagCode.ConstEvalClassType self.sourceRange).map
      (fun d => (false, context.addDiag d))
  else if self.symbol.typeKind == SymbolKind.CovergroupType then
    (rangeDiag DiagCode.ConstEvalCovergroupType self.sourceRange).map
      (fun d => (false, context.addDiag d))
  else if self.symbol.kind == SymbolKind.Specparam &&
      !context.flags.has EvalFlags.SpecparamsAllowed then
    (rangeDiag DiagCode.SpecparamInConstant self.sourceRange).map
      (fun d => (false, context.addDiag d))
  else some (true, context)

/-- The value of a parameter in a constant expression (lines 416 to 423, and the same
lines 282 to 289): the unbounded value stands for the last index of the queue target
when there is one. -/
def parameterValue (g : SymbolGraph) (symbol : Symbol) (context : EvalContext) :
    Option ConstantValue :=
  let v := g.getValue symbol
  if v.isUnbounded then
    match context.queueTarget with
    | some target =>
      target.queueSize.map
        (fun size => ConstantValue.integer (SVInt.create 32 (toUInt64 (toInt32 size - 1)) true))
    | none => some v
  else some v

/-- The diagnostic `ConstEvalHierarchicalName` of `HierarchicalValueExpression::evalImpl`:
at the range, with the name of the symbol; the result is null. -/
def hierarchicalName (self : ValueExpressionBase) (context : EvalContext) :
    Option (ConstantValue × EvalContext) :=
  (rangeDiag DiagCode.ConstEvalHierarchicalName self.sourceRange).map
    (fun d => (ConstantValue.null, context.addDiag (d.addArg self.symbol.name)))

/-- The function `HierarchicalValueExpression::evalImpl`. The default branch of the
second switch, `THROW_UNREACHABLE`, is the `none` result. -/
def HierarchicalValueExpression.evalImpl (g : SymbolGraph) (self : ValueExpressionBase)
    (context : EvalContext) : Option (ConstantValue × EvalContext) :=
  if !context.options.allowHierarchicalConst then hierarchicalName self context
  else
    match checkConstantBase self context with
    | none => none
    | some (false, c1) => some (ConstantValue.null, c1)
    | some (true, c1) =>
      if self.symbol.kind == SymbolKind.Parameter || self.symbol.kind == SymbolKind.EnumValue ||
          self.symbol.kind == SymbolKind.Specparam then
        match self.symbol.kind with
        | SymbolKind.Parameter => (parameterValue g self.symbol c1).map (fun v => (v, c1))
        | SymbolKind.EnumValue => some (g.getValue self.symbol, c1)
        | SymbolKind.Specparam => some (g.getValue self.symbol, c1)
        | _ => none
      else hierarchicalName self c1

/-- The scope and the scopes around it, innermost first. -/
def Scope.enclosing : Scope → List Scope
  | Scope.top sym => [Scope.top sym]
  | Scope.nested sym parent => Scope.nested sym parent :: parent.enclosing

/-- The loop `while (scope && scope != subroutine) scope = ...getParentScope()` of
`checkConstant`, from a non-null scope: the scope it stops at, none for null. Scopes
are compared as pointers in the source and here by their symbol and enclosing scopes. -/
def walkToSubroutine (subroutine : Scope) : Scope → Option Scope
  | Scope.top sym => if Scope.top sym = subroutine then some (Scope.top sym) else none
  | Scope.nested sym parent =>
    if Scope.nested sym parent = subroutine then some (Scope.nested sym parent)
    else walkToSubroutine subroutine parent

/-- The record of the two diagnostics of `checkConstant`: at the range of the reference,
with the given arguments and a note at the declaration of the symbol. -/
def constantFunctionDiag (code : DiagCode) (self : ValueExpressionBase) (args : List String) :
    BindDiag :=
  Diagnostic.mk code self.sourceRange.start none args
    [(self.sourceRange.start, self.sourceRange.stop)]
    [Diagnostic.create DiagCode.NoteDeclarationHere self.symbol.location]

/-- The rejection of `checkConstant`: the diagnostic, with the name of the symbol when
`named`, and a note at its declaration; the assertions of the range insertion and of
`addNote` are the `none` result. -/
def rejectInFunction (code : DiagCode) (self : ValueExpressionBase) (named : Bool)
    (context : EvalContext) : Option (Bool × EvalContext) :=
  match rangeDiag code self.sourceRange with
  | none => none
  | some d =>
    ((if named then d.addArg self.symbol.name else d).addNote SourceLocation.valid
        DiagCode.NoteDeclarationHere self.symbol.location).map
      (fun d1 => (false, context.addDiag d1))

/-- Lines 361 to 390 of `checkConstant`: the rules for a reference inside the constant
function `subroutine` called from `lookupLocation`. -/
def checkInFunction (g : SymbolGraph) (self : ValueExpressionBase) (subroutine : Scope)
    (lookupLocation : LookupLocation) (context : EvalContext) : Option (Bool × EvalContext) :=
  if self.symbol.kind != SymbolKind.Parameter && self.symbol.kind != SymbolKind.EnumValue then
    let scope : Option Scope :=
      match g.getParentScope self.symbol with
      | none => none
      | some parent => walkToSubroutine subroutine parent
    if scope != some subroutine then
      rejectInFunction DiagCode.ConstEvalFunctionIdentifiersMustBeLocal self false context
    else some (true, context)
  else
    let compare := g.isDeclaredBefore self.symbol lookupLocation
    if !compare.getD true then
      let scope := g.getParentScope self.symbol
      if scope.isNone ||
          (match scope with
            | some sc => sc.asSymbol.kind != SymbolKind.Package
            | none => true) ||
          scope == lookupLocation.scope then
        rejectInFunction DiagCode.ConstEvalIdUsedInCEBeforeDecl self true context
      else some (true, context)
    else some (true, context)

/-- The function `NamedValueExpression::checkConstant`. -/
def NamedValueExpression.checkConstant (g : SymbolGraph) (self : ValueExpressionBase)
    (context : EvalContext) : Option (Bool × EvalContext) :=
  if context.flags.has EvalFlags.IsScript then some (true, context)
  else
    match checkConstantBase self context with
    | none => none
    | some (false, c1) => some (false, c1)
    | some (true, c1) =>
      if !c1.inFunction then some (true, c1)
      else
        match c1.topFrame with
        | none => none
        | some frame =>
          match frame.subroutine with
          | none => some (true, c1)
          | some subroutine => checkInFunction g self subroutine frame.lookupLocation c1

/-! ## MiscExpressions.cpp: `AssertionInstanceExpression::fromLookup` -/

/-- The value of a pointer to `BindContext::AssertionInstanceDetails`: null, or the
details of an instance: the instantiated symbol, the mark `isRecursive`, the pointer
`argDetails`, whether `prevContext` is set, and the member `assertionInstance` of that
previous context. -/
inductive AssertionInstanceDetails where
  | null
  | details (symbol : Symbol) (isRecursive : Bool) (argDetails : AssertionInstanceDetails)
      (hasPrevContext : Bool) (prevInstance : AssertionInstanceDetails)
deriving DecidableEq, Repr

/-- How the check for recursive instantiation (lines 714 to 747) ends: the loop runs to
the end of the chain, leaving `instance.isRecursive` as given; or the instance is
rejected with a diagnostic; or the placeholder of a recursive property is returned. -/
inductive RecursionCheck where
  | proceed (isRecursive : Bool)
  | rejected (code : DiagCode)
  | placeholder
deriving DecidableEq, Repr

/-- One turn of the loop, up to the step to the next instance: it returns, or goes on
with the new value of `instance.isRecursive`. -/
inductive RecursionStep where
  | done (result : RecursionCheck)
  | next (isRecursive : Bool)
deriving DecidableEq, Repr

/-- The body of `if (currInst->symbol == &symbol)` and what follows it in one turn of
the loop (lines 718 to 739), for the instance `currInst` of symbol `current` and mark
`currentIsRecursive`. -/
def visitInstance (symbol current : Symbol) (currentIsRecursive : Bool) (isRecursive : Bool) :
    RecursionStep :=
  if current = symbol then
    if symbol.kind = SymbolKind.Sequence then
      RecursionStep.done (RecursionCheck.rejected DiagCode.RecursiveSequence)
    else if symbol.kind = SymbolKind.LetDecl then
      RecursionStep.done (RecursionCheck.rejected DiagCode.RecursiveLet)
    else if currentIsRecursive then RecursionStep.done RecursionCheck.placeholder
    else RecursionStep.next true
  else RecursionStep.next isRecursive

/-- The loop `while (currInst)` of `fromLookup` (lines 716 to 747), from the value of
`currInst` and of `instance.isRecursive`. The step goes to `argDetails` when it is set
and else to the instance of the previous context; `ASSERT(currInst->prevContext)` is the
`none` result. -/
def checkRecursion (symbol : Symbol) : AssertionInstanceDetails → Bool → Option RecursionCheck
  | AssertionInstanceDetails.null, isRecursive => some (RecursionCheck.proceed isRecursive)
  | AssertionInstanceDetails.details current currentIsRecursive argDetails hasPrevContext
      prevInstance, isRecursive =>
    match visitInstance symbol current currentIsRecursive isRecursive with
    | RecursionStep.done result => some result
    | RecursionStep.next isRecursive1 =>
      match argDetails with
      | AssertionInstanceDetails.null =>
        if hasPrevContext then checkRecursion symbol prevInstance isRecursive1 else none
      | AssertionInstanceDetails.details _ _ _ _ _ =>
        checkRecursion symbol argDetails isRecursive1

/-- The instances that the loop walks through when it does not return early: the symbol
and the mark of each, innermost first. -/
def AssertionInstanceDetails.chain : AssertionInstanceDetails → List (Symbol × Bool)
  | AssertionInstanceDetails.null => []
  | AssertionInstanceDetails.details current currentIsRecursive argDetails hasPrevContext
      prevInstance =>
    (current, currentIsRecursive) ::
      (match argDetails with
        | AssertionInstanceDetails.null => if hasPrevContext then prevInstance.chain else []
        | AssertionInstanceDetails.details _ _ _ _ _ => argDetails.chain)

/-- An `AssertionExpr` as far as `fromLookup` looks at it: the identity of the bound
node, none for the `InvalidAssertionExpr(nullptr)` made for a placeholder, and the
answer of `bad()`. -/
structure AssertionExpr where
  node : Option Nat
  bad : Bool
deriving DecidableEq, Repr

/-- The class `AssertionInstanceExpression`. -/
structure AssertionInstanceExpression where
  typeKind : SymbolKind
  symbol : Symbol
  body : AssertionExpr
  isRecursiveProperty : Bool
  arguments : List (AssertionPortSymbol × ActualArg)
  localVars : List Symbol
  sourceRange : SourceRange
deriving DecidableEq, Repr

/-- What `fromLookup` returns: `badExpr(comp, child)`, the instance expression, or for a
let declaration the expression that its body expands to. -/
inductive InstanceResult (E : Type) where
  | invalid (child : Option AssertionInstanceExpression)
  | expanded (expr : AssertionInstanceExpression)
  | letExpansion (expr : E)

/-- The function `bindAssertionBody`, whose binding calls lie outside these sources, as a
state transformer: from the symbol, the details of the new instance, its argument map
and the location of the first output local variable formal, to the bound body and the
local variables; none when the binding does not return. -/
abbrev BodyBinder :=
  Symbol → AssertionInstanceDetails → List (AssertionPortSymbol × PropertyExprSyntax × ArgContext) →
    SourceLocation → BindState → Option (AssertionExpr × List Symbol × BindState)

/-- The call `create(comp, *exprSyntax, bodyContext)` for a let declaration; none when
the binding does not return. -/
abbrev LetBinder (E : Type) :=
  Symbol → AssertionInstanceDetails → List (AssertionPortSymbol × PropertyExprSyntax × ArgContext) →
    BindState → Option (E × BindState)

/-- The first switch of `fromLookup` (lines 676 to 700): the kind of the type of the
instance; `THROW_UNREACHABLE` for any other symbol is the `none` result. -/
def instanceTypeKind (kind : SymbolKind) : Option SymbolKind :=
  match kind with
  | SymbolKind.Sequence => some SymbolKind.SequenceType
  | SymbolKind.Property => some SymbolKind.PropertyType
  | SymbolKind.LetDecl => some SymbolKind.VoidType
  | _ => none

/-- Lines 886 to 891 of `fromLookup`: the position of a recursive property instance. -/
def checkRecursivePosition (context : BindContext) (range : SourceRange) (isRecursive : Bool)
    (s : BindState) : Option BindState :=
  if isRecursive then
    if !context.flags.has BindFlags.PropertyTimeAdvance then
      (rangeDiag DiagCode.RecursivePropTimeAdvance range).map (fun d => s.addDiag d)
    else if context.flags.has BindFlags.PropertyNegation then
      (rangeDiag DiagCode.RecursivePropNegation range).map (fun d => s.addDiag d)
    else some s
  else some s

/-- Where `fromLookup` stands after the argument mapping (line 864): it has returned
`badExpr(comp, nullptr)`, or it has returned the placeholder of a recursive property, or
it goes on to the body with the type of the instance, the local `instance` (its symbol,
its mark `isRecursive`, no `argDetails`, the context of the call as `prevContext`) and
the outcome of the mapping. -/
inductive Prepared where
  | rejected (s : BindState)
  | placeholder (expr : AssertionInstanceExpression) (s : BindState)
  | mapped (typeKind : SymbolKind) (details : AssertionInstanceDetails) (isRecursive : Bool)
      (mapping : ArgMapping)

/-- Lines 676 to 864 of `AssertionInstanceExpression::fromLookup`: the switch over the
kind of the symbol, the return on a failed `collectArgs`, the recursion check and the
argument mapping. The outcome of `collectArgs` (CallExpression.cpp) is an argument:
none when it failed, else the ordered and the named arguments (both empty when the call
has no argument list); `s` is the state it left. `assertionInstance` is the member of
that name of the context. -/
def AssertionInstanceExpression.prepare (checkAssertionArg : ArgChecker) (symbol : Symbol)
    (formalPorts : List AssertionPortSymbol)
    (collected : Option (List ArgumentSyntax × NamedArgMap)) (range : SourceRange)
    (context : BindContext) (assertionInstance : AssertionInstanceDetails) (s : BindState) :
    Option Prepared :=
  match instanceTypeKind symbol.kind with
  | none => none
  | some typeKind =>
    match collected with
    | none => some (Prepared.rejected s)
    | some (orderedArgs, namedArgs) =>
      match checkRecursion symbol assertionInstance false with
      | none => none
      | some (RecursionCheck.rejected code) =>
        (rangeDiag code range).map
          (fun d => Prepared.rejected (s.addDiag (d.addArg symbol.name)))
      | some RecursionCheck.placeholder =>
        some (Prepared.placeholder
          { typeKind := typeKind, symbol := symbol, body := { node := none, bad := true },
            isRecursiveProperty := true, arguments := [], localVars := [],
            sourceRange := range } s)
      | some (RecursionCheck.proceed isRecursive) =>
        (mapArguments checkAssertionArg context symbol.name range formalPorts orderedArgs
            namedArgs isRecursive s).map
          (fun m => Prepared.mapped typeKind
            (AssertionInstanceDetails.details symbol isRecursive AssertionInstanceDetails.null
              true assertionInstance) isRecursive m)

/-- Lines 866 to 896 of `AssertionInstanceExpression::fromLookup`: a let declaration
expands to its expression, bound in the body context; for a sequence or property the
body is bound in the body context, whose assertion instance is the new instance, and
the instance expression is made of it. -/
def AssertionInstanceExpression.expand {E : Type} (bindAssertionBody : BodyBinder)
    (createLet : LetBinder E) (symbol : Symbol) (range : SourceRange) (context : BindContext)
    (typeKind : SymbolKind) (details : AssertionInstanceDetails) (isRecursive : Bool)
    (m : ArgMapping) : Option (InstanceResult E × BindState) :=
  if symbol.kind == SymbolKind.LetDecl then
    (createLet symbol details m.argumentMap m.state).map
      (fun r => (InstanceResult.letExpansion r.1, r.2))
  else
    match bindAssertionBody symbol details m.argumentMap m.outputLocalVarArgLoc m.state with
    | none => none
    | some b =>
      let result : AssertionInstanceExpression :=
        { typeKind := typeKind, symbol := symbol, body := b.1, isRecursiveProperty := false,
          arguments := m.actualArgs, localVars := b.2.1, sourceRange := range }
      match checkRecursivePosition context range isRecursive b.2.2 with
      | none => none
      | some s1 =>
        if m.bad || b.1.bad then some (InstanceResult.invalid (some result), s1)
        else some (InstanceResult.expanded result, s1)

/-- The function `AssertionInstanceExpression::fromLookup`: lines 676 to 864, then,
unless it has returned, lines 866 to 896. -/
def AssertionInstanceExpression.fromLookup {E : Type} (checkAssertionArg : ArgChecker)
    (bindAssertionBody : BodyBinder) (createLet : LetBinder E) (symbol : Symbol)
    (formalPorts : List AssertionPortSymbol)
    (collected : Option (List ArgumentSyntax × NamedArgMap)) (range : SourceRange)
    (context : BindContext) (assertionInstance : AssertionInstanceDetails) (s : BindState) :
    Option (InstanceResult E × BindState) :=
  match AssertionInstanceExpression.prepare checkAssertionArg symbol formalPorts collected range
      context assertionInstance s with
  | none => none
  | some (Prepared.rejected s1) => some (InstanceResult.invalid none, s1)
  | some (Prepared.placeholder expr s1) => some (InstanceResult.expanded expr, s1)
  | some (Prepared.mapped typeKind details isRecursive m) =>
    AssertionInstanceExpression.expand bindAssertionBody createLet symbol range context
      typeKind details isRecursive m

/-- A reference to a sequence, property or let declaration inside a body: the symbol
referred to, the outcome of `collectArgs` for its argument list, its range, and the
binding context it stands in, apart from the assertion instance of that context. -/
structure AssertionReference where
  symbol : Symbol
  collected : Option (List ArgumentSyntax × NamedArgMap)
  range : SourceRange
  context : BindContext

/-- The loop of the recursion check over the instances it walks through, listed
innermost first by symbol and mark, when that list ends at a null pointer. -/
def walkChain (symbol : Symbol) : List (Symbol × Bool) → Bool → RecursionCheck
  | [], isRecursive => RecursionCheck.proceed isRecursive
  | (current, currentIsRecursive) :: rest, isRecursive =>
    match visitInstance symbol current currentIsRecursive isRecursive with
    | RecursionStep.done result => result
    | RecursionStep.next isRecursive1 => walkChain symbol rest isRecursive1

/-- A nest of instances: `fromLookup` is called for the first reference of `path` in a
context whose assertion instance is given, for the second inside the body of the first,
and so on; each reference comes with the state it is bound from. The result lists the
instances for which `fromLookup` goes on to the body, outermost first, each with its
mark `isRecursive`; there is none when one of the calls returns before the body or
fails an assertion. -/
def nestedExpansions (checkAssertionArg : ArgChecker) (ports : Symbol → List AssertionPortSymbol) :
    List (AssertionReference × BindState) → AssertionInstanceDetails →
      Option (List (Symbol × Bool))
  | [], _ => some []
  | (reference, s) :: rest, assertionInstance =>
    match AssertionInstanceExpression.prepare checkAssertionArg reference.symbol
        (ports reference.symbol) reference.collected reference.range reference.context
        assertionInstance s with
    | some (Prepared.mapped _ details isRecursive _) =>
      (nestedExpansions checkAssertionArg ports rest details).map
        (fun more => (reference.symbol, isRecursive) :: more)
    | _ => none

/-- The assertion instance of the innermost body context of a nest of instances, listed
outermost first, that starts in a context whose assertion instance is given. -/
def innermostInstance : List (Symbol × Bool) → AssertionInstanceDetails →
    AssertionInstanceDetails
  | [], assertionInstance => assertionInstance
  | (symbol, isRecursive) :: rest, assertionInstance =>
    innermostInstance rest
      (AssertionInstanceDetails.details symbol isRecursive AssertionInstanceDetails.null true
        assertionInstance)

/-- The class `FieldSymbol` as far as the tagged union code reads it: the name, the
canonical kind of the type, and the offset among the members. -/
structure FieldSymbol where
  name : String
  typeKind : SymbolKind
  offset : Nat
deriving DecidableEq, Repr

/-- A type as far as the tagged union code reads it: its printed name, the answers of
`isTaggedUnion`, `isError` and `isUnpackedUnion`, the tag bits and the bit width of a
packed union, and the members of its canonical type taken as a scope. -/
structure UnionType where
  name : String
  isTaggedUnion : Bool
  isError : Bool
  isUnpackedUnion : Bool
  tagBits : Nat
  bitWidth : Nat
  members : List FieldSymbol
deriving DecidableEq, Repr

/-- Modelled from the spec: `Scope::find` (Scope.h) is not among the sources; it is the
by-name lookup of a scope among its own members. -/
def UnionType.find (t : UnionType) (name : String) : Option FieldSymbol :=
  t.members.find? (fun f => decide (f.name = name))

/-- A `TaggedUnionExpressionSyntax` node `tagged member expr`, over the type `S` of
expression syntax: the text and the range of the member token, the expression when
there is one with the location of its first token, and the range of the node. -/
structure TaggedUnionExpressionSyntax (S : Type) where
  member : String
  memberRange : SourceRange
  expr : Option (S × SourceLocation)
  range : SourceRange

/-- The class `TaggedUnionExpression`, over the type `E` of bound expressions. -/
structure TaggedUnionExpression (E : Type) where
  type : UnionType
  member : FieldSymbol
  valueExpr : Option E
  sourceRange : SourceRange

/-- The function `TaggedUnionExpression::fromSyntax`; `bindRValue` is
`Expression::bindRValue` for the type of the field and `bad` is `Expression::bad`. -/
def TaggedUnionExpression.fromSyntax {S E : Type}
    (bindRValue : SymbolKind → S → SourceLocation → BindContext → BindState → E × BindState)
    (bad : E → Bool) (syn : TaggedUnionExpressionSyntax S) (context : BindContext)
    (assignmentTarget : Option UnionType) (s : BindState) :
    Option (Bound (TaggedUnionExpression E) × BindState) :=
  match assignmentTarget with
  | none =>
    (rangeDiag DiagCode.TaggedUnionTarget syn.range).map
      (fun d => (Bound.invalid none, s.addDiag d))
  | some target =>
    if !target.isTaggedUnion then
      if !target.isError then
        (rangeDiag DiagCode.TaggedUnionTarget syn.range).map
          (fun d => (Bound.invalid none, s.addDiag d))
      else some (Bound.invalid none, s)
    else
      match target.find syn.member with
      | none =>
        if !syn.member.isEmpty then
          (rangeDiag DiagCode.UnknownMember syn.memberRange).map
            (fun d => (Bound.invalid none,
              s.addDiag ((d.addArg syn.member).addArg target.name)))
        else some (Bound.invalid none, s)
      | some field =>
        match syn.expr with
        | some (expr, location) =>
          let bound := bindRValue field.typeKind expr location context s
          let result : TaggedUnionExpression E :=
            { type := target, member := field, valueExpr := some bound.1,
              sourceRange := syn.range }
          if bad bound.1 then some (Bound.invalid (some result), bound.2)
          else some (Bound.ok result, bound.2)
        | none =>
          if !(field.typeKind == SymbolKind.VoidType) then
            (rangeDiag DiagCode.TaggedUnionMissingInit syn.range).map
              (fun d => (Bound.invalid none, s.addDiag (d.addArg field.name)))
          else
            some (Bound.ok { type := target, member := field, valueExpr := none,
                             sourceRange := syn.range }, s)

/-! ## MiscExpressions.cpp: `MinTypMaxExpression::propagateType` -/

/-- The function `MinTypMaxExpression::propagateType`: `type = &newType;
contextDetermined(context, selected_, newType); return true;`. `contextDetermined` is
the function of that name of `Expression`, which hands back the operand that
`selected_` points at afterwards; here that operand takes the place of the selected
one. -/
def MinTypMaxExpression.propagateType {E T : Type} (contextDetermined : BindContext → E → T → E)
    (m : MinTypMaxExpression E T) (context : BindContext) (newType : T) :
    Bool × MinTypMaxExpression E T :=
  (true,
    match m.selected_ with
    | MinTypMax.Min =>
      { m with type := newType, min_ := contextDetermined context m.min_ newType }
    | MinTypMax.Typ =>
      { m with type := newType, typ_ := contextDetermined context m.typ_ newType }
    | MinTypMax.Max =>
      { m with type := newType, max_ := contextDetermined context m.max_ newType })

/-- The flags that `MinTypMaxExpression::fromSyntax` passes to `create` for the operand
`branch` (lines 1133 to 1146). -/
def MinTypMaxExpression.branchFlags (options : CompilationOptions) (branch : MinTypMax) :
    bitmask BindFlags :=
  if options.minTypMax = branch then [] else [BindFlags.UnevaluatedBranch]

/-! ## MiscExpressions.cpp: `NamedValueExpression::evalImpl` -/

/-- Modelled from the spec: `EvalContext::findLocal` (EvalContext.cpp) looks the symbol up
among the local values of the top frame and yields a pointer to its value, null when
there is none. The outer `none` is the missing top frame of an empty stack. -/
def EvalContext.findLocal (context : EvalContext) (symbol : Symbol) :
    Option (Option ConstantValue) :=
  context.topFrame.map
    (fun frame => (frame.temporaries.find? (fun p => decide (p.1 = symbol))).map Prod.snd)

/-- The statement `context.addDiag(diag::CoverageExprVar, sourceRange)` followed by the
null result of the covergroup branch. -/
def coverageExprVar (self : ValueExpressionBase) (context : EvalContext) :
    Option (ConstantValue × EvalContext) :=
  (rangeDiag DiagCode.CoverageExprVar self.sourceRange).map
    (fun d => (ConstantValue.null, context.addDiag d))

/-- The branch of `NamedValueExpression::evalImpl` for covergroup expressions (lines
308 to 321). -/
def NamedValueExpression.covergroupExpr (self : ValueExpressionBase) (context : EvalContext) :
    Option (ConstantValue × EvalContext) :=
  if self.symbol.kind == SymbolKind.FormalArgument then
    if self.symbol.direction == ArgumentDirection.Ref then coverageExprVar self context
    else some (ConstantValue.null, context)
  else if VariableSymbol.isKind self.symbol.kind then
    if !self.symbol.flags.has VariableFlags.Const then coverageExprVar self context
    else some (ConstantValue.null, context)
  else if self.symbol.kind != SymbolKind.Parameter &&
      self.symbol.kind != SymbolKind.EnumValue then
    coverageExprVar self context
  else some (ConstantValue.null, context)

/-- The end of `NamedValueExpression::evalImpl` (lines 323 to 327): the diagnostic
`ConstEvalNonConstVariable` with the name of the symbol and a note at its declaration;
the result is null. -/
def NamedValueExpression.notConstant (self : ValueExpressionBase) (context : EvalContext) :
    Option (ConstantValue × EvalContext) :=
  match rangeDiag DiagCode.ConstEvalNonConstVariable self.sourceRange with
  | none => none
  | some d =>
    ((d.addArg self.symbol.name).addNote SourceLocation.valid DiagCode.NoteDeclarationHere
        self.symbol.location).map
      (fun d1 => (ConstantValue.null, context.addDiag d1))

/-- The function `NamedValueExpression::evalImpl`. -/
def NamedValueExpression.evalImpl (g : SymbolGraph) (self : ValueExpressionBase)
    (context : EvalContext) : Option (ConstantValue × EvalContext) :=
  match NamedValueExpression.checkConstant g self context with
  | none => none
  | some (false, c1) => some (ConstantValue.null, c1)
  | some (true, c1) =>
    match self.symbol.kind with
    | SymbolKind.Parameter => (parameterValue g self.symbol c1).map (fun v => (v, c1))
    | SymbolKind.EnumValue => some (g.getValue self.symbol, c1)
    | SymbolKind.Specparam => some (g.getValue self.symbol, c1)
    | _ =>
      match c1.findLocal self.symbol with
      | none => none
      | some (some v) => some (v, c1)
      | some none =>
        if c1.flags.has EvalFlags.CovergroupExpr then
          NamedValueExpression.covergroupExpr self c1
        else NamedValueExpression.notConstant self c1

/-! ## MiscExpressions.cpp: `TaggedUnionExpression::evalImpl` -/

/-- Modelled from the spec: `SVInt::set(msb, lsb, value)` (SVInt.cpp) is not among the
sources; it replaces the bits `lsb` to `msb` of the number by the low bits of `value`,
the lowest of them landing on bit `lsb`. Positions outside the number are dropped and
an empty range changes nothing. -/
def SVInt.set (x : SVInt) (msb lsb : Int) (value : SVInt) : SVInt :=
  if msb < lsb then x
  else
    let lo := lsb.toNat
    let hi := (msb + 1).toNat
    let len := (msb - lsb + 1).toNat
    let field :=
      if lsb < 0 then value.bits % 2 ^ len / 2 ^ (-lsb).toNat
      else value.bits % 2 ^ len * 2 ^ lo
    { x with bits := (x.bits / 2 ^ hi * 2 ^ hi + field + x.bits % 2 ^ lo) % 2 ^ x.width }

/-- The difference of two `uint32_t` values. -/
def subUInt32 (a b : Nat) : Nat :=
  (a % 2 ^ 32 + 2 ^ 32 - b % 2 ^ 32) % 2 ^ 32

/-- The function `TaggedUnionExpression::evalImpl`. `eval` is `Expression::eval` and
`getDefaultValue` is `Type::getDefaultValue`; the call `integer()` on a value of another
variant is the `none` result. -/
def TaggedUnionExpression.evalImpl {E : Type}
    (eval : E → EvalContext → ConstantValue × EvalContext)
    (getDefaultValue : UnionType → ConstantValue) (self : TaggedUnionExpression E)
    (context : EvalContext) : Option (ConstantValue × EvalContext) :=
  let init : ConstantValue × EvalContext :=
    match self.valueExpr with
    | some e => eval e context
    | none => (ConstantValue.null, context)
  if self.valueExpr.isSome && init.1.bad then some (ConstantValue.null, init.2)
  else if self.type.isUnpackedUnion then
    some (ConstantValue.unpackedUnion self.member.offset init.1, init.2)
  else
    let tagBits := self.type.tagBits
    if tagBits == 0 then some (ConstantValue.null, init.2)
    else
      match getDefaultValue self.type with
      | ConstantValue.integer resultInt =>
        let bits := resultInt.width
        let tagged := resultInt.set (toInt32 (subUInt32 bits 1)) (toInt32 (subUInt32 bits tagBits))
          (SVInt.create tagBits self.member.offset false)
        if init.1.bad then some (ConstantValue.integer tagged, init.2)
        else
          match init.1 with
          | ConstantValue.integer valInt =>
            some (ConstantValue.integer
              (tagged.set (toInt32 (subUInt32 valInt.width 1)) 0 valInt), init.2)
          | _ => none
      | _ => none

/-! ## CoverSymbols.cpp: lazy resolution of coverage bins -/

/-- The enumeration `TransRangeList::RepeatKind`. -/
inductive RepeatKind where
  | None | Consecutive | Nonconsecutive | GoTo
deriving DecidableEq, Repr

/-- The kinds of the specifier token of a transition repeat range, and any other. -/
inductive TokenKind where
  | Star | Equals | MinusArrow | Other
deriving DecidableEq, Repr

/-- The selector of a transition repeat range, over the type `S` of expression
syntax: a `BitSelect` or a `RangeSelect`. -/
inductive RepeatSelectorSyntax (S : Type) where
  | BitSelect (expr : S)
  | RangeSelect (left : S) (right : S)

/-- A `TransRepeatRangeSyntax` node. -/
structure TransRepeatRangeSyntax (S : Type) where
  specifier : TokenKind
  selector : Option (RepeatSelectorSyntax S)

/-- A `TransRangeSyntax` node: the items and the repeat range when there is one. -/
structure TransRangeSyntax (S : Type) where
  items : List S
  repeatRange : Option (TransRepeatRangeSyntax S)

/-- The class `CoverageBinSymbol::TransRangeList`, over the type `E` of bound
expressions. -/
structure TransRangeList (E : Type) where
  items : List E
  repeatFrom : Option E
  repeatTo : Option E
  repeatKind : RepeatKind

/-- The initializer of a `CoverageBinsSyntax` by its kind: the value ranges (each with
whether it is an `OpenRangeExpression`) and the with clause of a range initializer, the
identifier of an `IdWithExpr` initializer with its range and with clause, the sets of a
transition list, the expression of an expression initializer, the default
initializer, and any other kind. -/
inductive CoverageBinInitializerSyntax (S : Type) where
  | RangeCoverageBinInitializer (valueRanges : List (S × Bool)) (withClause : Option S)
  | IdWithExprCoverageBinInitializer (id : String) (idRange : SourceRange) (withClause : S)
  | TransListCoverageBinInitializer (sets : List (List (TransRangeSyntax S)))
  | ExpressionCoverageBinInitializer (expr : S)
  | DefaultCoverageBinInitializer
  | Other

/-- The syntax of a coverage bin: a `BinsSelectionSyntax` with its `iff` clause and
expression, or a `CoverageBinsSyntax` with its `iff` clause, its size (and the
expression of the size, when there is one) and its initializer. -/
inductive BinSyntax (S : Type) where
  | BinsSelection (iffClause : Option S) (expr : S)
  | CoverageBins (iffClause : Option S) (size : Option (Option S))
      (init : CoverageBinInitializerSyntax S)

/-- The class `CoverageBinSymbol` as far as the getters and `resolve` read and write
it, over the types of expression syntax, of bound expressions and of bound select
expressions: the syntax and the symbol of the parent scope, both null or not, the flag
`isResolved`, and the fields that `resolve` fills in. -/
structure CoverageBinSymbol (S E X : Type) where
  syntaxNode : Option (BinSyntax S)
  parentScope : Option ScopeSymbol
  isResolved : Bool
  iffExpr : Option E
  numberOfBinsExpr : Option E
  setCoverageExpr : Option E
  withExpr : Option E
  selectExpr : Option X
  values : List E
  transList : List (List (TransRangeList E))

/-- The functions outside the sources that `resolve` calls. `Expression::bind`,
`Expression::bindRValue` for the type of the coverpoint and `BinsSelectExpr::bind` take
the syntax, the extra flags and whether the iterator `item` is in the context; they
run while `resolve` is in progress, so they also take the bin as it stands at that
moment, which is what a call of one of its getters from inside the binding finds.
`eval` is `context.eval(expr, EvalFlags::CovergroupExpr)`; `mismatch` is the test
`!t.isArray() || t.isAssociativeArray() || !type.isAssignmentCompatible(...)` on the
type of the expression; `typeName` prints that type and `coverpointType` the type of
the coverpoint. -/
structure CoverBinder (S E X : Type) where
  bind : CoverageBinSymbol S E X → S → bitmask BindFlags → Bool → BindState → E × BindState
  bindRValue : CoverageBinSymbol S E X → S → bitmask BindFlags → Bool → BindState →
    E × BindState
  bindSelect : CoverageBinSymbol S E X → S → BindState → X × BindState
  eval : E → BindState → BindState
  requireBooleanConvertible : E → BindState → BindState
  requireIntegral : E → BindState → BindState
  bad : E → Bool
  mismatch : E → Bool
  sourceRange : E → SourceRange
  typeName : E → String
  coverpointType : String

/-- The static function `bindCovergroupExpr`; `typed` tells whether `lvalueType` is
given. -/
def bindCovergroupExpr {S E X : Type} (binder : CoverBinder S E X)
    (bin : CoverageBinSymbol S E X) (syn : S) (typed : Bool) (extraFlags : bitmask BindFlags)
    (iterator : Bool) (s : BindState) : E × BindState :=
  let bound :=
    if typed then binder.bindRValue bin syn extraFlags iterator s
    else binder.bind bin syn extraFlags iterator s
  (bound.1, binder.eval bound.1 bound.2)

/-- The loop over `syntax.items` of the constructor of `TransRangeList`. -/
def bindItems {S E X : Type} (binder : CoverBinder S E X) (bin : CoverageBinSymbol S E X) :
    List S → BindState → List E × BindState
  | [], s => ([], s)
  | elem :: rest, s =>
    let bound := bindCovergroupExpr binder bin elem true [] false s
    let more := bindItems binder bin rest bound.2
    (bound.1 :: more.1, more.2)

/-- The lambda `bindCount` of the constructor of `TransRangeList`. -/
def bindCount {S E X : Type} (binder : CoverBinder S E X) (bin : CoverageBinSymbol S E X)
    (syn : S) (s : BindState) : E × BindState :=
  let bound := bindCovergroupExpr binder bin syn false [] false s
  (bound.1, binder.requireIntegral bound.1 bound.2)

/-- The constructor `TransRangeList(syntax, type, context)`; `THROW_UNREACHABLE` is the
`none` result. -/
def TransRangeList.create {S E X : Type} (binder : CoverBinder S E X)
    (bin : CoverageBinSymbol S E X) (syn : TransRangeSyntax S) (s : BindState) :
    Option (TransRangeList E × BindState) :=
  let items := bindItems binder bin syn.items s
  match syn.repeatRange with
  | none =>
    some ({ items := items.1, repeatFrom := none, repeatTo := none,
            repeatKind := RepeatKind.None }, items.2)
  | some rep =>
    let kind : Option RepeatKind :=
      match rep.specifier with
      | TokenKind.Star => some RepeatKind.Consecutive
      | TokenKind.Equals => some RepeatKind.Nonconsecutive
      | TokenKind.MinusArrow => some RepeatKind.GoTo
      | TokenKind.Other => none
    match kind with
    | none => none
    | some repeatKind =>
      match rep.selector with
      | none =>
        some ({ items := items.1, repeatFrom := none, repeatTo := none,
                repeatKind := repeatKind }, items.2)
      | some (RepeatSelectorSyntax.BitSelect expr) =>
        let first := bindCount binder bin expr items.2
        some ({ items := items.1, repeatFrom := some first.1, repeatTo := none,
                repeatKind := repeatKind }, first.2)
      | some (RepeatSelectorSyntax.RangeSelect left right) =>
        let first := bindCount binder bin left items.2
        let last := bindCount binder bin right first.2
        some ({ items := items.1, repeatFrom := some first.1, repeatTo := some last.1,
                repeatKind := repeatKind }, last.2)

/-- The inner loop of the transition list branch of `resolve`, over the ranges of one
set. -/
def bindTransSet {S E X : Type} (binder : CoverBinder S E X) (bin : CoverageBinSymbol S E X) :
    List (TransRangeSyntax S) → BindState → Option (List (TransRangeList E) × BindState)
  | [], s => some ([], s)
  | rangeElem :: rest, s =>
    match TransRangeList.create binder bin rangeElem s with
    | none => none
    | some made =>
      (bindTransSet binder bin rest made.2).map (fun more => (made.1 :: more.1, more.2))

/-- The outer loop of the transition list branch of `resolve`, over the sets. -/
def bindTransList {S E X : Type} (binder : CoverBinder S E X) (bin : CoverageBinSymbol S E X) :
    List (List (TransRangeSyntax S)) → BindState →
      Option (List (List (TransRangeList E)) × BindState)
  | [], s => some ([], s)
  | setElem :: rest, s =>
    match bindTransSet binder bin setElem s with
    | none => none
    | some made =>
      (bindTransList binder bin rest made.2).map (fun more => (made.1 :: more.1, more.2))

/-- The loop over `valueRanges` of the range branch of `resolve`. -/
def bindValues {S E X : Type} (binder : CoverBinder S E X) (bin : CoverageBinSymbol S E X) :
    List (S × Bool) → BindState → List E × BindState
  | [], s => ([], s)
  | (elem, isOpenRange) :: rest, s =>
    let bound := bindCovergroupExpr binder bin elem true
      (if isOpenRange then [BindFlags.AllowUnboundedLiteral] else []) false s
    let more := bindValues binder bin rest bound.2
    (bound.1 :: more.1, more.2)

/-- What a run of `resolve` leaves behind: the bin, the state of the binding, and
whether the run ended in a failed assertion or in `THROW_UNREACHABLE`. -/
structure Resolution (S E X : Type) where
  bin : CoverageBinSymbol S E X
  state : BindState
  failed : Bool

/-- The statement `if (binsSyntax.iff) { iffExpr = &Expression::bind(...);
context.requireBooleanConvertible(*iffExpr); }` of both branches of `resolve`. -/
def bindIffExpr {S E X : Type} (binder : CoverBinder S E X) (self : CoverageBinSymbol S E X)
    (iffClause : Option S) (s : BindState) : CoverageBinSymbol S E X × BindState :=
  match iffClause with
  | none => (self, s)
  | some expr =>
    let bound := binder.bind self expr [BindFlags.AllowCoverageSampleFormal] false s
    ({ self with iffExpr := some bound.1 }, binder.requireBooleanConvertible bound.1 bound.2)

/-- The statement `if (binsSyntax.size && binsSyntax.size->expr) { ... }` of `resolve`. -/
def bindNumberOfBins {S E X : Type} (binder : CoverBinder S E X)
    (self : CoverageBinSymbol S E X) (size : Option (Option S)) (s : BindState) :
    CoverageBinSymbol S E X × BindState :=
  match size with
  | some (some expr) =>
    let bound := bindCovergroupExpr binder self expr false [] false s
    ({ self with numberOfBinsExpr := some bound.1 }, binder.requireIntegral bound.1 bound.2)
  | _ => (self, s)

/-- The lambda `bindWithExpr` of `resolve`: the expression of the with clause is bound
in a context that holds the iterator `item`. -/
def bindWithExpr {S E X : Type} (binder : CoverBinder S E X) (self : CoverageBinSymbol S E X)
    (withClause : S) (s : BindState) : CoverageBinSymbol S E X × BindState :=
  let bound := bindCovergroupExpr binder self withClause false [] true s
  ({ self with withExpr := some bound.1 }, binder.requireBooleanConvertible bound.1 bound.2)

/-- The switch over the kind of the initializer in `resolve` (lines 513 to 576), for
the coverpoint `coverpoint`. -/
def resolveInitializer {S E X : Type} (binder : CoverBinder S E X)
    (self : CoverageBinSymbol S E X) (coverpoint : ScopeSymbol)
    (init : CoverageBinInitializerSyntax S) (s : BindState) : Resolution S E X :=
  match init with
  | CoverageBinInitializerSyntax.RangeCoverageBinInitializer valueRanges withClause =>
    let bound := bindValues binder self valueRanges s
    match withClause with
    | some clause =>
      let filtered := bindWithExpr binder { self with values := bound.1 } clause bound.2
      { bin := filtered.1, state := filtered.2, failed := false }
    | none => { bin := { self with values := bound.1 }, state := bound.2, failed := false }
  | CoverageBinInitializerSyntax.IdWithExprCoverageBinInitializer id idRange withClause =>
    let filtered := bindWithExpr binder self withClause s
    if !id.isEmpty && id != coverpoint.name then
      match rangeDiag DiagCode.CoverageBinTargetName idRange with
      | none => { bin := filtered.1, state := filtered.2, failed := true }
      | some d =>
        { bin := filtered.1, state := filtered.2.addDiag (d.addArg coverpoint.name),
          failed := false }
    else { bin := filtered.1, state := filtered.2, failed := false }
  | CoverageBinInitializerSyntax.TransListCoverageBinInitializer sets =>
    match bindTransList binder self sets s with
    | none => { bin := self, state := s, failed := true }
    | some bound => { bin := { self with transList := bound.1 }, state := bound.2, failed := false }
  | CoverageBinInitializerSyntax.ExpressionCoverageBinInitializer expr =>
    let bound := bindCovergroupExpr binder self expr false [] false s
    if !binder.bad bound.1 && binder.mismatch bound.1 then
      match rangeDiag DiagCode.CoverageSetType (binder.sourceRange bound.1) with
      | none =>
        { bin := { self with setCoverageExpr := some bound.1 }, state := bound.2, failed := true }
      | some d =>
        { bin := { self with setCoverageExpr := some bound.1 },
          state := bound.2.addDiag
            (((d.addArg (binder.typeName bound.1)).addArg coverpoint.name).addArg
              binder.coverpointType),
          failed := false }
    else { bin := { self with setCoverageExpr := some bound.1 }, state := bound.2, failed := false }
  | CoverageBinInitializerSyntax.DefaultCoverageBinInitializer =>
    { bin := self, state := s, failed := false }
  | CoverageBinInitializerSyntax.Other => { bin := self, state := s, failed := true }

/-- The body of `resolve` from line 474 on, for a bin that has its syntax and its parent
scope; the cast `as<CoverpointSymbol>()` of the symbol of the scope fails for another
kind of symbol. -/
def resolveBindings {S E X : Type} (binder : CoverBinder S E X)
    (self : CoverageBinSymbol S E X) (syn : BinSyntax S) (scope : ScopeSymbol)
    (s : BindState) : Resolution S E X :=
  match syn with
  | BinSyntax.BinsSelection iffClause expr =>
    let guarded := bindIffExpr binder self iffClause s
    let selected := binder.bindSelect guarded.1 expr guarded.2
    { bin := { guarded.1 with selectExpr := some selected.1 }, state := selected.2,
      failed := false }
  | BinSyntax.CoverageBins iffClause size init =>
    if scope.kind != SymbolKind.Coverpoint then { bin := self, state := s, failed := true }
    else
      let guarded := bindIffExpr binder self iffClause s
      let sized := bindNumberOfBins binder guarded.1 size guarded.2
      resolveInitializer binder sized.1 scope init sized.2

/-- The function `CoverageBinSymbol::resolve`: `ASSERT(!isResolved); isResolved = true;`,
then `ASSERT(syntax && scope)`, then the bindings. The flag stays set when an
assertion fails after it. -/
def CoverageBinSymbol.resolve {S E X : Type} (binder : CoverBinder S E X)
    (self : CoverageBinSymbol S E X) (s : BindState) : Resolution S E X :=
  if self.isResolved then { bin := self, state := s, failed := true }
  else
    match self.syntaxNode, self.parentScope with
    | some syn, some scope => resolveBindings binder { self with isResolved := true } syn scope s
    | _, _ => { bin := { self with isResolved := true }, state := s, failed := true }

/-- What a call of a getter leaves behind: the bin, the state of the binding, whether
the call ran `resolve`, and the value returned, none when `resolve` failed. -/
structure GetterCall (S E X V : Type) where
  bin : CoverageBinSymbol S E X
  state : BindState
  resolved : Bool
  value : Option V

/-- The body shared by the seven getters: `if (!isResolved) resolve(); return field;`. -/
def CoverageBinSymbol.lazily {S E X V : Type} (binder : CoverBinder S E X)
    (self : CoverageBinSymbol S E X) (s : BindState) (field : CoverageBinSymbol S E X → V) :
    GetterCall S E X V :=
  if !self.isResolved then
    let done := self.resolve binder s
    { bin := done.bin, state := done.state, resolved := true,
      value := if done.failed then none else some (field done.bin) }
  else { bin := self, state := s, resolved := false, value := some (field self) }

/-- The function `CoverageBinSymbol::getIffExpr`. -/
def CoverageBinSymbol.getIffExpr {S E X : Type} (binder : CoverBinder S E X)
    (self : CoverageBinSymbol S E X) (s : BindState) : GetterCall S E X (Option E) :=
  self.lazily binder s (fun bin => bin.iffExpr)

/-- The function `CoverageBinSymbol::getNumberOfBinsExpr`. -/
def CoverageBinSymbol.getNumberOfBinsExpr {S E X : Type} (binder : CoverBinder S E X)
    (self : CoverageBinSymbol S E X) (s : BindState) : GetterCall S E X (Option E) :=
  self.lazily binder s (fun bin => bin.numberOfBinsExpr)

/-- The function `CoverageBinSymbol::getSetCoverageExpr`. -/
def CoverageBinSymbol.getSetCoverageExpr {S E X : Type} (binder : CoverBinder S E X)
    (self : CoverageBinSymbol S E X) (s : BindState) : GetterCall S E X (Option E) :=
  self.lazily binder s (fun bin => bin.setCoverageExpr)

/-- The function `CoverageBinSymbol::getWithExpr`. -/
def CoverageBinSymbol.getWithExpr {S E X : Type} (binder : CoverBinder S E X)
    (self : CoverageBinSymbol S E X) (s : BindState) : GetterCall S E X (Option E) :=
  self.lazily binder s (fun bin => bin.withExpr)

/-- The function `CoverageBinSymbol::getCrossSelectExpr`. -/
def CoverageBinSymbol.getCrossSelectExpr {S E X : Type} (binder : CoverBinder S E X)
    (self : CoverageBinSymbol S E X) (s : BindState) : GetterCall S E X (Option X) :=
  self.lazily binder s (fun bin => bin.selectExpr)

/-- The function `CoverageBinSymbol::getValues`. -/
def CoverageBinSymbol.getValues {S E X : Type} (binder : CoverBinder S E X)
    (self : CoverageBinSymbol S E X) (s : BindState) : GetterCall S E X (List E) :=
  self.lazily binder s (fun bin => bin.values)

/-- The function `CoverageBinSymbol::getTransList`. -/
def CoverageBinSymbol.getTransList {S E X : Type} (binder : CoverBinder S E X)
    (self : CoverageBinSymbol S E X) (s : BindState) :
    GetterCall S E X (List (List (TransRangeList E))) :=
  self.lazily binder s (fun bin => bin.transList)

/-- The seven getters of a coverage bin. -/
inductive Getter where
  | getIffExpr | getNumberOfBinsExpr | getSetCoverageExpr | getWithExpr | getCrossSelectExpr
  | getValues | getTransList
deriving DecidableEq, Repr

/-- A value returned by one of the getters. -/
inductive FieldValue (E X : Type) where
  | expression (value : Option E)
  | select (value : Option X)
  | values (value : List E)
  | transList (value : List (List (TransRangeList E)))

/-- The field that a getter returns, as it is stored in the bin. -/
def CoverageBinSymbol.stored {S E X : Type} (self : CoverageBinSymbol S E X) :
    Getter → FieldValue E X
  | Getter.getIffExpr => FieldValue.expression self.iffExpr
  | Getter.getNumberOfBinsExpr => FieldValue.expression self.numberOfBinsExpr
  | Getter.getSetCoverageExpr => FieldValue.expression self.setCoverageExpr
  | Getter.getWithExpr => FieldValue.expression self.withExpr
  | Getter.getCrossSelectExpr => FieldValue.select self.selectExpr
  | Getter.getValues => FieldValue.values self.values
  | Getter.getTransList => FieldValue.transList self.transList

/-- The outcome of a getter call with its value wrapped as a `FieldValue`. -/
def GetterCall.wrap {S E X V : Type} (call : GetterCall S E X V) (wrap : V → FieldValue E X) :
    GetterCall S E X (FieldValue E X) :=
  { bin := call.bin, state := call.state, resolved := call.resolved,
    value := call.value.map wrap }

/-- A call of the getter `g` on the bin. -/
def CoverageBinSymbol.call {S E X : Type} (binder : CoverBinder S E X)
    (self : CoverageBinSymbol S E X) (s : BindState) :
    Getter → GetterCall S E X (FieldValue E X)
  | Getter.getIffExpr => (self.getIffExpr binder s).wrap FieldValue.expression
  | Getter.getNumberOfBinsExpr => (self.getNumberOfBinsExpr binder s).wrap FieldValue.expression
  | Getter.getSetCoverageExpr => (self.getSetCoverageExpr binder s).wrap FieldValue.expression
  | Getter.getWithExpr => (self.getWithExpr binder s).wrap FieldValue.expression
  | Getter.getCrossSelectExpr => (self.getCrossSelectExpr binder s).wrap FieldValue.select
  | Getter.getValues => (self.getValues binder s).wrap FieldValue.values
  | Getter.getTransList => (self.getTransList binder s).wrap FieldValue.transList

/-- A sequence of getter calls on one bin, each on the bin and the state that the call
before it left behind: the outcomes of the calls, in order. -/
def CoverageBinSymbol.calls {S E X : Type} (binder : CoverBinder S E X) :
    List Getter → CoverageBinSymbol S E X → BindState → List (GetterCall S E X (FieldValue E X))
  | [], _, _ => []
  | g :: rest, self, s =>
    self.call binder s g ::
      CoverageBinSymbol.calls binder rest (self.call binder s g).bin (self.call binder s g).state

/-- Two sets of binding functions that do the same on every bin whose flag `isResolved`
is set, whatever they do on a bin whose flag is not set. -/
def CoverBinder.agreeWhenResolved {S E X : Type} (b1 b2 : CoverBinder S E X) : Prop :=
  (∀ bin : CoverageBinSymbol S E X, bin.isResolved = true →
      b1.bind bin = b2.bind bin ∧ b1.bindRValue bin = b2.bindRValue bin ∧
        b1.bindSelect bin = b2.bindSelect bin) ∧
    b1.eval = b2.eval ∧ b1.requireBooleanConvertible = b2.requireBooleanConvertible ∧
    b1.requireIntegral = b2.requireIntegral ∧ b1.bad = b2.bad ∧ b1.mismatch = b2.mismatch ∧
    b1.sourceRange = b2.sourceRange ∧ b1.typeName = b2.typeName ∧
    b1.coverpointType = b2.coverpointType

/-! ## AttributeSymbol.cpp: `createAttributes` -/

/-- An `AttributeSpecSyntax` node, over the type `S` of expression syntax: the text and
the location of the name token, and the expression of the value when there is one. -/
structure AttributeSpecSyntax (S : Type) where
  name : String
  nameLocation : SourceLocation
  value : Option S

/-- An `AttributeInstanceSyntax` node: its specs. -/
structure AttributeInstanceSyntax (S : Type) where
  specs : List (AttributeSpecSyntax S)

/-- The class `AttributeSymbol`: the name and location of the symbol, the members
`symbol`, `scope`, `expr`, `lookupLocation` and `value`, null or not, and the syntax
node that `setSyntax` attaches. -/
structure AttributeSymbol (S : Type) where
  name : String
  location : SourceLocation
  symbol : Option Symbol
  scope : Option Scope
  expr : Option S
  lookupLocation : Option LookupLocation
  value : Option ConstantValue
  syntaxNode : Option (AttributeSpecSyntax S)

/-- The constructor `AttributeSymbol(name, loc, symbol, expr)`. -/
def AttributeSymbol.createForSymbol {S : Type} (name : String) (loc : SourceLocation)
    (symbol : Symbol) (expr : S) : AttributeSymbol S :=
  { name := name, location := loc, symbol := some symbol, scope := none, expr := some expr,
    lookupLocation := none, value := none, syntaxNode := none }

/-- The constructor `AttributeSymbol(name, loc, scope, lookupLocation, expr)`. -/
def AttributeSymbol.createForScope {S : Type} (name : String) (loc : SourceLocation)
    (scope : Scope) (lookupLocation : LookupLocation) (expr : S) : AttributeSymbol S :=
  { name := name, location := loc, symbol := none, scope := some scope, expr := some expr,
    lookupLocation := some lookupLocation, value := none, syntaxNode := none }

/-- The constructor `AttributeSymbol(name, loc, value)`. -/
def AttributeSymbol.createConstant {S : Type} (name : String) (loc : SourceLocation)
    (value : ConstantValue) : AttributeSymbol S :=
  { name := name, location := loc, symbol := none, scope := none, expr := none,
    lookupLocation := none, value := some value, syntaxNode := none }

/-- The attribute that the loop of `createAttributes` makes for a spec of non-empty
name: the constant 1 of one bit for a spec without value, else what `factory` makes of
the name, the location of the name and the expression; the spec is attached as its
syntax. -/
def makeAttribute {S : Type} (factory : String → SourceLocation → S → AttributeSymbol S)
    (spec : AttributeSpecSyntax S) : AttributeSymbol S :=
  let attr : AttributeSymbol S :=
    match spec.value with
    | none =>
      AttributeSymbol.createConstant spec.name spec.nameLocation
        (ConstantValue.integer (SVInt.create 1 1 false))
    | some expr => factory spec.name spec.nameLocation expr
  { attr with syntaxNode := some spec }

/-- The locals of `createAttributes` during its loops: the map `nameMap` as the list of
its entries, the vector `attrs`, and the state that holds the diagnostics of the
scope. -/
structure AttributeBuild (S : Type) where
  nameMap : List (String × Nat)
  attrs : List (AttributeSymbol S)
  state : BindState

/-- The body of the inner loop of `createAttributes` for one spec. `scope.addDiag(code,
location)` appends the diagnostic, as `BindContext::addDiag` does. -/
def addAttribute {S : Type} (factory : String → SourceLocation → S → AttributeSymbol S)
    (build : AttributeBuild S) (spec : AttributeSpecSyntax S) : AttributeBuild S :=
  if spec.name.isEmpty then build
  else
    let attr := makeAttribute factory spec
    match build.nameMap.find? (fun entry => entry.1 == spec.name) with
    | some entry =>
      { build with
        attrs := build.attrs.set entry.2 attr,
        state := build.state.addDiag
          ((Diagnostic.create DiagCode.DuplicateAttribute attr.location).addArg spec.name) }
    | none =>
      { build with
        attrs := build.attrs ++ [attr],
        nameMap := build.nameMap ++ [(spec.name, (build.attrs ++ [attr]).length - 1)] }

/-- The function template `createAttributes`: the attributes made of the specs of the
instances, with the state of the scope afterwards. -/
def createAttributes {S : Type} (factory : String → SourceLocation → S → AttributeSymbol S)
    (syntaxList : List (AttributeInstanceSyntax S)) (s : BindState) :
    List (AttributeSymbol S) × BindState :=
  let final := syntaxList.foldl
    (fun build inst => inst.specs.foldl (addAttribute factory) build)
    { nameMap := [], attrs := [], state := s }
  (final.attrs, final.state)

/-- The function `AttributeSymbol::fromSyntax(syntax, scope, symbol)`. -/
def AttributeSymbol.fromSyntax {S : Type} (syntaxList : List (AttributeInstanceSyntax S))
    (symbol : Symbol) (s : BindState) : List (AttributeSymbol S) × BindState :=
  if syntaxList.isEmpty then ([], s)
  else
    createAttributes (fun name loc expr => AttributeSymbol.createForSymbol name loc symbol expr)
      syntaxList s

/-- The function `AttributeSymbol::fromSyntax(syntax, scope, lookupLocation)`. -/
def AttributeSymbol.fromSyntaxIn {S : Type} (syntaxList : List (AttributeInstanceSyntax S))
    (scope : Scope) (lookupLocation : LookupLocation) (s : BindState) :
    List (AttributeSymbol S) × BindState :=
  if syntaxList.isEmpty then ([], s)
  else
    createAttributes
      (fun name loc expr => AttributeSymbol.createForScope name loc scope lookupLocation expr)
      syntaxList s

/-- The specs of non-empty name among the specs of the instances, in order. -/
def namedSpecs {S : Type} (syntaxList : List (AttributeInstanceSyntax S)) :
    List (AttributeSpecSyntax S) :=
  ((syntaxList.map (fun inst => inst.specs)).flatten).filter (fun spec => !spec.name.isEmpty)

/-- The distinct names of a list, in the order of their first occurrence. -/
def firstOccurrences : List String → List String
  | [] => []
  | name :: rest => name :: (firstOccurrences rest).filter (fun other => other != name)

/-- The last spec of the given name in a list of specs. -/
def lastOccurrence {S : Type} (specs : List (AttributeSpecSyntax S)) (name : String) :
    Option (AttributeSpecSyntax S) :=
  (specs.filter (fun spec => spec.name == name)).getLast?

/-- The relation that the loops of `createAttributes` keep between their locals and the
specs of non-empty name seen so far: `attrs` holds, for the distinct names in order of
first occurrence, the attribute made of the last spec of that name; `nameMap` maps
those names to their places in `attrs`; and the scope has gained one
`DuplicateAttribute` for each spec beyond the first of its name. -/
def AttributeBuild.invariant {S : Type}
    (factory : String → SourceLocation → S → AttributeSymbol S) (s0 : BindState)
    (named : List (AttributeSpecSyntax S)) (build : AttributeBuild S) : Prop :=
  build.attrs.map some =
      (firstOccurrences (named.map (fun spec => spec.name))).map
        (fun name => (lastOccurrence named name).map (makeAttribute factory)) ∧
    (∀ entry ∈ build.nameMap,
      (firstOccurrences (named.map (fun spec => spec.name)))[entry.2]? = some entry.1) ∧
    (∀ name ∈ firstOccurrences (named.map (fun spec => spec.name)),
      ∃ index, (name, index) ∈ build.nameMap) ∧
    (∃ added : List BindDiag, build.state.diags = s0.diags ++ added ∧
      (∀ d ∈ added, d.code = DiagCode.DuplicateAttribute) ∧
      added.length + build.attrs.length = named.length)

/-! ## The nearest enclosing symbol that is not a statement block -/

/-- The nearest enclosing symbol of a scope that is not a statement block: the first
symbol of another kind among the symbol of the scope and the symbols of the scopes
around it, innermost first; there is none when all of them are statement blocks. -/
def Scope.nearestNonBlock (scope : Scope) : Option ScopeSymbol :=
  (scope.enclosing.map Scope.asSymbol).find?
    (fun sym => sym.kind != SymbolKind.StatementBlock)

/-! ## Sample inputs -/

/-- A location in the first buffer. -/
def sampleLoc (offset : Nat) : SourceLocation :=
  { buffer := 1, offset := offset }

/-- The range of a three-character name at an offset of the first buffer. -/
def sampleRange (offset : Nat) : SourceRange :=
  { start := sampleLoc offset, stop := sampleLoc (offset + 3) }

/-- The state before anything is bound. -/
def emptyState : BindState :=
  { diags := [], drivers := [] }

/-- A procedural context in a statement block of an ordinary task of a module. -/
def taskContext : BindContext :=
  { scope := Scope.nested { kind := SymbolKind.StatementBlock, name := "", methodFlags := [] }
      (Scope.nested { kind := SymbolKind.Subroutine, name := "run", methodFlags := [] }
        (Scope.top { kind := SymbolKind.InstanceBody, name := "top", methodFlags := [] })),
    flags := [], driverKind := DriverKind.Procedural }

/-- A procedural context in a statement block of the constructor of a class. -/
def constructorContext : BindContext :=
  { scope := Scope.nested { kind := SymbolKind.StatementBlock, name := "", methodFlags := [] }
      (Scope.nested { kind := SymbolKind.Subroutine, name := "new",
                      methodFlags := [MethodFlags.Constructor] }
        (Scope.top { kind := SymbolKind.ClassType, name := "C", methodFlags := [] })),
    flags := [], driverKind := DriverKind.Procedural }

/-- A context outside procedures: a continuous assignment or a port connection. -/
def nonProceduralContext : BindContext :=
  { scope := Scope.top { kind := SymbolKind.InstanceBody, name := "top", methodFlags := [] },
    flags := [BindFlags.NonProcedural], driverKind := DriverKind.Continuous }

/-- The variable of `const int x = 3;`. -/
def constVarWithInit : Symbol :=
  { kind := SymbolKind.Variable, name := "x", location := sampleLoc 10,
    typeKind := SymbolKind.PredefinedIntegerType, netKind := NetKind.Unknown,
    lifetime := VariableLifetime.Static, flags := [VariableFlags.Const],
    hasInitializer := true, direction := ArgumentDirection.In }

/-- The class property of `const int y;`. -/
def constPropertyNoInit : Symbol :=
  { kind := SymbolKind.ClassProperty, name := "y", location := sampleLoc 30,
    typeKind := SymbolKind.PredefinedIntegerType, netKind := NetKind.Unknown,
    lifetime := VariableLifetime.Automatic, flags := [VariableFlags.Const],
    hasInitializer := false, direction := ArgumentDirection.In }

/-- The variable of `int v;` in a module. -/
def plainVar : Symbol :=
  { kind := SymbolKind.Variable, name := "v", location := sampleLoc 50,
    typeKind := SymbolKind.PredefinedIntegerType, netKind := NetKind.Unknown,
    lifetime := VariableLifetime.Static, flags := [], hasInitializer := false,
    direction := ArgumentDirection.In }

/-- A net of the given net kind whose type has the given canonical kind. -/
def sampleNet (netKind : NetKind) (typeKind : SymbolKind) : Symbol :=
  { kind := SymbolKind.Net, name := "w", location := sampleLoc 70, typeKind := typeKind,
    netKind := netKind, lifetime := VariableLifetime.Static, flags := [],
    hasInitializer := false, direction := ArgumentDirection.In }

/-- A clock variable `c` of the given direction. -/
def sampleClockVar (direction : ArgumentDirection) : Symbol :=
  ClockVarSymbol.create "c" (sampleLoc 90) direction SymbolKind.PredefinedIntegerType false

/-- A named reference to a symbol at offset 200. -/
def sampleRef (symbol : Symbol) : ValueExpressionBase :=
  { isHierarchical := false, symbol := symbol, sourceRange := sampleRange 200 }

/-- The formal port `a` of `property p(a)`: no default value. -/
def formalA : AssertionPortSymbol :=
  { name := "a", location := sampleLoc 300, defaultValueSyntax := none,
    localVarDirection := none }

/-- The actual `x` of the named argument in `p(.a(x))`. -/
def actualX : PropertyExprSyntax :=
  { node := 5, range := sampleRange 403 }

/-- The named arguments of the call `p(.a(x))`. -/
def namedArgsAX : NamedArgMap :=
  [("a", { name := "a", nameLocation := sampleLoc 401, expr := some actualX,
           range := { start := sampleLoc 400, stop := sampleLoc 407 } }, false)]

/-- The syntax of `1:2:3`, over literals as syntax. -/
def oneTwoThree : MinTypMaxExpressionSyntax Nat :=
  { min := 1, typ := 2, max := 3, range := sampleRange 500 }

/-- The variable of `int t;` declared in a task with automatic lifetime. -/
def automaticVar : Symbol :=
  { kind := SymbolKind.Variable, name := "t", location := sampleLoc 110,
    typeKind := SymbolKind.PredefinedIntegerType, netKind := NetKind.Unknown,
    lifetime := VariableLifetime.Automatic, flags := [], hasInitializer := false,
    direction := ArgumentDirection.In }

/-- The class property of `int q;`: automatic lifetime, not `const`. -/
def plainProperty : Symbol :=
  { kind := SymbolKind.ClassProperty, name := "q", location := sampleLoc 130,
    typeKind := SymbolKind.PredefinedIntegerType, netKind := NetKind.Unknown,
    lifetime := VariableLifetime.Automatic, flags := [], hasInitializer := false,
    direction := ArgumentDirection.In }

/-- A symbol graph in which every symbol is a member of the module `top`, parameters
have the value 5, nothing is known about declaration order, and every access is
allowed without a diagnostic. -/
def sampleGraph : SymbolGraph :=
  { getValue := fun _ => ConstantValue.integer (SVInt.create 32 5 true),
    isStatic := fun _ => false,
    getParentScope := fun _ =>
      some (Scope.top { kind := SymbolKind.InstanceBody, name := "top", methodFlags := [] }),
    isDeclaredBefore := fun _ _ => none,
    ensureAccessible := fun _ _ _ s => (true, s) }

/-- The context of an event expression inside an assertion. -/
def eventContext : BindContext :=
  { scope := Scope.top { kind := SymbolKind.InstanceBody, name := "top", methodFlags := [] },
    flags := [BindFlags.AssertionExpr, BindFlags.EventExpression],
    driverKind := DriverKind.Other }

/-- The context of the initializer of a static variable. -/
def staticInitContext : BindContext :=
  { scope := Scope.top { kind := SymbolKind.InstanceBody, name := "top", methodFlags := [] },
    flags := [BindFlags.StaticInitializer], driverKind := DriverKind.Other }

/-- The frame of a call of the function `f` of the module `top`, called from the
member of index 7 of `top`. -/
def functionFrame : Frame :=
  { temporaries := [],
    subroutine := some (Scope.nested
      { kind := SymbolKind.Subroutine, name := "f", methodFlags := [] }
      (Scope.top { kind := SymbolKind.InstanceBody, name := "top", methodFlags := [] })),
    callLocation := sampleLoc 600,
    lookupLocation :=
      { scope := some (Scope.top
          { kind := SymbolKind.InstanceBody, name := "top", methodFlags := [] }),
        index := 7 } }

/-- The bottom frame of every evaluation. -/
def bottomFrame : Frame :=
  { temporaries := [], subroutine := none, callLocation := { buffer := 0, offset := 0 },
    lookupLocation := { scope := none, index := 0 } }

/-- An evaluation at top level, with the option `allowHierarchicalConst` as given. -/
def topLevelEval (allowHierarchicalConst : Bool) : EvalContext :=
  { options := { allowHierarchicalConst := allowHierarchicalConst }, flags := [],
    stack := [bottomFrame], queueTarget := none, diags := [] }

/-- An evaluation inside a call of the function `f`. -/
def functionEval : EvalContext :=
  { options := {}, flags := [], stack := [bottomFrame, functionFrame], queueTarget := none,
    diags := [] }

/-- A value symbol of the given kind and canonical type kind, named `P`. -/
def sampleValue (kind : SymbolKind) (typeKind : SymbolKind) : Symbol :=
  { kind := kind, name := "P", location := sampleLoc 170, typeKind := typeKind,
    netKind := NetKind.Unknown, lifetime := VariableLifetime.Static, flags := [],
    hasInitializer := true, direction := ArgumentDirection.In }

/-- A symbol graph in which every symbol is a local of the function `f` of `top`. -/
def localGraph : SymbolGraph :=
  { sampleGraph with
    getParentScope := fun _ =>
      some (Scope.nested { kind := SymbolKind.StatementBlock, name := "", methodFlags := [] }
        (Scope.nested { kind := SymbolKind.Subroutine, name := "f", methodFlags := [] }
          (Scope.top { kind := SymbolKind.InstanceBody, name := "top", methodFlags := [] }))) }

/-- A symbol graph in which every symbol is a member of `top` declared after the
lookup location asked about. -/
def declaredAfterGraph : SymbolGraph :=
  { sampleGraph with isDeclaredBefore := fun _ _ => some false }

/-- A symbol graph in which every symbol is a member of the package `pkg` and counts as
declared after the lookup location asked about. -/
def packageGraph : SymbolGraph :=
  { sampleGraph with
    isDeclaredBefore := fun _ _ => some false,
    getParentScope := fun _ =>
      some (Scope.top { kind := SymbolKind.Package, name := "pkg", methodFlags := [] }) }

/-- An assertion symbol of the given kind, named `r`. -/
def assertionSymbol (kind : SymbolKind) : Symbol :=
  { kind := kind, name := "r", location := sampleLoc 700, typeKind := SymbolKind.Unknown,
    netKind := NetKind.Unknown, lifetime := VariableLifetime.Static, flags := [],
    hasInitializer := false, direction := ArgumentDirection.In }

/-- The assertion instance of the body context of an instance of `r` that was made at
top level. -/
def insideFirstInstance (kind : SymbolKind) : AssertionInstanceDetails :=
  AssertionInstanceDetails.details (assertionSymbol kind) false AssertionInstanceDetails.null true
    AssertionInstanceDetails.null

/-- A body binder that yields a valid body without local variables and issues
nothing. -/
def idleBodyBinder : BodyBinder :=
  fun _ _ _ _ s => some ({ node := some 0, bad := false }, [], s)

/-- A let binder that yields the expression 0 and issues nothing. -/
def idleLetBinder : LetBinder Nat :=
  fun _ _ _ s => some (0, s)

/-- An argument checker that accepts every actual and issues nothing. -/
def idleArgChecker : ArgChecker :=
  fun e _ _ _ s => (some e.node, s)

/-- A reference without argument list at the given offset, after a time advance in the
body of a property. -/
def referenceTo (symbol : Symbol) (offset : Nat) : AssertionReference :=
  { symbol := symbol, collected := some ([], []), range := sampleRange offset,
    context :=
      { scope := Scope.top { kind := SymbolKind.Property, name := "r", methodFlags := [] },
        flags := [BindFlags.AssertionExpr, BindFlags.PropertyTimeAdvance],
        driverKind := DriverKind.Other } }

/-- The tagged union `union tagged { void Invalid; int Valid; } u`, packed. -/
def sampleUnion : UnionType :=
  { name := "u", isTaggedUnion := true, isError := false, isUnpackedUnion := false,
    tagBits := 1, bitWidth := 33,
    members := [{ name := "Invalid", typeKind := SymbolKind.VoidType, offset := 0 },
                { name := "Valid", typeKind := SymbolKind.PredefinedIntegerType, offset := 1 }] }

/-- The syntax of `tagged member` without an initializer. -/
def taggedWithoutInit (member : String) : TaggedUnionExpressionSyntax Nat :=
  { member := member, memberRange := sampleRange 807, expr := none,
    range := { start := sampleLoc 800, stop := sampleLoc 815 } }

/-- A symbol graph in which every parameter is `$`, each a member of `top` declared
after the lookup location asked about. -/
def unboundedAfterGraph : SymbolGraph :=
  { declaredAfterGraph with getValue := fun _ => ConstantValue.unbounded }

/-- A symbol graph in which every parameter is `$`. -/
def unboundedGraph : SymbolGraph :=
  { sampleGraph with getValue := fun _ => ConstantValue.unbounded }

/-- A queue of two strings as the queue target of an evaluation. -/
def twoElementQueue : ConstantValue :=
  ConstantValue.queue [ConstantValue.str "a", ConstantValue.str "b"]

/-- An evaluation of a covergroup expression at top level. -/
def covergroupEval : EvalContext :=
  { options := {}, flags := [EvalFlags.CovergroupExpr], stack := [bottomFrame],
    queueTarget := none, diags := [] }

/-- The expression `tagged Valid 5` of the type `sampleUnion`, with the number 5 as the
bound initializer. -/
def taggedValidFive : TaggedUnionExpression Nat :=
  { type := sampleUnion, member := { name := "Valid", typeKind := SymbolKind.PredefinedIntegerType,
                                      offset := 1 },
    valueExpr := some 5, sourceRange := { start := sampleLoc 800, stop := sampleLoc 815 } }

/-- An evaluation of bound numbers as signed 32-bit integers that reports nothing. -/
def numberEval (e : Nat) (context : EvalContext) : ConstantValue × EvalContext :=
  (ConstantValue.integer (SVInt.create 32 e true), context)

/-- A default value of a packed union: the unsigned integer zero of its width. -/
def zeroDefault (t : UnionType) : ConstantValue :=
  ConstantValue.integer (SVInt.create t.bitWidth 0 false)

/-- Binding functions over numbers: an expression is bound to its own number, nothing
is reported, and no bound expression is bad or of a mismatching type. -/
def idleCoverBinder : CoverBinder Nat Nat Nat :=
  { bind := fun _ syn _ _ s => (syn, s),
    bindRValue := fun _ syn _ _ s => (syn, s),
    bindSelect := fun _ syn s => (syn, s),
    eval := fun _ s => s,
    requireBooleanConvertible := fun _ s => s,
    requireIntegral := fun _ s => s,
    bad := fun _ => false,
    mismatch := fun _ => false,
    sourceRange := fun _ => sampleRange 900,
    typeName := fun _ => "int",
    coverpointType := "int" }

/-- Binding functions whose `Expression::bind` calls `getIffExpr` on the bin it is
binding for: the bound expression is the number of the syntax plus 100 when that call
returns null without running `resolve` and without a new diagnostic, and the plain
number otherwise. -/
def reentrantBinder : CoverBinder Nat Nat Nat :=
  { idleCoverBinder with
    bind := fun bin syn _ _ s =>
      let inner := bin.getIffExpr idleCoverBinder s
      let quiet : Bool :=
        !inner.resolved && inner.state.diags.length == s.diags.length &&
          (match inner.value with
            | some none => true
            | _ => false)
      (if quiet then syn + 100 else syn, inner.state) }

/-- The bin `bins b = { 2 } iff (1)` of the coverpoint `cp`, not yet resolved. -/
def sampleBin : CoverageBinSymbol Nat Nat Nat :=
  { syntaxNode := some (BinSyntax.CoverageBins (some 1) none
      (CoverageBinInitializerSyntax.RangeCoverageBinInitializer [(2, false)] none)),
    parentScope := some { kind := SymbolKind.Coverpoint, name := "cp", methodFlags := [] },
    isResolved := false, iffExpr := none, numberOfBinsExpr := none, setCoverageExpr := none,
    withExpr := none, selectExpr := none, values := [], transList := [] }

/-- The attribute instance `(* a, b = 2, a = 3 *)` followed by an instance with one spec
whose name is missing. -/
def sampleAttributes : List (AttributeInstanceSyntax Nat) :=
  [{ specs := [{ name := "a", nameLocation := sampleLoc 1000, value := none },
               { name := "b", nameLocation := sampleLoc 1003, value := some 2 },
               { name := "a", nameLocation := sampleLoc 1010, value := some 3 }] },
   { specs := [{ name := "", nameLocation := sampleLoc 1020, value := none }] }]

/-- The factory of `fromSyntax` for attributes of the variable `plainVar`. -/
def sampleFactory : String → SourceLocation → Nat → AttributeSymbol Nat :=
  fun name loc expr => AttributeSymbol.createForSymbol name loc plainVar expr

/-! ### Sanity checks on small stores -/

example : (Diagnostics.sort (fun l : Nat => l)
    [Diagnostic.create 5 3, Diagnostic.create 2 3, Diagnostic.create 9 1]).map
      (fun d => (d.location, d.code)) = [(1, 9), (3, 2), (3, 5)] := by decide

example : (Diagnostics.sort (fun l : Nat => l / 10)
    [Diagnostic.createFor 1 (7 : Nat) 31, Diagnostic.createFor 2 7 30, Diagnostic.create 7 12]).map
      (fun d => (d.location, d.symbol)) = [(12, none), (31, some 1), (30, some 2)] := by decide

/-! ## Lemmas on the stable sort -/

namespace Diagnostics

variable {Code Loc : Type}

theorem stableInsert_perm (lt : Diagnostic Code Loc → Diagnostic Code Loc → Bool)
    (x : Diagnostic Code Loc) (l : List (Diagnostic Code Loc)) :
    List.Perm (stableInsert lt x l) (x :: l) := by
  induction l with
  | nil => exact List.Perm.refl _
  | cons y ys ih =>
    unfold stableInsert
    by_cases h : lt y x = true
    · rw [if_pos h]
      exact (List.Perm.cons y ih).trans (List.Perm.swap x y ys)
    · rw [if_neg h]

theorem stable_sort_perm (lt : Diagnostic Code Loc → Diagnostic Code Loc → Bool)
    (l : List (Diagnostic Code Loc)) : List.Perm (stable_sort lt l) l := by
  induction l with
  | nil => exact List.Perm.refl _
  | cons x xs ih =>
    unfold stable_sort
    exact (stableInsert_perm lt x _).trans (List.Perm.cons x ih)

theorem emit_eq (valid : Loc → Bool) (ds : Diagnostics Code Loc) (e : Emission Code Loc)
    (h : e.asserted valid = true) : emit valid ds e = some (ds ++ [e.record]) := by
  cases e with
  | atLocation c l =>
    simp only [Emission.asserted] at h
    simp [emit, add, h, Emission.record]
  | atRange c range =>
    simp only [Emission.asserted, Bool.and_eq_true] at h
    simp [emit, addRange, Diagnostic.addRange, Diagnostic.create, h.1, h.2, Emission.record,
      Diagnostic.code, Diagnostic.location, Diagnostic.symbol, Diagnostic.args,
      Diagnostic.ranges, Diagnostic.notes]
  | forSymbolAtLocation source c l =>
    simp only [Emission.asserted] at h
    simp [emit, addFor, h, Emission.record]
  | forSymbolAtRange source c range =>
    simp only [Emission.asserted, Bool.and_eq_true] at h
    simp [emit, addForRange, Diagnostic.addRange, Diagnostic.createFor, h.1, h.2,
      Emission.record, Diagnostic.code, Diagnostic.location, Diagnostic.symbol, Diagnostic.args,
      Diagnostic.ranges, Diagnostic.notes]

theorem record_key (e : Emission Code Loc) : (e.record.code, e.record.location) = e.key := by
  cases e <;> rfl

theorem addAll_eq (valid : Loc → Bool) (es : List (Emission Code Loc))
    (hvalid : ∀ e ∈ es, e.asserted valid = true) (ds : Diagnostics Code Loc) :
    addAll valid ds es = some (ds ++ es.map Emission.record) := by
  induction es generalizing ds with
  | nil => simp [addAll]
  | cons e rest ih =>
    have he : e.asserted valid = true := hvalid e (List.mem_cons_self _ _)
    have hrest : ∀ x ∈ rest, x.asserted valid = true :=
      fun x hx => hvalid x (List.mem_cons_of_mem _ hx)
    simp only [addAll, emit_eq valid ds e he]
    rw [ih hrest]
    simp

/-- Claim C3, amended: `Diagnostics::add` appends without looking at what is stored.
After any run of `add` calls whose assertions hold, the store holds its earlier entries
followed by one new entry per call, in call order: the stored codes and locations are
the earlier ones followed by those of the calls, repeated ones included, and the store
has grown by the number of calls. -/
theorem add_appends_every_emission (valid : Loc → Bool) (ds : Diagnostics Code Loc)
    (es : List (Emission Code Loc)) (hvalid : ∀ e ∈ es, e.asserted valid = true) :
    addAll valid ds es = some (ds ++ es.map Emission.record) ∧
      keys (ds ++ es.map Emission.record) = keys ds ++ es.map Emission.key ∧
      (ds ++ es.map Emission.record).length = ds.length + es.length := by
  refine ⟨addAll_eq valid es hvalid ds, ?_, ?_⟩
  · simp only [keys, List.map_append, List.map_map]
    congr 1
    apply List.map_congr_left
    intro e _
    exact record_key e
  · simp

/-- The amended claim C3 at two emissions of code 7 at location 3. -/
theorem add_appends_every_emission_witness :
    addAll (fun l : Nat => l != 0) ([] : Diagnostics Nat Nat)
        [Emission.atLocation 7 3, Emission.atLocation 7 3] =
      some ([] ++ [Emission.atLocation 7 3, Emission.atLocation 7 3].map Emission.record) ∧
    keys (([] : Diagnostics Nat Nat) ++
        [Emission.atLocation 7 3, Emission.atLocation 7 3].map Emission.record) =
      keys ([] : Diagnostics Nat Nat) ++
        [Emission.atLocation 7 3, Emission.atLocation 7 3].map Emission.key ∧
    (([] : Diagnostics Nat Nat) ++
        [Emission.atLocation 7 3, Emission.atLocation 7 3].map Emission.record).length =
      ([] : Diagnostics Nat Nat).length +
        [Emission.atLocation (7 : Nat) (3 : Nat), Emission.atLocation 7 3].length :=
  add_appends_every_emission (fun l : Nat => l != 0) []
    [Emission.atLocation 7 3, Emission.atLocation 7 3] (by decide)

/-- Claim C3 fails as stated: two calls `add(7, 3)` on the empty store leave two stored
entries with the same code and the same location. -/
theorem add_same_code_and_location_twice :
    (addAll (fun l : Nat => l != 0) ([] : Diagnostics Nat Nat)
        [Emission.atLocation 7 3, Emission.atLocation 7 3]).map keys =
      some [(7, 3), (7, 3)] := by
  decide

variable [LinearOrder Code] [LinearOrder Loc]

theorem not_compare_iff (f : Loc → Loc) (x y : Diagnostic Code Loc) :
    compare f y x = false ↔ ordered f x y := by
  unfold compare ordered
  simp only []
  rcases lt_trichotomy (f x.location) (f y.location) with h | h | h
  · have h1 : ¬ f y.location < f x.location := not_lt.mpr h.le
    have h2 : ¬ f y.location = f x.location := fun e => (ne_of_lt h) e.symm
    simp [h1, h2, h]
  · have h1 : ¬ f y.location < f x.location := by rw [h]; exact lt_irrefl _
    simp [h1, h]
  · have h1 : ¬ f x.location < f y.location := not_lt.mpr h.le
    have h2 : ¬ f x.location = f y.location := fun e => (ne_of_lt h) e.symm
    simp [h1, h2, h]

theorem ordered_trans (f : Loc → Loc) {x y z : Diagnostic Code Loc}
    (hxy : ordered f x y) (hyz : ordered f y z) : ordered f x z := by
  unfold ordered at *
  rcases hxy with h1 | ⟨h1, c1⟩ <;> rcases hyz with h2 | ⟨h2, c2⟩
  · exact Or.inl (lt_trans h1 h2)
  · exact Or.inl (h2 ▸ h1)
  · exact Or.inl (h1 ▸ h2)
  · exact Or.inr ⟨h1.trans h2, le_trans c1 c2⟩

theorem ordered_of_compare (f : Loc → Loc) {x y : Diagnostic Code Loc}
    (h : compare f x y = true) : ordered f x y := by
  unfold compare at h
  unfold ordered
  simp only [] at h
  by_cases h1 : f x.location < f y.location
  · exact Or.inl h1
  · by_cases h2 : f x.location = f y.location
    · simp [h1, h2] at h
      exact Or.inr ⟨h2, le_of_lt h⟩
    · simp [h1, h2] at h

theorem stableInsert_pairwise (f : Loc → Loc) (x : Diagnostic Code Loc)
    (l : List (Diagnostic Code Loc)) (hl : l.Pairwise (ordered f)) :
    (stableInsert (compare f) x l).Pairwise (ordered f) := by
  induction l with
  | nil => simp [stableInsert]
  | cons y ys ih =>
    unfold stableInsert
    have hy := List.pairwise_cons.mp hl
    by_cases h : compare f y x = true
    · rw [if_pos h]
      refine List.pairwise_cons.mpr ⟨?_, ih hy.2⟩
      intro z hz
      have hz2 : z ∈ x :: ys := (stableInsert_perm (compare f) x ys).subset hz
      rcases List.mem_cons.mp hz2 with e | e
      · rw [e]; exact ordered_of_compare f h
      · exact hy.1 z e
    · rw [if_neg h]
      have hxy : ordered f x y := (not_compare_iff f x y).mp (by simpa using h)
      refine List.pairwise_cons.mpr ⟨?_, hl⟩
      intro z hz
      rcases List.mem_cons.mp hz with e | e
      · rw [e]; exact hxy
      · exact ordered_trans f hxy (hy.1 z e)

theorem stable_sort_pairwise (f : Loc → Loc) (l : List (Diagnostic Code Loc)) :
    (stable_sort (compare f) l).Pairwise (ordered f) := by
  induction l with
  | nil => simp [stable_sort]
  | cons x xs ih =>
    unfold stable_sort
    exact stableInsert_pairwise f x _ ih

theorem compare_false_of_hasKey (f : Loc → Loc) (l : Loc) (c : Code)
    {x y : Diagnostic Code Loc} (hx : hasKey f l c x = true) (hy : hasKey f l c y = true) :
    compare f y x = false := by
  unfold hasKey at hx hy
  simp only [Bool.and_eq_true, decide_eq_true_eq] at hx hy
  apply (not_compare_iff f x y).mpr
  exact Or.inr ⟨hx.1.trans hy.1.symm, le_of_eq (hx.2.trans hy.2.symm)⟩

theorem stableInsert_filter (f : Loc → Loc) (l : Loc) (c : Code) (x : Diagnostic Code Loc)
    (ds : List (Diagnostic Code Loc)) :
    (stableInsert (compare f) x ds).filter (hasKey f l c) = (x :: ds).filter (hasKey f l c) := by
  induction ds with
  | nil => rfl
  | cons y ys ih =>
    unfold stableInsert
    by_cases h : compare f y x = true
    · rw [if_pos h, List.filter_cons, ih]
      by_cases hx : hasKey f l c x = true
      · by_cases hy : hasKey f l c y = true
        · have := compare_false_of_hasKey f l c hx hy
          rw [this] at h
          exact absurd h (by decide)
        · simp [List.filter_cons, hx, hy]
      · simp [List.filter_cons, hx]
    · rw [if_neg h]

theorem stable_sort_filter (f : Loc → Loc) (l : Loc) (c : Code)
    (ds : List (Diagnostic Code Loc)) :
    (stable_sort (compare f) ds).filter (hasKey f l c) = ds.filter (hasKey f l c) := by
  induction ds with
  | nil => rfl
  | cons x xs ih =>
    unfold stable_sort
    rw [stableInsert_filter, List.filter_cons, List.filter_cons, ih]

theorem same_key_of_ordered (f : Loc → Loc) {x y : Diagnostic Code Loc}
    (hxy : ordered f x y) (hyx : ordered f y x) :
    f x.location = f y.location ∧ x.code = y.code := by
  unfold ordered at hxy hyx
  rcases hxy with h1 | ⟨h1, c1⟩
  · rcases hyx with h2 | ⟨h2, _⟩
    · exact absurd h1 (not_lt.mpr h2.le)
    · rw [h2] at h1; exact absurd h1 (lt_irrefl _)
  · rcases hyx with h2 | ⟨_, c2⟩
    · rw [h1] at h2; exact absurd h2 (lt_irrefl _)
    · exact ⟨h1, le_antisymm c1 c2⟩

theorem ordered_refl (f : Loc → Loc) (x : Diagnostic Code Loc) : ordered f x x :=
  Or.inr ⟨rfl, le_refl _⟩

/-- The outcome of a stable sort is fixed by its contract: two orderings of the same
diagnostics that both follow `ordered` and keep, for every key, the diagnostics of that
key in the same sequence are the same list. So the choice of the algorithm that stands
for `std::stable_sort` does not matter. -/
theorem ordered_stable_unique (f : Loc → Loc) :
    ∀ l m : List (Diagnostic Code Loc), List.Perm l m → l.Pairwise (ordered f) →
      m.Pairwise (ordered f) →
      (∀ (k : Loc) (c : Code), l.filter (hasKey f k c) = m.filter (hasKey f k c)) → l = m := by
  intro l
  induction l with
  | nil =>
    intro m hp _ _ _
    exact (List.Perm.nil_eq hp)
  | cons x xs ih =>
    intro m hp hl hm hf
    cases m with
    | nil => exact absurd (List.Perm.eq_nil hp) (by simp)
    | cons y ys =>
      have hx := List.pairwise_cons.mp hl
      have hy := List.pairwise_cons.mp hm
      have hxy : ordered f x y := by
        have hmem : y ∈ x :: xs := hp.symm.subset (List.mem_cons_self _ _)
        rcases List.mem_cons.mp hmem with e | e
        · rw [e]; exact ordered_refl f x
        · exact hx.1 y e
      have hyx : ordered f y x := by
        have hmem : x ∈ y :: ys := hp.subset (List.mem_cons_self _ _)
        rcases List.mem_cons.mp hmem with e | e
        · rw [e]; exact ordered_refl f y
        · exact hy.1 x e
      have hk := same_key_of_ordered f hxy hyx
      have hkx : hasKey f (f x.location) x.code x = true := by simp [hasKey]
      have hky : hasKey f (f x.location) x.code y = true := by simp [hasKey, hk.1, hk.2]
      have hhead := hf (f x.location) x.code
      rw [List.filter_cons_of_pos hkx, List.filter_cons_of_pos hky] at hhead
      have hxeq : x = y := (List.cons.inj hhead).1
      subst hxeq
      have htail : xs = ys := by
        apply ih ys ((List.perm_cons x).mp hp) hx.2 hy.2
        intro k c
        have h := hf k c
        by_cases hc : hasKey f k c x = true
        · rw [List.filter_cons_of_pos hc, List.filter_cons_of_pos hc] at h
          exact (List.cons.inj h).2
        · rw [List.filter_cons_of_neg hc, List.filter_cons_of_neg hc] at h
          exact h
      rw [htail]

/-- Every list that meets the contract of `std::stable_sort` for the store `ds` is the
list that `Diagnostics::sort` is embedded as. -/
theorem sort_eq_of_contract (f : Loc → Loc) (ds l : List (Diagnostic Code Loc))
    (hp : List.Perm l ds) (hl : l.Pairwise (ordered f))
    (hf : ∀ (k : Loc) (c : Code), l.filter (hasKey f k c) = ds.filter (hasKey f k c)) :
    l = sort f ds := by
  apply ordered_stable_unique f l (sort f ds) (hp.trans (stable_sort_perm _ ds).symm) hl
    (stable_sort_pairwise f ds)
  intro k c
  rw [hf k c]
  exact (stable_sort_filter f k c ds).symm

/-! ## Claims on the diagnostic store -/

/-- Claim C1: for every list of diagnostics and every mapping of locations to fully
expanded locations, `Diagnostics::sort` leaves a permutation of the input in which
every adjacent pair `(x, y)` has `expanded(x.location) < expanded(y.location)`, or equal
expanded locations and `x.code <= y.code`. -/
theorem sort_perm_and_ordered (getFullyExpandedLoc : Loc → Loc) (ds : Diagnostics Code Loc) :
    List.Perm (sort getFullyExpandedLoc ds) ds ∧
      List.Chain'
        (fun x y =>
          getFullyExpandedLoc x.location < getFullyExpandedLoc y.location ∨
            (getFullyExpandedLoc x.location = getFullyExpandedLoc y.location ∧ x.code ≤ y.code))
        (sort getFullyExpandedLoc ds) := by
  refine ⟨stable_sort_perm _ ds, ?_⟩
  have h := stable_sort_pairwise getFullyExpandedLoc ds
  exact List.Pairwise.chain' h

/-- Claim C2: `Diagnostics::sort` is stable. For every key (fully expanded location and
code) the diagnostics with that key stand in the output in the order they had in the
input; in particular two diagnostics with equal keys, one before the other in the
input, stand in that order in the output. -/
theorem sort_stable (getFullyExpandedLoc : Loc → Loc) (ds : Diagnostics Code Loc) :
    (∀ (l : Loc) (c : Code),
        (sort getFullyExpandedLoc ds).filter
            (fun d => decide (getFullyExpandedLoc d.location = l) && decide (d.code = c)) =
          ds.filter
            (fun d => decide (getFullyExpandedLoc d.location = l) && decide (d.code = c))) ∧
      (∀ x y : Diagnostic Code Loc,
        getFullyExpandedLoc x.location = getFullyExpandedLoc y.location → x.code = y.code →
          List.Sublist [x, y] ds → List.Sublist [x, y] (sort getFullyExpandedLoc ds)) := by
  have key : ∀ (l : Loc) (c : Code),
      (sort getFullyExpandedLoc ds).filter (hasKey getFullyExpandedLoc l c) =
        ds.filter (hasKey getFullyExpandedLoc l c) :=
    fun l c => stable_sort_filter getFullyExpandedLoc l c ds
  refine ⟨key, ?_⟩
  intro x y hl hc hsub
  have hx : hasKey getFullyExpandedLoc (getFullyExpandedLoc y.location) y.code x = true := by
    simp [hasKey, hl, hc]
  have hy : hasKey getFullyExpandedLoc (getFullyExpandedLoc y.location) y.code y = true := by
    simp [hasKey]
  have h1 := List.Sublist.filter (hasKey getFullyExpandedLoc (getFullyExpandedLoc y.location) y.code)
    hsub
  have h2 : [x, y].filter (hasKey getFullyExpandedLoc (getFullyExpandedLoc y.location) y.code) =
      [x, y] := by
    simp [List.filter_cons, hx, hy]
  rw [h2, ← key] at h1
  exact h1.trans (List.filter_sublist _)

end Diagnostics

/-! ## Lemmas on the assignability checks -/

theorem reportErr_eq (var : Symbol) (assignLoc : SourceLocation) (varRange : SourceRange)
    (code : DiagCode) (s : BindState) (hl : var.location.valid = true)
    (h1 : varRange.start.valid = true) (h2 : varRange.stop.valid = true) :
    reportErr var assignLoc varRange code s =
      some (false, s.addDiag (declarationDiag var assignLoc varRange code)) := by
  simp [reportErr, Diagnostic.addNote, Diagnostic.addRange, Diagnostic.addArg, Diagnostic.create,
    declarationDiag, hl, h1, h2, Diagnostic.code, Diagnostic.location, Diagnostic.symbol,
    Diagnostic.args, Diagnostic.ranges, Diagnostic.notes]

theorem reportErr_some (var : Symbol) (assignLoc : SourceLocation) (varRange : SourceRange)
    (code : DiagCode) (s : BindState) (r : Bool) (s1 : BindState)
    (h : reportErr var assignLoc varRange code s = some (r, s1)) :
    r = false ∧ s1.drivers = s.drivers ∧ s1.codes = s.codes ++ [code] := by
  unfold reportErr at h
  simp only [] at h
  split at h
  · exact absurd h (by simp)
  · rename_i d1 hd1
    split at h
    · exact absurd h (by simp)
    · rename_i d2 hd2
      simp only [Option.some.injEq, Prod.mk.injEq] at h
      obtain ⟨hr, hs⟩ := h
      subst hs
      refine ⟨hr.symm, rfl, ?_⟩
      simp only [Diagnostic.addNote] at hd1
      split at hd1
      · simp only [Option.some.injEq] at hd1
        subst hd1
        simp only [Diagnostic.addRange] at hd2
        split at hd2
        · simp only [Option.some.injEq] at hd2
          subst hd2
          simp [BindState.codes, BindState.addDiag, Diagnostic.code, Diagnostic.addArg,
            Diagnostic.create]
        · exact absurd hd2 (by simp)
      · exact absurd hd1 (by simp)

theorem rangeDiag_eq (code : DiagCode) (range : SourceRange) (h1 : range.start.valid = true)
    (h2 : range.stop.valid = true) : rangeDiag code range = some (rangeDiagWith code range []) := by
  simp [rangeDiag, rangeDiagWith, Diagnostic.addRange, Diagnostic.create, h1, h2,
    Diagnostic.code, Diagnostic.location, Diagnostic.symbol, Diagnostic.args, Diagnostic.ranges,
    Diagnostic.notes]

theorem checkInOutPort_some (var : Symbol) (flags : bitmask AssignFlags)
    (assignLoc : SourceLocation) (varRange : SourceRange) (s : BindState) (r : Bool)
    (s1 : BindState) (h : checkInOutPort var flags assignLoc varRange s = some (r, s1)) :
    s1.drivers = s.drivers := by
  unfold checkInOutPort at h
  split at h
  · exact (reportErr_some _ _ _ _ _ _ _ h).2.1
  · simp only [Option.some.injEq, Prod.mk.injEq] at h
    rw [← h.2]

theorem checkVariableAssignmentRest_some (var : Symbol) (flags : bitmask AssignFlags)
    (assignLoc : SourceLocation) (varRange : SourceRange) (s : BindState) (r : Bool)
    (s1 : BindState) (h : checkVariableAssignmentRest var flags assignLoc varRange s = some (r, s1)) :
    s1.drivers = s.drivers := by
  unfold checkVariableAssignmentRest at h
  split at h
  · exact (reportErr_some _ _ _ _ _ _ _ h).2.1
  · split at h
    · simp only [] at h
      split at h
      · exact absurd h (by simp)
      · rename_i s2 hs2
        have hd : s2.drivers = s.drivers := by
          split at hs2
          · cases hr : reportErr var assignLoc varRange DiagCode.ClockVarAssignConcat s with
            | none => rw [hr] at hs2; exact absurd hs2 (by simp)
            | some p =>
              rw [hr] at hs2
              simp only [Option.map_some', Option.some.injEq] at hs2
              obtain ⟨b, s3⟩ := p
              have := (reportErr_some _ _ _ _ _ _ _ hr).2.1
              simp only at hs2
              rw [← hs2]; exact this
          · simp only [Option.some.injEq] at hs2
            rw [← hs2]
        split at h
        · rw [(reportErr_some _ _ _ _ _ _ _ h).2.1, hd]
        · split at h
          · rw [(reportErr_some _ _ _ _ _ _ _ h).2.1, hd]
          · rw [checkInOutPort_some _ _ _ _ _ _ _ h, hd]
    · exact checkInOutPort_some _ _ _ _ _ _ _ h

theorem checkVariableAssignment_some (context : BindContext) (var : Symbol)
    (flags : bitmask AssignFlags) (assignLoc : SourceLocation) (varRange : SourceRange)
    (s : BindState) (r : Bool) (s1 : BindState)
    (h : checkVariableAssignment context var flags assignLoc varRange s = some (r, s1)) :
    s1.drivers = s.drivers := by
  unfold checkVariableAssignment at h
  split at h
  · split at h
    · exact absurd h (by simp)
    · split at h
      · exact (reportErr_some _ _ _ _ _ _ _ h).2.1
      · exact checkVariableAssignmentRest_some _ _ _ _ _ _ _ h
  · exact checkVariableAssignmentRest_some _ _ _ _ _ _ _ h

theorem checkInOutPort_isSome (var : Symbol) (flags : bitmask AssignFlags)
    (assignLoc : SourceLocation) (varRange : SourceRange) (s : BindState)
    (hl : var.location.valid = true) (h1 : varRange.start.valid = true)
    (h2 : varRange.stop.valid = true) :
    (checkInOutPort var flags assignLoc varRange s).isSome = true := by
  unfold checkInOutPort
  split
  · rw [reportErr_eq _ _ _ _ _ hl h1 h2]; rfl
  · rfl

theorem checkVariableAssignmentRest_isSome (var : Symbol) (flags : bitmask AssignFlags)
    (assignLoc : SourceLocation) (varRange : SourceRange) (s : BindState)
    (hl : var.location.valid = true) (h1 : varRange.start.valid = true)
    (h2 : varRange.stop.valid = true) :
    (checkVariableAssignmentRest var flags assignLoc varRange s).isSome = true := by
  unfold checkVariableAssignmentRest
  simp only [reportErr_eq _ _ _ _ _ hl h1 h2, Option.map_some']
  split
  · rfl
  · split
    · split
      · rename_i hs; split at hs <;> exact absurd hs (by simp)
      · split
        · rfl
        · split
          · rfl
          · exact checkInOutPort_isSome _ _ _ _ _ hl h1 h2
    · exact checkInOutPort_isSome _ _ _ _ _ hl h1 h2

theorem checkVariableAssignment_isSome (context : BindContext) (var : Symbol)
    (flags : bitmask AssignFlags) (assignLoc : SourceLocation) (varRange : SourceRange)
    (s : BindState) (hl : var.location.valid = true) (h1 : varRange.start.valid = true)
    (h2 : varRange.stop.valid = true) (hp : (constructorParent context.scope).isSome = true) :
    (checkVariableAssignment context var flags assignLoc varRange s).isSome = true := by
  unfold checkVariableAssignment
  split
  · split
    · rename_i hnone; rw [hnone] at hp; exact absurd hp (by simp)
    · split
      · rw [reportErr_eq _ _ _ _ _ hl h1 h2]; rfl
      · exact checkVariableAssignmentRest_isSome _ _ _ _ _ hl h1 h2
  · exact checkVariableAssignmentRest_isSome _ _ _ _ _ hl h1 h2

/-! ## Claims on the assignability checks -/

theorem constructorParent_eq_nearestNonBlock :
    ∀ scope : Scope, constructorParent scope = scope.nearestNonBlock := by
  intro scope
  induction scope with
  | top sym =>
    unfold constructorParent Scope.nearestNonBlock
    by_cases h : sym.kind = SymbolKind.StatementBlock
    · simp [Scope.enclosing, Scope.asSymbol, h]
    · simp [Scope.enclosing, Scope.asSymbol, h]
  | nested sym parent ih =>
    unfold constructorParent
    by_cases h : sym.kind = SymbolKind.StatementBlock
    · rw [if_pos h, ih]
      simp [Scope.nearestNonBlock, Scope.enclosing, Scope.asSymbol, h]
    · rw [if_neg h]
      simp [Scope.nearestNonBlock, Scope.enclosing, Scope.asSymbol, h]

/-- Claim C6: for a variable flagged `Const`, `checkVariableAssignment` reports
`AssignmentToConstVar` and returns false unless the variable has no initializer and
the nearest enclosing symbol of the binding scope that is not a statement block is a
subroutine flagged `Constructor`; in that case a plain assignment (no assignment flag)
to a variable that is not a clock variable returns true and issues nothing. The
nearest enclosing symbol is the first symbol that is not a statement block on the way
from the binding scope outwards. -/
theorem checkVariableAssignment_const_rule (context : BindContext) (var : Symbol)
    (flags : bitmask AssignFlags) (assignLoc : SourceLocation) (varRange : SourceRange)
    (s : BindState) (parent : ScopeSymbol)
    (hconst : var.flags.has VariableFlags.Const = true)
    (hparent : context.scope.nearestNonBlock = some parent) :
    (¬ (var.hasInitializer = false ∧ parent.kind = SymbolKind.Subroutine ∧
          parent.methodFlags.has MethodFlags.Constructor = true) →
        var.location.valid = true → varRange.start.valid = true → varRange.stop.valid = true →
        checkVariableAssignment context var flags assignLoc varRange s =
          some (false,
            s.addDiag (declarationDiag var assignLoc varRange DiagCode.AssignmentToConstVar))) ∧
      (var.hasInitializer = false → parent.kind = SymbolKind.Subroutine →
        parent.methodFlags.has MethodFlags.Constructor = true → var.kind ≠ SymbolKind.ClockVar →
        checkVariableAssignment context var [] assignLoc varRange s = some (true, s)) := by
  have hloop : constructorParent context.scope = some parent := by
    rw [constructorParent_eq_nearestNonBlock]
    exact hparent
  constructor
  · intro hne hl h1 h2
    unfold checkVariableAssignment
    rw [if_pos hconst, hloop]
    simp only []
    have hc : (var.hasInitializer || parent.kind != SymbolKind.Subroutine ||
        !parent.methodFlags.has MethodFlags.Constructor) = true := by
      by_contra hcon
      apply hne
      simp only [Bool.or_eq_true, bne_iff_ne, ne_eq, Bool.not_eq_true', not_or, not_not,
        Bool.not_eq_true, Bool.not_eq_false] at hcon
      exact ⟨hcon.1.1, hcon.1.2, hcon.2⟩
    rw [if_pos hc, reportErr_eq _ _ _ _ _ hl h1 h2]
  · intro hi hk hm hcv
    unfold checkVariableAssignment
    rw [if_pos hconst, hloop]
    simp only []
    have hc : ¬ (var.hasInitializer || parent.kind != SymbolKind.Subroutine ||
        !parent.methodFlags.has MethodFlags.Constructor) = true := by
      simp [hi, hk, hm]
    rw [if_neg hc]
    unfold checkVariableAssignmentRest checkInOutPort
    have hk2 : (var.kind == SymbolKind.ClockVar) = false := by simpa using hcv
    simp [bitmask.has, hk2]

/-- Claim C6 on `const int x = 3;` assigned in a task, on a `const` class property
without initializer assigned in a statement block of a task, where the nearest symbol
that is not a statement block is the task, and on the same property assigned in a
statement block of the constructor. -/
theorem checkVariableAssignment_const_rule_witness :
    checkVariableAssignment taskContext constVarWithInit [] (sampleLoc 100) (sampleRange 100)
        emptyState =
      some (false, emptyState.addDiag
        (declarationDiag constVarWithInit (sampleLoc 100) (sampleRange 100)
          DiagCode.AssignmentToConstVar)) ∧
    checkVariableAssignment taskContext constPropertyNoInit [] (sampleLoc 100)
        (sampleRange 100) emptyState =
      some (false, emptyState.addDiag
        (declarationDiag constPropertyNoInit (sampleLoc 100) (sampleRange 100)
          DiagCode.AssignmentToConstVar)) ∧
    checkVariableAssignment constructorContext constPropertyNoInit [] (sampleLoc 100)
        (sampleRange 100) emptyState = some (true, emptyState) :=
  ⟨(checkVariableAssignment_const_rule taskContext constVarWithInit [] (sampleLoc 100)
      (sampleRange 100) emptyState
      { kind := SymbolKind.Subroutine, name := "run", methodFlags := [] }
      (by decide) (by decide)).1 (by decide) (by decide) (by decide) (by decide),
   (checkVariableAssignment_const_rule taskContext constPropertyNoInit [] (sampleLoc 100)
      (sampleRange 100) emptyState
      { kind := SymbolKind.Subroutine, name := "run", methodFlags := [] }
      (by decide) (by decide)).1 (by decide) (by decide) (by decide) (by decide),
   (checkVariableAssignment_const_rule constructorContext constPropertyNoInit []
      (sampleLoc 100) (sampleRange 100) emptyState
      { kind := SymbolKind.Subroutine, name := "new", methodFlags := [MethodFlags.Constructor] }
      (by decide) (by decide)).2 (by decide) (by decide) (by decide) (by decide)⟩

theorem requireLValueDriver_some (self : ValueExpressionBase) (context : BindContext)
    (location : SourceLocation) (flags : bitmask AssignFlags)
    (longestStaticPrefix : Option Expression) (customEvalContext : Option Nat)
    (s : BindState) (r : Bool) (s1 : BindState)
    (h : requireLValueDriver self context location flags longestStaticPrefix customEvalContext s =
      some (r, s1)) :
    s1.drivers =
      if r then
        s.drivers ++
          [(self.symbol,
            { kind := context.driverKind,
              longestStaticPrefix := longestStaticPrefix.getD self.toExpression,
              flags := flags, customEvalContext := customEvalContext })]
      else s.drivers := by
  unfold requireLValueDriver at h
  simp only [] at h
  split at h
  · exact absurd h (by simp)
  · rename_i s2 hs2
    simp only [Option.some.injEq, Prod.mk.injEq] at h
    obtain ⟨hr, hs⟩ := h
    subst hr hs
    simp only [Bool.false_eq_true, if_false]
    split at hs2
    · exact checkVariableAssignment_some _ _ _ _ _ _ _ _ hs2
    · exact absurd hs2 (by simp)
  · rename_i s2 hs2
    simp only [Option.some.injEq, Prod.mk.injEq] at h
    obtain ⟨hr, hs⟩ := h
    subst hr hs
    have hd : s2.drivers = s.drivers := by
      split at hs2
      · exact checkVariableAssignment_some _ _ _ _ _ _ _ _ hs2
      · simp only [Option.some.injEq, Prod.mk.injEq, true_and] at hs2
        rw [← hs2]
    cases longestStaticPrefix <;> simp [BindContext.addDriver, hd]

theorem requireLValueDriver_isSome (self : ValueExpressionBase) (context : BindContext)
    (location : SourceLocation) (flags : bitmask AssignFlags)
    (longestStaticPrefix : Option Expression) (customEvalContext : Option Nat)
    (s : BindState) (hl : self.symbol.location.valid = true)
    (h1 : self.sourceRange.start.valid = true) (h2 : self.sourceRange.stop.valid = true)
    (hp : (constructorParent context.scope).isSome = true) :
    (requireLValueDriver self context location flags longestStaticPrefix customEvalContext
      s).isSome = true := by
  unfold requireLValueDriver
  simp only []
  split
  · rename_i hnone
    split at hnone
    · have := checkVariableAssignment_isSome context self.symbol flags location self.sourceRange s
        hl h1 h2 hp
      rw [hnone] at this
      exact absurd this (by simp)
    · exact absurd hnone (by simp)
  · rfl
  · rfl

/-- Claim C7: `requireLValueImpl` records exactly one driver on the target symbol when
it returns true and none when it returns false; the driver's longest static prefix is
the one supplied by the caller or, when none is supplied, the value expression itself.
The call returns whenever the locations it puts into diagnostics are valid and the
binding scope has an enclosing symbol that is not a statement block. -/
theorem requireLValueImpl_records_driver (self : ValueExpressionBase) (context : BindContext)
    (location : SourceLocation) (flags : bitmask AssignFlags)
    (longestStaticPrefix : Option Expression) (customEvalContext : Option Nat)
    (s : BindState) :
    (self.symbol.location.valid = true → self.sourceRange.start.valid = true →
        self.sourceRange.stop.valid = true → (constructorParent context.scope).isSome = true →
        (requireLValueImpl self context location flags longestStaticPrefix customEvalContext
          s).isSome = true) ∧
      (∀ (r : Bool) (s1 : BindState),
        requireLValueImpl self context location flags longestStaticPrefix customEvalContext s =
            some (r, s1) →
          (s1.drivers =
            if r then
              s.drivers ++
                [(self.symbol,
                  { kind := context.driverKind,
                    longestStaticPrefix := longestStaticPrefix.getD self.toExpression,
                    flags := flags, customEvalContext := customEvalContext })]
            else s.drivers) ∧
          s1.driversOf self.symbol =
            s.driversOf self.symbol ++
              (if r then
                [{ kind := context.driverKind,
                   longestStaticPrefix := longestStaticPrefix.getD self.toExpression,
                   flags := flags, customEvalContext := customEvalContext }]
              else [])) := by
  have early : ∀ (o : Option BindDiag) (r : Bool) (s1 : BindState),
      o.map (fun d => (false, s.addDiag d)) = some (r, s1) →
        s1.drivers =
          if r then
            s.drivers ++
              [(self.symbol,
                { kind := context.driverKind,
                  longestStaticPrefix := longestStaticPrefix.getD self.toExpression,
                  flags := flags, customEvalContext := customEvalContext })]
          else s.drivers := by
    intro o r s1 ho
    cases o with
    | none => exact absurd ho (by simp)
    | some d =>
      simp only [Option.map_some', Option.some.injEq, Prod.mk.injEq] at ho
      obtain ⟨hr, hs⟩ := ho
      subst hr hs
      simp [BindState.addDiag]
  constructor
  · intro hl h1 h2 hp
    unfold requireLValueImpl
    simp only [cantModifyConst, rangeDiag_eq _ _ h1 h2, Diagnostic.addNote, Diagnostic.addRange,
      hl, h1, h2, if_true, Option.map_some', Bool.and_self]
    split
    · rfl
    · split
      · split
        · rfl
        · split
          · rfl
          · exact requireLValueDriver_isSome _ _ _ _ _ _ _ hl h1 h2 hp
      · split
        · rfl
        · exact requireLValueDriver_isSome _ _ _ _ _ _ _ hl h1 h2 hp
  · intro r s1 h
    have hd : s1.drivers =
        if r then
          s.drivers ++
            [(self.symbol,
              { kind := context.driverKind,
                longestStaticPrefix := longestStaticPrefix.getD self.toExpression,
                flags := flags, customEvalContext := customEvalContext })]
        else s.drivers := by
      unfold requireLValueImpl at h
      simp only [] at h
      split at h
      · exact early _ r s1 h
      · split at h
        · split at h
          · exact early _ r s1 h
          · split at h
            · exact early _ r s1 h
            · exact requireLValueDriver_some _ _ _ _ _ _ _ _ _ h
        · split at h
          · exact early _ r s1 h
          · exact requireLValueDriver_some _ _ _ _ _ _ _ _ _ h
    refine ⟨hd, ?_⟩
    unfold BindState.driversOf
    rw [hd]
    cases r <;> simp [List.filter_append]

/-- Claim C7 on a blocking assignment to `int v;` in a task: the call returns, and its
result carries the driver it recorded. -/
theorem requireLValueImpl_records_driver_witness :
    (requireLValueImpl (sampleRef plainVar) taskContext (sampleLoc 210) [] none none
        emptyState).isSome = true ∧
      (requireLValueImpl (sampleRef plainVar) taskContext (sampleLoc 210) [] none none
          emptyState).map (fun p => (p.1, p.2.drivers)) =
        some (true,
          [(plainVar,
            { kind := DriverKind.Procedural,
              longestStaticPrefix := Expression.NamedValue plainVar (sampleRange 200),
              flags := [], customEvalContext := none })]) :=
  ⟨(requireLValueImpl_records_driver (sampleRef plainVar) taskContext (sampleLoc 210) [] none
      none emptyState).1 (by decide) (by decide) (by decide) (by decide),
   by decide⟩

/-- Claim C8, amended: for a net symbol `requireLValueImpl` returns false with
`AssignToNet` whenever the binding context lacks the `NonProcedural` flag; in a
`NonProcedural` context it returns false with `InOutUWireConn` for every uwire net
assigned with the `InOutPort` flag whose type is not a chandle, and a net whose type is
a chandle is rejected there with `AssignToCHandle`. -/
theorem requireLValueImpl_net_rules (self : ValueExpressionBase) (context : BindContext)
    (location : SourceLocation) (flags : bitmask AssignFlags)
    (longestStaticPrefix : Option Expression) (customEvalContext : Option Nat) (s : BindState)
    (hnet : self.symbol.kind = SymbolKind.Net)
    (h1 : self.sourceRange.start.valid = true) (h2 : self.sourceRange.stop.valid = true) :
    (context.flags.has BindFlags.NonProcedural = false →
        requireLValueImpl self context location flags longestStaticPrefix customEvalContext s =
          some (false, s.addDiag (rangeDiagWith DiagCode.AssignToNet self.sourceRange []))) ∧
      (context.flags.has BindFlags.NonProcedural = true → self.symbol.netKind = NetKind.UWire →
        flags.has AssignFlags.InOutPort = true → self.symbol.isCHandle = false →
        requireLValueImpl self context location flags longestStaticPrefix customEvalContext s =
          some (false,
            s.addDiag (rangeDiagWith DiagCode.InOutUWireConn self.sourceRange
              [self.symbol.name]))) ∧
      (context.flags.has BindFlags.NonProcedural = true → self.symbol.isCHandle = true →
        requireLValueImpl self context location flags longestStaticPrefix customEvalContext s =
          some (false, s.addDiag (rangeDiagWith DiagCode.AssignToCHandle self.sourceRange []))) := by
  refine ⟨?_, ?_, ?_⟩
  · intro hnp
    unfold requireLValueImpl
    simp [hnet, hnp, rangeDiag_eq _ _ h1 h2]
  · intro hnp hu hio hch
    unfold requireLValueImpl
    simp [hnet, hnp, hu, hio, hch, rangeDiag_eq _ _ h1 h2, rangeDiagWith, Diagnostic.addArg,
      Diagnostic.code, Diagnostic.location, Diagnostic.symbol, Diagnostic.args,
      Diagnostic.ranges, Diagnostic.notes]
  · intro hnp hch
    unfold requireLValueImpl
    simp [hnet, hnp, hch, rangeDiag_eq _ _ h1 h2]

/-- The amended claim C8 on a wire assigned in a task and on a uwire of integral type
connected to an inout port. -/
theorem requireLValueImpl_net_rules_witness :
    requireLValueImpl (sampleRef (sampleNet NetKind.Other SymbolKind.PredefinedIntegerType))
        taskContext (sampleLoc 210) [] none none emptyState =
      some (false, emptyState.addDiag (rangeDiagWith DiagCode.AssignToNet (sampleRange 200) [])) ∧
    requireLValueImpl (sampleRef (sampleNet NetKind.UWire SymbolKind.PredefinedIntegerType))
        nonProceduralContext (sampleLoc 210) [AssignFlags.InOutPort] none none emptyState =
      some (false,
        emptyState.addDiag (rangeDiagWith DiagCode.InOutUWireConn (sampleRange 200) ["w"])) :=
  ⟨(requireLValueImpl_net_rules
      (sampleRef (sampleNet NetKind.Other SymbolKind.PredefinedIntegerType)) taskContext
      (sampleLoc 210) [] none none emptyState (by decide) (by decide) (by decide)).1 (by decide),
   (requireLValueImpl_net_rules
      (sampleRef (sampleNet NetKind.UWire SymbolKind.PredefinedIntegerType)) nonProceduralContext
      (sampleLoc 210) [AssignFlags.InOutPort] none none emptyState (by decide) (by decide)
      (by decide)).2.1 (by decide) (by decide) (by decide) (by decide)⟩

/-- Claim C8 fails as stated: a uwire net whose type is a chandle, assigned with the
`InOutPort` flag in a `NonProcedural` context, is rejected with `AssignToCHandle`, and
`InOutUWireConn` is not issued. -/
theorem requireLValueImpl_uwire_chandle :
    (requireLValueImpl (sampleRef (sampleNet NetKind.UWire SymbolKind.CHandleType))
        nonProceduralContext (sampleLoc 210) [AssignFlags.InOutPort] none none emptyState).map
        (fun p => (p.1, p.2.codes)) = some (false, [DiagCode.AssignToCHandle]) ∧
      DiagCode.InOutUWireConn ∉ [DiagCode.AssignToCHandle] := by
  decide

/-- Claim C9 fails on the code: for the clock variable `c` of direction `Out` and the
assignment flags `NonBlocking` and `InConcat`, `checkVariableAssignment` issues
`ClockVarAssignConcat` and returns true. -/
theorem checkVariableAssignment_clockVar_concat :
    (checkVariableAssignment taskContext (sampleClockVar ArgumentDirection.Out)
        [AssignFlags.NonBlocking, AssignFlags.InConcat] (sampleLoc 210) (sampleRange 200)
        emptyState).map (fun p => (p.1, p.2.codes)) =
      some (true, [DiagCode.ClockVarAssignConcat]) := by
  decide

/-- Claim C10, amended: for a clock variable `checkVariableAssignment` returns true
only if the declared direction is not `In` and the assignment flags contain
`NonBlocking`; a clock variable of direction `In` yields `WriteToInputClockVar`, and a
clock variable of another direction assigned without `NonBlocking` yields
`ClockVarSyncDrive`, both returning false. With the `InConcat` flag either diagnostic
comes after `ClockVarAssignConcat`. -/
theorem checkVariableAssignment_clockVar_rules (context : BindContext) (name : String)
    (loc : SourceLocation) (direction : ArgumentDirection) (typeKind : SymbolKind)
    (hasInitializer : Bool) (flags : bitmask AssignFlags) (assignLoc : SourceLocation)
    (varRange : SourceRange) (s : BindState) (hl : loc.valid = true)
    (h1 : varRange.start.valid = true) (h2 : varRange.stop.valid = true) :
    (∀ s1 : BindState,
        checkVariableAssignment context
            (ClockVarSymbol.create name loc direction typeKind hasInitializer) flags assignLoc
            varRange s = some (true, s1) →
          direction ≠ ArgumentDirection.In ∧ flags.has AssignFlags.NonBlocking = true) ∧
      (direction = ArgumentDirection.In →
        checkVariableAssignment context
            (ClockVarSymbol.create name loc direction typeKind hasInitializer) flags assignLoc
            varRange s =
          some (false,
            (if flags.has AssignFlags.InConcat then
              s.addDiag (declarationDiag
                (ClockVarSymbol.create name loc direction typeKind hasInitializer) assignLoc
                varRange DiagCode.ClockVarAssignConcat)
            else s).addDiag
              (declarationDiag (ClockVarSymbol.create name loc direction typeKind hasInitializer)
                assignLoc varRange DiagCode.WriteToInputClockVar))) ∧
      (direction ≠ ArgumentDirection.In → flags.has AssignFlags.NonBlocking = false →
        checkVariableAssignment context
            (ClockVarSymbol.create name loc direction typeKind hasInitializer) flags assignLoc
            varRange s =
          some (false,
            (if flags.has AssignFlags.InConcat then
              s.addDiag (declarationDiag
                (ClockVarSymbol.create name loc direction typeKind hasInitializer) assignLoc
                varRange DiagCode.ClockVarAssignConcat)
            else s).addDiag
              (declarationDiag (ClockVarSymbol.create name loc direction typeKind hasInitializer)
                assignLoc varRange DiagCode.ClockVarSyncDrive))) := by
  have hloc : (ClockVarSymbol.create name loc direction typeKind hasInitializer).location.valid =
      true := hl
  have hform : checkVariableAssignment context
      (ClockVarSymbol.create name loc direction typeKind hasInitializer) flags assignLoc
      varRange s =
      (if direction = ArgumentDirection.In then
        some (false,
          (if flags.has AssignFlags.InConcat then
            s.addDiag (declarationDiag
              (ClockVarSymbol.create name loc direction typeKind hasInitializer) assignLoc
              varRange DiagCode.ClockVarAssignConcat)
          else s).addDiag
            (declarationDiag (ClockVarSymbol.create name loc direction typeKind hasInitializer)
              assignLoc varRange DiagCode.WriteToInputClockVar))
      else if flags.has AssignFlags.NonBlocking = false then
        some (false,
          (if flags.has AssignFlags.InConcat then
            s.addDiag (declarationDiag
              (ClockVarSymbol.create name loc direction typeKind hasInitializer) assignLoc
              varRange DiagCode.ClockVarAssignConcat)
          else s).addDiag
            (declarationDiag (ClockVarSymbol.create name loc direction typeKind hasInitializer)
              assignLoc varRange DiagCode.ClockVarSyncDrive))
      else
        checkInOutPort (ClockVarSymbol.create name loc direction typeKind hasInitializer) flags
          assignLoc varRange
          (if flags.has AssignFlags.InConcat then
            s.addDiag (declarationDiag
              (ClockVarSymbol.create name loc direction typeKind hasInitializer) assignLoc
              varRange DiagCode.ClockVarAssignConcat)
          else s)) := by
    unfold checkVariableAssignment checkVariableAssignmentRest
    simp only [reportErr_eq _ _ _ _ _ hloc h1 h2, Option.map_some']
    have hflags : (ClockVarSymbol.create name loc direction typeKind hasInitializer).flags = [] :=
      rfl
    have hkind : (ClockVarSymbol.create name loc direction typeKind hasInitializer).kind =
        SymbolKind.ClockVar := rfl
    have hlife : (ClockVarSymbol.create name loc direction typeKind hasInitializer).lifetime =
        VariableLifetime.Static := rfl
    have hdir : (ClockVarSymbol.create name loc direction typeKind hasInitializer).direction =
        direction := rfl
    rw [hflags, hkind, hlife, hdir]
    by_cases hc : flags.has AssignFlags.InConcat = true <;>
      by_cases hd : direction = ArgumentDirection.In <;>
      by_cases hn : flags.has AssignFlags.NonBlocking = true <;>
      simp [bitmask.has, hc, hd, hn] at * <;> simp [bitmask.has, hc, hd, hn]
  refine ⟨?_, ?_, ?_⟩
  · intro s1 h
    rw [hform] at h
    by_cases hd : direction = ArgumentDirection.In
    · rw [if_pos hd] at h
      simp at h
    · rw [if_neg hd] at h
      by_cases hn : flags.has AssignFlags.NonBlocking = false
      · rw [if_pos hn] at h
        simp at h
      · exact ⟨hd, by simpa using hn⟩
  · intro hd
    rw [hform, if_pos hd]
  · intro hd hn
    rw [hform, if_neg hd, if_pos hn]

/-- The amended claim C10 on an input clock variable assigned without `NonBlocking` and
on an output clock variable assigned without `NonBlocking`. -/
theorem checkVariableAssignment_clockVar_rules_witness :
    checkVariableAssignment taskContext (sampleClockVar ArgumentDirection.In) [] (sampleLoc 210)
        (sampleRange 200) emptyState =
      some (false, emptyState.addDiag
        (declarationDiag (sampleClockVar ArgumentDirection.In) (sampleLoc 210) (sampleRange 200)
          DiagCode.WriteToInputClockVar)) ∧
    checkVariableAssignment taskContext (sampleClockVar ArgumentDirection.Out) [] (sampleLoc 210)
        (sampleRange 200) emptyState =
      some (false, emptyState.addDiag
        (declarationDiag (sampleClockVar ArgumentDirection.Out) (sampleLoc 210) (sampleRange 200)
          DiagCode.ClockVarSyncDrive)) :=
  ⟨(checkVariableAssignment_clockVar_rules taskContext "c" (sampleLoc 90) ArgumentDirection.In
      SymbolKind.PredefinedIntegerType false [] (sampleLoc 210) (sampleRange 200) emptyState
      (by decide) (by decide) (by decide)).2.1 rfl,
   (checkVariableAssignment_clockVar_rules taskContext "c" (sampleLoc 90) ArgumentDirection.Out
      SymbolKind.PredefinedIntegerType false [] (sampleLoc 210) (sampleRange 200) emptyState
      (by decide) (by decide) (by decide)).2.2 (by decide) (by decide)⟩

/-- Claim C10 fails as stated: the clock variable `c` of direction `In`, assigned
without `NonBlocking`, yields `WriteToInputClockVar` alone; `ClockVarSyncDrive` is not
issued. -/
theorem checkVariableAssignment_input_clockVar_blocking :
    (checkVariableAssignment taskContext (sampleClockVar ArgumentDirection.In) [] (sampleLoc 210)
        (sampleRange 200) emptyState).map (fun p => (p.1, p.2.codes)) =
        some (false, [DiagCode.WriteToInputClockVar]) ∧
      DiagCode.ClockVarSyncDrive ∉ [DiagCode.WriteToInputClockVar] := by
  decide

/-! ## Claims on assertion instances and on min:typ:max -/

theorem mapFormal_named_with_expr (checkAssertionArg : ArgChecker) (context : BindContext)
    (symbolName : String) (range : SourceRange) (numFormals : Nat)
    (orderedArgs : List ArgumentSyntax) (isRecursive : Bool) (formal : AssertionPortSymbol)
    (m : ArgMapping) (named : NamedArgumentSyntax) (used : Bool) (e : PropertyExprSyntax)
    (hordered : orderedArgs.get? m.orderedIndex = none)
    (hnamed : m.namedArgs.find formal.name = some (named, used))
    (hexpr : named.expr = some e) :
    mapFormal checkAssertionArg context symbolName range numFormals orderedArgs isRecursive
        formal m =
      some ({ m with namedArgs := m.namedArgs.markUsed formal.name, bad := true }, false) := by
  unfold mapFormal chooseActual
  rw [hordered]
  simp only []
  rw [hnamed]
  simp only []
  rw [hexpr]
  simp

/-- Claim C4 fails on the code: for `property p(a)` called as `p(.a(x))`, the formal `a`
receives no ordered argument and is named by a named argument that carries the
expression `x`, yet the mapping of `fromLookup` leaves the argument map without an
entry for `a`, issues no diagnostic, and sets `bad`, so the instance is invalid
whatever its body. -/
theorem mapArguments_named_argument_dropped (checkAssertionArg : ArgChecker) (bodyBad : Bool) :
    (mapArguments checkAssertionArg taskContext "p" (sampleRange 400) [formalA] [] namedArgsAX
        false emptyState).map
        (fun m => (m.findArgument formalA, m.bad, instanceIsBad m bodyBad, m.state.codes)) =
      some (none, true, true, []) := by
  have h := mapFormal_named_with_expr checkAssertionArg taskContext "p" (sampleRange 400) 1 []
    false formalA
    { orderedIndex := 0, namedArgs := namedArgsAX, bad := false, argumentMap := [],
      actualArgs := [], outputLocalVarArgLoc := { buffer := 0, offset := 0 },
      state := emptyState }
    { name := "a", nameLocation := sampleLoc 401, expr := some actualX,
      range := { start := sampleLoc 400, stop := sampleLoc 407 } } false actualX rfl
    (by decide) rfl
  simp only [mapArguments, mapFormals, List.length_singleton, h]
  rfl

/-- Claim C5: constant evaluation of a min:typ:max expression built by `fromSyntax`
returns the value of the min operand when the option `minTypMax` is `Min`, of the typ
operand when it is `Typ` and of the max operand when it is `Max`, the chosen operand
being bound without the `UnevaluatedBranch` flag; `fromSyntax` returns that expression,
wrapped as invalid when an operand is. So `1:2:3` evaluates to 1, 2 and 3. -/
theorem minTypMax_evalImpl_selects {S E T Ctx V : Type}
    (create : S → BindContext → bitmask BindFlags → Option T → E) (typeOf : E → T)
    (bad : E → Bool) (eval : E → Ctx → V) (options : CompilationOptions)
    (syn : MinTypMaxExpressionSyntax S) (context : BindContext) (assignmentTarget : Option T)
    (evalContext : Ctx) :
    (MinTypMaxExpression.evalImpl eval
        (MinTypMaxExpression.build create typeOf options syn context assignmentTarget)
        evalContext =
      match options.minTypMax with
      | MinTypMax.Min =>
        eval (MinTypMaxExpression.build create typeOf options syn context assignmentTarget).min_
          evalContext
      | MinTypMax.Typ =>
        eval (MinTypMaxExpression.build create typeOf options syn context assignmentTarget).typ_
          evalContext
      | MinTypMax.Max =>
        eval (MinTypMaxExpression.build create typeOf options syn context assignmentTarget).max_
          evalContext) ∧
    (MinTypMaxExpression.evalImpl eval
        (MinTypMaxExpression.build create typeOf options syn context assignmentTarget)
        evalContext =
      match options.minTypMax with
      | MinTypMax.Min => eval (create syn.min context [] assignmentTarget) evalContext
      | MinTypMax.Typ => eval (create syn.typ context [] assignmentTarget) evalContext
      | MinTypMax.Max => eval (create syn.max context [] assignmentTarget) evalContext) ∧
    (MinTypMaxExpression.fromSyntax create typeOf bad options syn context assignmentTarget =
        Bound.ok (MinTypMaxExpression.build create typeOf options syn context assignmentTarget) ∨
      MinTypMaxExpression.fromSyntax create typeOf bad options syn context assignmentTarget =
        Bound.invalid
          (some (MinTypMaxExpression.build create typeOf options syn context assignmentTarget))) ∧
    (MinTypMaxExpression.evalImpl literalEval
        (MinTypMaxExpression.build literalCreate (fun _ => SymbolKind.PredefinedIntegerType)
          { minTypMax := MinTypMax.Min } oneTwoThree taskContext none) () =
      ConstantValue.integer { width := 32, isSigned := true, bits := 1 }) ∧
    (MinTypMaxExpression.evalImpl literalEval
        (MinTypMaxExpression.build literalCreate (fun _ => SymbolKind.PredefinedIntegerType)
          { minTypMax := MinTypMax.Typ } oneTwoThree taskContext none) () =
      ConstantValue.integer { width := 32, isSigned := true, bits := 2 }) ∧
    (MinTypMaxExpression.evalImpl literalEval
        (MinTypMaxExpression.build literalCreate (fun _ => SymbolKind.PredefinedIntegerType)
          { minTypMax := MinTypMax.Max } oneTwoThree taskContext none) () =
      ConstantValue.integer { width := 32, isSigned := true, bits := 3 }) := by
  refine ⟨?_, ?_, ?_, ?_, ?_, ?_⟩
  · unfold MinTypMaxExpression.evalImpl MinTypMaxExpression.selected MinTypMaxExpression.build
    cases options.minTypMax <;> rfl
  · unfold MinTypMaxExpression.evalImpl MinTypMaxExpression.selected MinTypMaxExpression.build
    cases options.minTypMax <;> rfl
  · unfold MinTypMaxExpression.fromSyntax
    simp only []
    split
    · exact Or.inr rfl
    · exact Or.inl rfl
  · simp [MinTypMaxExpression.evalImpl, MinTypMaxExpression.selected, MinTypMaxExpression.build,
      literalEval, literalCreate, oneTwoThree, SVInt.create]
  · simp [MinTypMaxExpression.evalImpl, MinTypMaxExpression.selected, MinTypMaxExpression.build,
      literalEval, literalCreate, oneTwoThree, SVInt.create]
  · simp [MinTypMaxExpression.evalImpl, MinTypMaxExpression.selected, MinTypMaxExpression.build,
      literalEval, literalCreate, oneTwoThree, SVInt.create]

/-! ## Claims on non-blocking assignments to automatic variables -/

/-- Claim C11: for a variable with automatic lifetime that is not a class property and
assignment flags that contain `NonBlocking`, `checkVariableAssignment` returns false:
it reports `NonblockingAssignmentToAuto`, unless the variable is flagged `Const` and
the const rule rejects it first with `AssignmentToConstVar`. For a class property,
adding the `NonBlocking` flag to the assignment flags leaves the outcome as it is. -/
theorem checkVariableAssignment_nonblocking_auto (context : BindContext) (var : Symbol)
    (flags : bitmask AssignFlags) (assignLoc : SourceLocation) (varRange : SourceRange)
    (s : BindState) :
    (var.lifetime = VariableLifetime.Automatic → var.kind ≠ SymbolKind.ClassProperty →
        flags.has AssignFlags.NonBlocking = true →
        (∀ (r : Bool) (s1 : BindState),
          checkVariableAssignment context var flags assignLoc varRange s = some (r, s1) →
            r = false) ∧
        (var.location.valid = true → varRange.start.valid = true →
          varRange.stop.valid = true → var.flags.has VariableFlags.Const = false →
          checkVariableAssignment context var flags assignLoc varRange s =
            some (false, s.addDiag
              (declarationDiag var assignLoc varRange DiagCode.NonblockingAssignmentToAuto))) ∧
        (var.location.valid = true → varRange.start.valid = true →
          varRange.stop.valid = true → var.flags.has VariableFlags.Const = true →
          ∀ parent : ScopeSymbol, constructorParent context.scope = some parent →
          checkVariableAssignment context var flags assignLoc varRange s =
            some (false, s.addDiag
              (declarationDiag var assignLoc varRange
                (if var.hasInitializer || parent.kind != SymbolKind.Subroutine ||
                    !parent.methodFlags.has MethodFlags.Constructor then
                  DiagCode.AssignmentToConstVar
                else DiagCode.NonblockingAssignmentToAuto))))) ∧
      (var.kind = SymbolKind.ClassProperty →
        checkVariableAssignment context var (AssignFlags.NonBlocking :: flags) assignLoc varRange
            s =
          checkVariableAssignment context var flags assignLoc varRange s) := by
  constructor
  · intro hauto hkind hnb
    have hcond : (flags.has AssignFlags.NonBlocking && var.lifetime == VariableLifetime.Automatic &&
        var.kind != SymbolKind.ClassProperty) = true := by
      simp [hnb, hauto, hkind]
    have hrest : checkVariableAssignmentRest var flags assignLoc varRange s =
        reportErr var assignLoc varRange DiagCode.NonblockingAssignmentToAuto s := by
      unfold checkVariableAssignmentRest
      rw [if_pos hcond]
    refine ⟨?_, ?_, ?_⟩
    · intro r s1 h
      unfold checkVariableAssignment at h
      rw [hrest] at h
      split at h
      · split at h
        · exact absurd h (by simp)
        · split at h
          · exact (reportErr_some _ _ _ _ _ _ _ h).1
          · exact (reportErr_some _ _ _ _ _ _ _ h).1
      · exact (reportErr_some _ _ _ _ _ _ _ h).1
    · intro hl h1 h2 hc
      unfold checkVariableAssignment
      have hc2 : ¬ var.flags.has VariableFlags.Const = true := by simp [hc]
      rw [if_neg hc2, hrest, reportErr_eq _ _ _ _ _ hl h1 h2]
    · intro hl h1 h2 hc parent hp
      unfold checkVariableAssignment
      rw [if_pos hc, hp]
      simp only []
      split
      · rw [reportErr_eq _ _ _ _ _ hl h1 h2]
      · rw [hrest, reportErr_eq _ _ _ _ _ hl h1 h2]
  · intro hk
    have hio : bitmask.has (AssignFlags.NonBlocking :: flags) AssignFlags.InOutPort =
        bitmask.has flags AssignFlags.InOutPort := by
      simp [bitmask.has]
    have hrest : checkVariableAssignmentRest var (AssignFlags.NonBlocking :: flags) assignLoc
        varRange s = checkVariableAssignmentRest var flags assignLoc varRange s := by
      unfold checkVariableAssignmentRest checkInOutPort
      simp [hk, hio]
    unfold checkVariableAssignment
    rw [hrest]

/-- Claim C11 on a non-blocking assignment to the automatic variable `t` in a task, and
on a non-blocking assignment to the class property `q`, which is accepted as the
blocking one is. -/
theorem checkVariableAssignment_nonblocking_auto_witness :
    checkVariableAssignment taskContext automaticVar [AssignFlags.NonBlocking] (sampleLoc 210)
        (sampleRange 200) emptyState =
      some (false, emptyState.addDiag
        (declarationDiag automaticVar (sampleLoc 210) (sampleRange 200)
          DiagCode.NonblockingAssignmentToAuto)) ∧
    checkVariableAssignment taskContext plainProperty [AssignFlags.NonBlocking] (sampleLoc 210)
        (sampleRange 200) emptyState =
      checkVariableAssignment taskContext plainProperty [] (sampleLoc 210) (sampleRange 200)
        emptyState ∧
    (checkVariableAssignment taskContext plainProperty [AssignFlags.NonBlocking] (sampleLoc 210)
        (sampleRange 200) emptyState).map (fun p => (p.1, p.2.codes)) = some (true, []) :=
  ⟨((checkVariableAssignment_nonblocking_auto taskContext automaticVar [AssignFlags.NonBlocking]
      (sampleLoc 210) (sampleRange 200) emptyState).1 rfl (by decide) (by decide)).2.1
      (by decide) (by decide) (by decide) (by decide),
   (checkVariableAssignment_nonblocking_auto taskContext plainProperty [] (sampleLoc 210)
      (sampleRange 200) emptyState).2 rfl,
   by decide⟩

/-! ## Claims on `fromSymbol` -/

theorem rejectSymbol_eq (code : DiagCode) (sourceRange : SourceRange) (symbol : Symbol)
    (named : Bool) (s : BindState) (h1 : sourceRange.start.valid = true)
    (h2 : sourceRange.stop.valid = true) :
    rejectSymbol code sourceRange symbol named s =
      some (true, s.addDiag
        (rangeDiagWith code sourceRange (if named then [symbol.name] else []))) := by
  cases named <;>
    simp [rejectSymbol, rangeDiag_eq _ _ h1 h2, rangeDiagWith, Diagnostic.addArg,
      Diagnostic.code, Diagnostic.location, Diagnostic.symbol, Diagnostic.args,
      Diagnostic.ranges, Diagnostic.notes]

theorem rejectSymbol_some (code : DiagCode) (sourceRange : SourceRange) (symbol : Symbol)
    (named : Bool) (s : BindState) (r : Bool) (s1 : BindState)
    (h : rejectSymbol code sourceRange symbol named s = some (r, s1)) : r = true := by
  unfold rejectSymbol at h
  cases hd : rangeDiag code sourceRange with
  | none => rw [hd] at h; exact absurd h (by simp)
  | some d =>
    rw [hd] at h
    simp only [Option.map_some', Option.some.injEq, Prod.mk.injEq] at h
    exact h.1.symm

theorem fromSymbol_of_rejected (g : SymbolGraph) (context : BindContext) (symbol : Symbol)
    (isHierarchical : Bool) (sourceRange : SourceRange) (constraintAllowed : Bool)
    (s : BindState) (code : DiagCode) (named : Bool)
    (hr : fromSymbolRestrictions g context symbol sourceRange s =
      rejectSymbol code sourceRange symbol named s) :
    (∀ (r : Bound Expression) (s1 : BindState),
        ValueExpressionBase.fromSymbol g context symbol isHierarchical sourceRange
            constraintAllowed s = some (r, s1) → r = Bound.invalid none) ∧
      (sourceRange.start.valid = true → sourceRange.stop.valid = true →
        ValueExpressionBase.fromSymbol g context symbol isHierarchical sourceRange
            constraintAllowed s =
          some (Bound.invalid none, s.addDiag
            (rangeDiagWith code sourceRange (if named then [symbol.name] else [])))) := by
  constructor
  · intro r s1 h
    unfold ValueExpressionBase.fromSymbol at h
    rw [hr] at h
    cases hrej : rejectSymbol code sourceRange symbol named s with
    | none => rw [hrej] at h; exact absurd h (by simp)
    | some p =>
      obtain ⟨b, s2⟩ := p
      have hb := rejectSymbol_some _ _ _ _ _ _ _ hrej
      subst hb
      rw [hrej] at h
      simp only [Option.some.injEq, Prod.mk.injEq] at h
      exact h.1.symm
  · intro h1 h2
    unfold ValueExpressionBase.fromSymbol
    rw [hr, rejectSymbol_eq _ _ _ _ _ h1 h2]

/-- Claim C19, amended: for a variable symbol with automatic lifetime that is not a class
property, `fromSymbol` in a context with the `NonProcedural` or the `StaticInitializer`
flag returns an invalid expression, reporting `AutoFromNonProcedural` when
`NonProcedural` is set and otherwise `AutoFromStaticInit`. For a class property the two
flags are not looked at: the outcome is that of `Lookup::ensureAccessible`, and an
accessible property is bound like any other value. -/
theorem fromSymbol_automatic_variable (g : SymbolGraph) (context : BindContext)
    (symbol : Symbol) (isHierarchical : Bool) (sourceRange : SourceRange)
    (constraintAllowed : Bool) (s : BindState)
    (hkind : VariableSymbol.isKind symbol.kind = true)
    (hauto : symbol.lifetime = VariableLifetime.Automatic)
    (hflag : context.flags.has BindFlags.NonProcedural = true ∨
      context.flags.has BindFlags.StaticInitializer = true) :
    (symbol.kind ≠ SymbolKind.ClassProperty →
        (∀ (r : Bound Expression) (s1 : BindState),
          ValueExpressionBase.fromSymbol g context symbol isHierarchical sourceRange
              constraintAllowed s = some (r, s1) → r = Bound.invalid none) ∧
        (sourceRange.start.valid = true → sourceRange.stop.valid = true →
          ValueExpressionBase.fromSymbol g context symbol isHierarchical sourceRange
              constraintAllowed s =
            some (Bound.invalid none, s.addDiag
              (rangeDiagWith
                (if context.flags.has BindFlags.NonProcedural then DiagCode.AutoFromNonProcedural
                 else DiagCode.AutoFromStaticInit)
                sourceRange [symbol.name])))) ∧
      (symbol.kind = SymbolKind.ClassProperty →
        ValueExpressionBase.fromSymbol g context symbol isHierarchical sourceRange
            constraintAllowed s =
          if (g.ensureAccessible symbol context sourceRange s).1 then
            fromSymbolExpression context symbol isHierarchical sourceRange constraintAllowed
              (g.ensureAccessible symbol context sourceRange s).2
          else some (Bound.invalid none, (g.ensureAccessible symbol context sourceRange s).2)) := by
  constructor
  · intro hcp
    have hcp2 : (symbol.kind == SymbolKind.ClassProperty) = false := by simpa using hcp
    by_cases hnp : context.flags.has BindFlags.NonProcedural = true
    · have hr : fromSymbolRestrictions g context symbol sourceRange s =
          rejectSymbol DiagCode.AutoFromNonProcedural sourceRange symbol true s := by
        unfold fromSymbolRestrictions
        simp [hkind, hauto, hcp2, hnp]
      have := fromSymbol_of_rejected g context symbol isHierarchical sourceRange
        constraintAllowed s _ _ hr
      simpa [hnp] using this
    · have hsi : context.flags.has BindFlags.StaticInitializer = true := by
        rcases hflag with h | h
        · exact absurd h hnp
        · exact h
      have hr : fromSymbolRestrictions g context symbol sourceRange s =
          rejectSymbol DiagCode.AutoFromStaticInit sourceRange symbol true s := by
        unfold fromSymbolRestrictions
        simp [hkind, hauto, hcp2, hnp, hsi]
      have := fromSymbol_of_rejected g context symbol isHierarchical sourceRange
        constraintAllowed s _ _ hr
      simpa [hnp] using this
  · intro hcp
    unfold ValueExpressionBase.fromSymbol fromSymbolRestrictions
    simp only [hkind, hauto, hcp, beq_self_eq_true, Bool.and_self, if_true]
    cases hacc : (g.ensureAccessible symbol context sourceRange s).1 <;>
      simp [hacc, VariableSymbol.isKind]

/-- The amended claim C19 on the automatic variable `t` referenced outside procedures
and in the initializer of a static variable. -/
theorem fromSymbol_automatic_variable_witness :
    ValueExpressionBase.fromSymbol sampleGraph nonProceduralContext automaticVar false
        (sampleRange 200) false emptyState =
      some (Bound.invalid none, emptyState.addDiag
        (rangeDiagWith DiagCode.AutoFromNonProcedural (sampleRange 200) ["t"])) ∧
    ValueExpressionBase.fromSymbol sampleGraph staticInitContext automaticVar false
        (sampleRange 200) false emptyState =
      some (Bound.invalid none, emptyState.addDiag
        (rangeDiagWith DiagCode.AutoFromStaticInit (sampleRange 200) ["t"])) :=
  ⟨((fromSymbol_automatic_variable sampleGraph nonProceduralContext automaticVar false
      (sampleRange 200) false emptyState (by decide) rfl (Or.inl (by decide))).1
      (by decide)).2 (by decide) (by decide),
   ((fromSymbol_automatic_variable sampleGraph staticInitContext automaticVar false
      (sampleRange 200) false emptyState (by decide) rfl (Or.inr (by decide))).1
      (by decide)).2 (by decide) (by decide)⟩

/-- Claim C19 fails as stated: the class property `q` has automatic lifetime, yet its
reference in a `NonProcedural` context, where the access is allowed, is bound to a valid
named value expression and no diagnostic is issued. -/
theorem fromSymbol_class_property_nonProcedural :
    (ValueExpressionBase.fromSymbol sampleGraph nonProceduralContext plainProperty false
        (sampleRange 200) false emptyState).map (fun p => (p.1, p.2.codes)) =
      some (Bound.ok (Expression.NamedValue plainProperty (sampleRange 200)), []) := by
  decide

/-- Claim C20: for a local assertion variable, which its constructor gives automatic
lifetime, and a context with the `EventExpression` flag, `fromSymbol` returns an invalid
expression; the diagnostic is `LocalVarEventExpr` unless one of the rules for automatic
variables (`NonProcedural`, `StaticInitializer`, `NonBlockingTimingControl`) fires
first. -/
theorem fromSymbol_localVar_eventExpression (g : SymbolGraph) (context : BindContext)
    (name : String) (loc : SourceLocation) (typeKind : SymbolKind) (isHierarchical : Bool)
    (sourceRange : SourceRange) (constraintAllowed : Bool) (s : BindState)
    (hev : context.flags.has BindFlags.EventExpression = true) :
    (LocalAssertionVarSymbol.create name loc typeKind).lifetime = VariableLifetime.Automatic ∧
      (∀ (r : Bound Expression) (s1 : BindState),
        ValueExpressionBase.fromSymbol g context (LocalAssertionVarSymbol.create name loc typeKind)
            isHierarchical sourceRange constraintAllowed s = some (r, s1) →
          r = Bound.invalid none) ∧
      (sourceRange.start.valid = true → sourceRange.stop.valid = true →
        ValueExpressionBase.fromSymbol g context (LocalAssertionVarSymbol.create name loc typeKind)
            isHierarchical sourceRange constraintAllowed s =
          some (Bound.invalid none, s.addDiag
            (rangeDiagWith
              (if context.flags.has BindFlags.NonProcedural then DiagCode.AutoFromNonProcedural
               else if context.flags.has BindFlags.StaticInitializer then
                 DiagCode.AutoFromStaticInit
               else if context.flags.has BindFlags.NonBlockingTimingControl then
                 DiagCode.AutoFromNonBlockingTiming
               else DiagCode.LocalVarEventExpr)
              sourceRange [name]))) := by
  refine ⟨rfl, ?_⟩
  have hr : fromSymbolRestrictions g context (LocalAssertionVarSymbol.create name loc typeKind)
      sourceRange s =
      rejectSymbol
        (if context.flags.has BindFlags.NonProcedural then DiagCode.AutoFromNonProcedural
         else if context.flags.has BindFlags.StaticInitializer then DiagCode.AutoFromStaticInit
         else if context.flags.has BindFlags.NonBlockingTimingControl then
           DiagCode.AutoFromNonBlockingTiming
         else DiagCode.LocalVarEventExpr)
        sourceRange (LocalAssertionVarSymbol.create name loc typeKind) true s := by
    have hcs : bitmask.has ([] : bitmask VariableFlags) VariableFlags.CoverageSampleFormal =
        false := rfl
    unfold fromSymbolRestrictions
    by_cases h1 : context.flags.has BindFlags.NonProcedural = true <;>
      by_cases h2 : context.flags.has BindFlags.StaticInitializer = true <;>
      by_cases h3 : context.flags.has BindFlags.NonBlockingTimingControl = true <;>
      simp [LocalAssertionVarSymbol.create, VariableSymbol.isKind, h1, h2, h3, hev, hcs]
  have := fromSymbol_of_rejected g context (LocalAssertionVarSymbol.create name loc typeKind)
    isHierarchical sourceRange constraintAllowed s _ _ hr
  simpa [LocalAssertionVarSymbol.create] using this

/-- Claim C20 on the local variable `lv` of a sequence referenced in an event
expression. -/
theorem fromSymbol_localVar_eventExpression_witness :
    (LocalAssertionVarSymbol.create "lv" (sampleLoc 150)
        SymbolKind.PredefinedIntegerType).lifetime = VariableLifetime.Automatic ∧
    ValueExpressionBase.fromSymbol sampleGraph eventContext
        (LocalAssertionVarSymbol.create "lv" (sampleLoc 150) SymbolKind.PredefinedIntegerType)
        false (sampleRange 200) false emptyState =
      some (Bound.invalid none, emptyState.addDiag
        (rangeDiagWith DiagCode.LocalVarEventExpr (sampleRange 200) ["lv"])) :=
  ⟨(fromSymbol_localVar_eventExpression sampleGraph eventContext "lv" (sampleLoc 150)
      SymbolKind.PredefinedIntegerType false (sampleRange 200) false emptyState (by decide)).1,
   (fromSymbol_localVar_eventExpression sampleGraph eventContext "lv" (sampleLoc 150)
      SymbolKind.PredefinedIntegerType false (sampleRange 200) false emptyState
      (by decide)).2.2 (by decide) (by decide)⟩

/-! ## Claims on hierarchical names in constant expressions -/

theorem hierarchicalName_eq (self : ValueExpressionBase) (context : EvalContext)
    (h1 : self.sourceRange.start.valid = true) (h2 : self.sourceRange.stop.valid = true) :
    hierarchicalName self context =
      some (ConstantValue.null, context.addDiag
        (rangeDiagWith DiagCode.ConstEvalHierarchicalName self.sourceRange
          [self.symbol.name])) := by
  simp [hierarchicalName, rangeDiag_eq _ _ h1 h2, rangeDiagWith, Diagnostic.addArg,
    Diagnostic.code, Diagnostic.location, Diagnostic.symbol, Diagnostic.args,
    Diagnostic.ranges, Diagnostic.notes]

theorem hierarchicalName_some (self : ValueExpressionBase) (context : EvalContext)
    (v : ConstantValue) (c1 : EvalContext) (h : hierarchicalName self context = some (v, c1)) :
    v = ConstantValue.null ∧ c1.codes = context.codes ++ [DiagCode.ConstEvalHierarchicalName] := by
  unfold hierarchicalName at h
  cases hd : rangeDiag DiagCode.ConstEvalHierarchicalName self.sourceRange with
  | none => rw [hd] at h; exact absurd h (by simp)
  | some d =>
    rw [hd] at h
    simp only [Option.map_some', Option.some.injEq, Prod.mk.injEq] at h
    obtain ⟨hv, hc⟩ := h
    subst hv hc
    refine ⟨rfl, ?_⟩
    simp only [rangeDiag, Diagnostic.addRange] at hd
    split at hd
    · simp only [Option.some.injEq] at hd
      subst hd
      simp [EvalContext.codes, EvalContext.addDiag, Diagnostic.code, Diagnostic.addArg,
        Diagnostic.create]
    · exact absurd hd (by simp)

theorem checkConstantBase_pass (self : ValueExpressionBase) (context : EvalContext)
    (hclass : self.symbol.typeKind ≠ SymbolKind.ClassType)
    (hcover : self.symbol.typeKind ≠ SymbolKind.CovergroupType)
    (hspec : ¬ (self.symbol.kind = SymbolKind.Specparam ∧
      context.flags.has EvalFlags.SpecparamsAllowed = false)) :
    checkConstantBase self context = some (true, context) := by
  unfold checkConstantBase
  have h1 : (self.symbol.typeKind == SymbolKind.ClassType) = false := by simpa using hclass
  have h2 : (self.symbol.typeKind == SymbolKind.CovergroupType) = false := by simpa using hcover
  have h3 : (self.symbol.kind == SymbolKind.Specparam &&
      !context.flags.has EvalFlags.SpecparamsAllowed) = false := by
    by_cases hk : self.symbol.kind = SymbolKind.Specparam
    · have : context.flags.has EvalFlags.SpecparamsAllowed = true := by
        by_contra hcon
        exact hspec ⟨hk, by simpa using hcon⟩
      simp [this]
    · simp [hk]
  simp [h1, h2, h3]

theorem checkConstantBase_true (self : ValueExpressionBase) (context c1 : EvalContext)
    (h : checkConstantBase self context = some (true, c1)) :
    c1 = context ∧ self.symbol.typeKind ≠ SymbolKind.ClassType ∧
      self.symbol.typeKind ≠ SymbolKind.CovergroupType ∧
      ¬ (self.symbol.kind = SymbolKind.Specparam ∧
        context.flags.has EvalFlags.SpecparamsAllowed = false) := by
  have nope : ∀ (o : Option BindDiag),
      o.map (fun d => (false, context.addDiag d)) ≠ some (true, c1) := by
    intro o ho
    cases o with
    | none => simp at ho
    | some d => simp at ho
  unfold checkConstantBase at h
  split at h
  · exact absurd h (nope _)
  · rename_i h1
    split at h
    · exact absurd h (nope _)
    · rename_i h2
      split at h
      · exact absurd h (nope _)
      · rename_i h3
        simp only [Option.some.injEq, Prod.mk.injEq, true_and] at h
        refine ⟨h.symm, by simpa using h1, by simpa using h2, ?_⟩
        rintro ⟨hk, hf⟩
        apply h3
        simp [hk, hf]

/-- Claim C12: when the option `allowHierarchicalConst` is false,
`HierarchicalValueExpression::evalImpl` returns the null constant and reports
`ConstEvalHierarchicalName`, whatever the kind and the type of the referenced symbol. -/
theorem hierarchical_evalImpl_disallowed (g : SymbolGraph) (self : ValueExpressionBase)
    (context : EvalContext) (hopt : context.options.allowHierarchicalConst = false) :
    (∀ (v : ConstantValue) (c1 : EvalContext),
        HierarchicalValueExpression.evalImpl g self context = some (v, c1) →
          v = ConstantValue.null ∧
            c1.codes = context.codes ++ [DiagCode.ConstEvalHierarchicalName]) ∧
      (self.sourceRange.start.valid = true → self.sourceRange.stop.valid = true →
        HierarchicalValueExpression.evalImpl g self context =
          some (ConstantValue.null, context.addDiag
            (rangeDiagWith DiagCode.ConstEvalHierarchicalName self.sourceRange
              [self.symbol.name]))) := by
  have hform : HierarchicalValueExpression.evalImpl g self context =
      hierarchicalName self context := by
    unfold HierarchicalValueExpression.evalImpl
    simp [hopt]
  constructor
  · intro v c1 h
    rw [hform] at h
    exact hierarchicalName_some self context v c1 h
  · intro h1 h2
    rw [hform, hierarchicalName_eq self context h1 h2]

/-- Claim C12 on a hierarchical reference to a parameter and to a variable of class
type, with the option at its default. -/
theorem hierarchical_evalImpl_disallowed_witness :
    HierarchicalValueExpression.evalImpl sampleGraph
        { isHierarchical := true,
          symbol := sampleValue SymbolKind.Parameter SymbolKind.PredefinedIntegerType,
          sourceRange := sampleRange 200 } (topLevelEval false) =
      some (ConstantValue.null, (topLevelEval false).addDiag
        (rangeDiagWith DiagCode.ConstEvalHierarchicalName (sampleRange 200) ["P"])) ∧
    HierarchicalValueExpression.evalImpl sampleGraph
        { isHierarchical := true,
          symbol := sampleValue SymbolKind.Variable SymbolKind.ClassType,
          sourceRange := sampleRange 200 } (topLevelEval false) =
      some (ConstantValue.null, (topLevelEval false).addDiag
        (rangeDiagWith DiagCode.ConstEvalHierarchicalName (sampleRange 200) ["P"])) :=
  ⟨(hierarchical_evalImpl_disallowed sampleGraph
      { isHierarchical := true,
        symbol := sampleValue SymbolKind.Parameter SymbolKind.PredefinedIntegerType,
        sourceRange := sampleRange 200 } (topLevelEval false) rfl).2 (by decide) (by decide),
   (hierarchical_evalImpl_disallowed sampleGraph
      { isHierarchical := true,
        symbol := sampleValue SymbolKind.Variable SymbolKind.ClassType,
        sourceRange := sampleRange 200 } (topLevelEval false) rfl).2 (by decide) (by decide)⟩

/-- Claim C13, amended: when the option `allowHierarchicalConst` is true and the
referenced symbol is a parameter whose type is neither a class nor a covergroup and
whose value is not the unbounded marker, `HierarchicalValueExpression::evalImpl` returns
that parameter's value and reports nothing; when the symbol is not a parameter, enum
value or specparam and its type is neither a class nor a covergroup, it returns null
with `ConstEvalHierarchicalName`. A symbol whose type is a class is rejected before
that, with `ConstEvalClassType`. -/
theorem hierarchical_evalImpl_allowed (g : SymbolGraph) (self : ValueExpressionBase)
    (context : EvalContext) (hopt : context.options.allowHierarchicalConst = true) :
    (self.symbol.kind = SymbolKind.Parameter → self.symbol.typeKind ≠ SymbolKind.ClassType →
        self.symbol.typeKind ≠ SymbolKind.CovergroupType →
        (g.getValue self.symbol).isUnbounded = false →
        HierarchicalValueExpression.evalImpl g self context =
          some (g.getValue self.symbol, context)) ∧
      (self.symbol.kind ≠ SymbolKind.Parameter → self.symbol.kind ≠ SymbolKind.EnumValue →
        self.symbol.kind ≠ SymbolKind.Specparam →
        self.symbol.typeKind ≠ SymbolKind.ClassType →
        self.symbol.typeKind ≠ SymbolKind.CovergroupType →
        self.sourceRange.start.valid = true → self.sourceRange.stop.valid = true →
        HierarchicalValueExpression.evalImpl g self context =
          some (ConstantValue.null, context.addDiag
            (rangeDiagWith DiagCode.ConstEvalHierarchicalName self.sourceRange
              [self.symbol.name]))) ∧
      (self.symbol.typeKind = SymbolKind.ClassType →
        self.sourceRange.start.valid = true → self.sourceRange.stop.valid = true →
        HierarchicalValueExpression.evalImpl g self context =
          some (ConstantValue.null, context.addDiag
            (rangeDiagWith DiagCode.ConstEvalClassType self.sourceRange []))) := by
  refine ⟨?_, ?_, ?_⟩
  · intro hk hclass hcover hunb
    have hbase := checkConstantBase_pass self context hclass hcover (by simp [hk])
    unfold HierarchicalValueExpression.evalImpl
    simp only [hopt, Bool.not_true, Bool.false_eq_true, if_false, hbase]
    simp [hk, parameterValue, hunb]
  · intro hk1 hk2 hk3 hclass hcover h1 h2
    have hbase := checkConstantBase_pass self context hclass hcover (by simp [hk3])
    unfold HierarchicalValueExpression.evalImpl
    simp only [hopt, Bool.not_true, Bool.false_eq_true, if_false, hbase]
    simp [hk1, hk2, hk3, hierarchicalName_eq self context h1 h2]
  · intro hclass h1 h2
    unfold HierarchicalValueExpression.evalImpl checkConstantBase
    simp [hopt, hclass, rangeDiag_eq _ _ h1 h2]

/-- The amended claim C13 on a hierarchical reference to the parameter `P` of value 5 and
to a variable of integral type, with the option set. -/
theorem hierarchical_evalImpl_allowed_witness :
    HierarchicalValueExpression.evalImpl sampleGraph
        { isHierarchical := true,
          symbol := sampleValue SymbolKind.Parameter SymbolKind.PredefinedIntegerType,
          sourceRange := sampleRange 200 } (topLevelEval true) =
      some (ConstantValue.integer (SVInt.create 32 5 true), topLevelEval true) ∧
    HierarchicalValueExpression.evalImpl sampleGraph
        { isHierarchical := true,
          symbol := sampleValue SymbolKind.Variable SymbolKind.PredefinedIntegerType,
          sourceRange := sampleRange 200 } (topLevelEval true) =
      some (ConstantValue.null, (topLevelEval true).addDiag
        (rangeDiagWith DiagCode.ConstEvalHierarchicalName (sampleRange 200) ["P"])) :=
  ⟨(hierarchical_evalImpl_allowed sampleGraph
      { isHierarchical := true,
        symbol := sampleValue SymbolKind.Parameter SymbolKind.PredefinedIntegerType,
        sourceRange := sampleRange 200 } (topLevelEval true) rfl).1 rfl (by decide) (by decide)
      rfl,
   (hierarchical_evalImpl_allowed sampleGraph
      { isHierarchical := true,
        symbol := sampleValue SymbolKind.Variable SymbolKind.PredefinedIntegerType,
        sourceRange := sampleRange 200 } (topLevelEval true) rfl).2.1 (by decide) (by decide)
      (by decide) (by decide) (by decide) (by decide) (by decide)⟩

/-- Claim C13 fails as stated: with the option set, a hierarchical reference to a
variable of class type, which is not a parameter, enum value or specparam, returns null
with `ConstEvalClassType`; `ConstEvalHierarchicalName` is not reported. -/
theorem hierarchical_evalImpl_class_variable :
    (HierarchicalValueExpression.evalImpl sampleGraph
        { isHierarchical := true,
          symbol := sampleValue SymbolKind.Variable SymbolKind.ClassType,
          sourceRange := sampleRange 200 } (topLevelEval true)).map
        (fun p => (p.1.bad, p.2.codes)) = some (true, [DiagCode.ConstEvalClassType]) ∧
      DiagCode.ConstEvalHierarchicalName ∉ [DiagCode.ConstEvalClassType] := by
  decide

/-! ## Claims on references inside constant functions -/

theorem walkToSubroutine_some (subroutine : Scope) :
    ∀ (scope x : Scope), walkToSubroutine subroutine scope = some x → x = subroutine := by
  intro scope
  induction scope with
  | top sym =>
    intro x h
    unfold walkToSubroutine at h
    split at h
    · rename_i he
      simp only [Option.some.injEq] at h
      rw [← h, he]
    · exact absurd h (by simp)
  | nested sym parent ih =>
    intro x h
    unfold walkToSubroutine at h
    split at h
    · rename_i he
      simp only [Option.some.injEq] at h
      rw [← h, he]
    · exact ih x h

theorem walkToSubroutine_iff (subroutine : Scope) :
    ∀ scope : Scope,
      walkToSubroutine subroutine scope = some subroutine ↔ subroutine ∈ scope.enclosing := by
  intro scope
  induction scope with
  | top sym =>
    unfold walkToSubroutine Scope.enclosing
    by_cases he : Scope.top sym = subroutine
    · simp [he]
    · have he2 : ¬ subroutine = Scope.top sym := fun h => he h.symm
      simp [he, he2]
  | nested sym parent ih =>
    unfold walkToSubroutine Scope.enclosing
    by_cases he : Scope.nested sym parent = subroutine
    · simp [he]
    · have he2 : ¬ subroutine = Scope.nested sym parent := fun h => he h.symm
      simp [he, he2, ih]

theorem rejectInFunction_eq (code : DiagCode) (self : ValueExpressionBase) (named : Bool)
    (context : EvalContext) (hl : self.symbol.location.valid = true)
    (h1 : self.sourceRange.start.valid = true) (h2 : self.sourceRange.stop.valid = true) :
    rejectInFunction code self named context =
      some (false, context.addDiag
        (constantFunctionDiag code self (if named then [self.symbol.name] else []))) := by
  cases named <;>
    simp [rejectInFunction, rangeDiag_eq _ _ h1 h2, rangeDiagWith, constantFunctionDiag,
      Diagnostic.addArg, Diagnostic.addNote, Diagnostic.create, hl, Diagnostic.code,
      Diagnostic.location, Diagnostic.symbol, Diagnostic.args, Diagnostic.ranges,
      Diagnostic.notes]

theorem rejectInFunction_some (code : DiagCode) (self : ValueExpressionBase) (named : Bool)
    (context : EvalContext) (r : Bool) (c1 : EvalContext)
    (h : rejectInFunction code self named context = some (r, c1)) : r = false := by
  unfold rejectInFunction at h
  split at h
  · exact absurd h (by simp)
  · rename_i d hd
    cases hn : ((if named then d.addArg self.symbol.name else d).addNote SourceLocation.valid
        DiagCode.NoteDeclarationHere self.symbol.location) with
    | none => rw [hn] at h; exact absurd h (by simp)
    | some d1 =>
      rw [hn] at h
      simp only [Option.map_some', Option.some.injEq, Prod.mk.injEq] at h
      exact h.1.symm

theorem checkConstant_in_function (g : SymbolGraph) (self : ValueExpressionBase)
    (context : EvalContext) (frame : Frame) (subroutine : Scope)
    (hscript : context.flags.has EvalFlags.IsScript = false)
    (hin : context.inFunction = true) (htop : context.topFrame = some frame)
    (hsub : frame.subroutine = some subroutine)
    (hbase : checkConstantBase self context = some (true, context)) :
    NamedValueExpression.checkConstant g self context =
      checkInFunction g self subroutine frame.lookupLocation context := by
  unfold NamedValueExpression.checkConstant
  simp [hscript, hbase, hin, htop, hsub]

theorem checkConstant_base_failed (g : SymbolGraph) (self : ValueExpressionBase)
    (context c1 : EvalContext) (hscript : context.flags.has EvalFlags.IsScript = false)
    (hbase : checkConstantBase self context = some (false, c1)) :
    NamedValueExpression.checkConstant g self context = some (false, c1) := by
  unfold NamedValueExpression.checkConstant
  simp [hscript, hbase]

/-- Claim C14, amended: inside a function frame that has a subroutine, with the
`IsScript` flag not set, `NamedValueExpression::checkConstant` accepts a symbol that is
neither a parameter nor an enum value if and only if the base checks pass and the
subroutine is one of the symbol's enclosing scopes, found by walking parent scopes
upward. When the base checks pass and the subroutine is not among them it reports
`ConstEvalFunctionIdentifiersMustBeLocal` and returns false; when the base checks fail
it returns false with their diagnostic alone. -/
theorem checkConstant_local_identifier (g : SymbolGraph) (self : ValueExpressionBase)
    (context : EvalContext) (frame : Frame) (subroutine : Scope)
    (hscript : context.flags.has EvalFlags.IsScript = false)
    (hin : context.inFunction = true) (htop : context.topFrame = some frame)
    (hsub : frame.subroutine = some subroutine)
    (hk1 : self.symbol.kind ≠ SymbolKind.Parameter)
    (hk2 : self.symbol.kind ≠ SymbolKind.EnumValue) :
    ((∃ c1 : EvalContext, NamedValueExpression.checkConstant g self context = some (true, c1)) ↔
        (checkConstantBase self context = some (true, context) ∧
          ∃ parent : Scope, g.getParentScope self.symbol = some parent ∧
            subroutine ∈ parent.enclosing)) ∧
      (checkConstantBase self context = some (true, context) →
        (∃ parent : Scope, g.getParentScope self.symbol = some parent ∧
          subroutine ∈ parent.enclosing) →
        NamedValueExpression.checkConstant g self context = some (true, context)) ∧
      (checkConstantBase self context = some (true, context) →
        ¬ (∃ parent : Scope, g.getParentScope self.symbol = some parent ∧
          subroutine ∈ parent.enclosing) →
        self.symbol.location.valid = true → self.sourceRange.start.valid = true →
        self.sourceRange.stop.valid = true →
        NamedValueExpression.checkConstant g self context =
          some (false, context.addDiag
            (constantFunctionDiag DiagCode.ConstEvalFunctionIdentifiersMustBeLocal self []))) ∧
      (∀ c1 : EvalContext, checkConstantBase self context = some (false, c1) →
        NamedValueExpression.checkConstant g self context = some (false, c1)) := by
  have hkinds : (self.symbol.kind != SymbolKind.Parameter &&
      self.symbol.kind != SymbolKind.EnumValue) = true := by
    simp [hk1, hk2]
  have hwalk : (∃ parent : Scope, g.getParentScope self.symbol = some parent ∧
      subroutine ∈ parent.enclosing) ↔
      (match g.getParentScope self.symbol with
        | none => none
        | some parent => walkToSubroutine subroutine parent) = some subroutine := by
    cases hp : g.getParentScope self.symbol with
    | none => simp
    | some parent => simp [walkToSubroutine_iff]
  have haccept : checkConstantBase self context = some (true, context) →
      (∃ parent : Scope, g.getParentScope self.symbol = some parent ∧
        subroutine ∈ parent.enclosing) →
      NamedValueExpression.checkConstant g self context = some (true, context) := by
    intro hbase henc
    rw [checkConstant_in_function g self context frame subroutine hscript hin htop hsub hbase]
    unfold checkInFunction
    rw [if_pos hkinds]
    simp only []
    rw [hwalk.mp henc]
    simp
  have hreject : checkConstantBase self context = some (true, context) →
      ¬ (∃ parent : Scope, g.getParentScope self.symbol = some parent ∧
        subroutine ∈ parent.enclosing) →
      NamedValueExpression.checkConstant g self context =
        rejectInFunction DiagCode.ConstEvalFunctionIdentifiersMustBeLocal self false context := by
    intro hbase henc
    rw [checkConstant_in_function g self context frame subroutine hscript hin htop hsub hbase]
    unfold checkInFunction
    rw [if_pos hkinds]
    simp only []
    have hne : ((match g.getParentScope self.symbol with
        | none => none
        | some parent => walkToSubroutine subroutine parent) != some subroutine) = true := by
      simp only [bne_iff_ne, ne_eq]
      exact fun h => henc (hwalk.mpr h)
    rw [if_pos hne]
  refine ⟨?_, haccept, ?_, ?_⟩
  · constructor
    · rintro ⟨c1, h⟩
      cases hb : checkConstantBase self context with
      | none =>
        unfold NamedValueExpression.checkConstant at h
        simp [hscript, hb] at h
      | some p =>
        obtain ⟨b, c0⟩ := p
        cases b with
        | false =>
          rw [checkConstant_base_failed g self context c0 hscript hb] at h
          simp at h
        | true =>
          have hc0 := (checkConstantBase_true self context c0 hb).1
          subst hc0
          refine ⟨rfl, ?_⟩
          by_contra henc
          rw [hreject hb henc] at h
          have := rejectInFunction_some _ _ _ _ _ _ h
          simp at this
    · rintro ⟨hbase, henc⟩
      exact ⟨context, haccept hbase henc⟩
  · intro hbase henc hl h1 h2
    rw [hreject hbase henc, rejectInFunction_eq _ _ _ _ hl h1 h2]
    simp
  · intro c1 hb
    exact checkConstant_base_failed g self context c1 hscript hb

/-- The amended claim C14 on a variable of integral type: declared in a block of the
called function `f` it is accepted; declared in the module `top` it is rejected with
`ConstEvalFunctionIdentifiersMustBeLocal`. -/
theorem checkConstant_local_identifier_witness :
    NamedValueExpression.checkConstant localGraph
        (sampleRef (sampleValue SymbolKind.Variable SymbolKind.PredefinedIntegerType))
        functionEval = some (true, functionEval) ∧
    NamedValueExpression.checkConstant sampleGraph
        (sampleRef (sampleValue SymbolKind.Variable SymbolKind.PredefinedIntegerType))
        functionEval =
      some (false, functionEval.addDiag
        (constantFunctionDiag DiagCode.ConstEvalFunctionIdentifiersMustBeLocal
          (sampleRef (sampleValue SymbolKind.Variable SymbolKind.PredefinedIntegerType)) [])) :=
  ⟨(checkConstant_local_identifier localGraph
      (sampleRef (sampleValue SymbolKind.Variable SymbolKind.PredefinedIntegerType))
      functionEval functionFrame
      (Scope.nested { kind := SymbolKind.Subroutine, name := "f", methodFlags := [] }
        (Scope.top { kind := SymbolKind.InstanceBody, name := "top", methodFlags := [] }))
      (by decide) (by decide) rfl rfl (by decide) (by decide)).2.1 rfl
      ⟨_, rfl, by decide⟩,
   (checkConstant_local_identifier sampleGraph
      (sampleRef (sampleValue SymbolKind.Variable SymbolKind.PredefinedIntegerType))
      functionEval functionFrame
      (Scope.nested { kind := SymbolKind.Subroutine, name := "f", methodFlags := [] }
        (Scope.top { kind := SymbolKind.InstanceBody, name := "top", methodFlags := [] }))
      (by decide) (by decide) rfl rfl (by decide) (by decide)).2.2.1 rfl
      (by
        rintro ⟨parent, hp, hm⟩
        have hp2 : parent =
            Scope.top { kind := SymbolKind.InstanceBody, name := "top", methodFlags := [] } :=
          (Option.some.inj hp).symm
        subst hp2
        revert hm
        decide)
      (by decide) (by decide) (by decide)⟩

/-- Claim C14 fails as stated: a variable of class type declared in a block of the called
function `f` is not accepted, and the diagnostic is `ConstEvalClassType`;
`ConstEvalFunctionIdentifiersMustBeLocal` is not reported. -/
theorem checkConstant_class_variable_in_function :
    (NamedValueExpression.checkConstant localGraph
        (sampleRef (sampleValue SymbolKind.Variable SymbolKind.ClassType)) functionEval).map
        (fun p => (p.1, p.2.codes)) = some (false, [DiagCode.ConstEvalClassType]) ∧
      DiagCode.ConstEvalFunctionIdentifiersMustBeLocal ∉ [DiagCode.ConstEvalClassType] := by
  decide

/-- Claim C15, amended: inside a constant function, for a parameter or enum value that
passes the base checks, `NamedValueExpression::checkConstant` rejects the reference
(`ConstEvalIdUsedInCEBeforeDecl`) exactly when the symbol is known to be declared after
the lookup location of the call and is not a member of a package different from the
scope of that lookup location; when the declaration order is unknown or the symbol
lives in such a package, the reference is accepted. -/
theorem checkConstant_parameter_order (g : SymbolGraph) (self : ValueExpressionBase)
    (context : EvalContext) (frame : Frame) (subroutine : Scope)
    (hscript : context.flags.has EvalFlags.IsScript = false)
    (hin : context.inFunction = true) (htop : context.topFrame = some frame)
    (hsub : frame.subroutine = some subroutine)
    (hkind : self.symbol.kind = SymbolKind.Parameter ∨ self.symbol.kind = SymbolKind.EnumValue)
    (hbase : checkConstantBase self context = some (true, context)) :
    (g.isDeclaredBefore self.symbol frame.lookupLocation = some false →
        ¬ (∃ sc : Scope, g.getParentScope self.symbol = some sc ∧
          sc.asSymbol.kind = SymbolKind.Package ∧ some sc ≠ frame.lookupLocation.scope) →
        self.symbol.location.valid = true → self.sourceRange.start.valid = true →
        self.sourceRange.stop.valid = true →
        NamedValueExpression.checkConstant g self context =
          some (false, context.addDiag
            (constantFunctionDiag DiagCode.ConstEvalIdUsedInCEBeforeDecl self
              [self.symbol.name]))) ∧
      (g.isDeclaredBefore self.symbol frame.lookupLocation ≠ some false →
        NamedValueExpression.checkConstant g self context = some (true, context)) ∧
      ((∃ sc : Scope, g.getParentScope self.symbol = some sc ∧
          sc.asSymbol.kind = SymbolKind.Package ∧ some sc ≠ frame.lookupLocation.scope) →
        NamedValueExpression.checkConstant g self context = some (true, context)) ∧
      (∀ c1 : EvalContext,
        NamedValueExpression.checkConstant g self context = some (false, c1) →
          g.isDeclaredBefore self.symbol frame.lookupLocation = some false ∧
          ¬ (∃ sc : Scope, g.getParentScope self.symbol = some sc ∧
            sc.asSymbol.kind = SymbolKind.Package ∧ some sc ≠ frame.lookupLocation.scope)) := by
  have hkinds : ¬ (self.symbol.kind != SymbolKind.Parameter &&
      self.symbol.kind != SymbolKind.EnumValue) = true := by
    rcases hkind with h | h <;> simp [h]
  have hin2 : NamedValueExpression.checkConstant g self context =
      checkInFunction g self subroutine frame.lookupLocation context :=
    checkConstant_in_function g self context frame subroutine hscript hin htop hsub hbase
  have hacc1 : g.isDeclaredBefore self.symbol frame.lookupLocation ≠ some false →
      NamedValueExpression.checkConstant g self context = some (true, context) := by
    intro hnot
    rw [hin2]
    unfold checkInFunction
    rw [if_neg hkinds]
    simp only []
    cases hc : g.isDeclaredBefore self.symbol frame.lookupLocation with
    | none => simp
    | some b =>
      cases b with
      | true => simp
      | false => exact absurd hc hnot
  have hacc2 : (∃ sc : Scope, g.getParentScope self.symbol = some sc ∧
      sc.asSymbol.kind = SymbolKind.Package ∧ some sc ≠ frame.lookupLocation.scope) →
      NamedValueExpression.checkConstant g self context = some (true, context) := by
    rintro ⟨sc, hp, hpk, hdiff⟩
    by_cases hc : g.isDeclaredBefore self.symbol frame.lookupLocation = some false
    · rw [hin2]
      unfold checkInFunction
      rw [if_neg hkinds]
      simp only []
      rw [hc, hp]
      have hne : (some sc == frame.lookupLocation.scope) = false := by
        simpa using hdiff
      simp [hpk, hne]
    · exact hacc1 hc
  have hrej : g.isDeclaredBefore self.symbol frame.lookupLocation = some false →
      ¬ (∃ sc : Scope, g.getParentScope self.symbol = some sc ∧
        sc.asSymbol.kind = SymbolKind.Package ∧ some sc ≠ frame.lookupLocation.scope) →
      NamedValueExpression.checkConstant g self context =
        rejectInFunction DiagCode.ConstEvalIdUsedInCEBeforeDecl self true context := by
    intro hc hpkg
    rw [hin2]
    unfold checkInFunction
    rw [if_neg hkinds]
    simp only []
    rw [hc]
    cases hp : g.getParentScope self.symbol with
    | none => simp
    | some sc =>
      by_cases hpk : sc.asSymbol.kind = SymbolKind.Package
      · have hsame : some sc = frame.lookupLocation.scope := by
          by_contra hdiff
          exact hpkg ⟨sc, hp, hpk, hdiff⟩
        have heq : (some sc == frame.lookupLocation.scope) = true := by
          simpa using hsame
        simp [hpk, heq]
      · simp [hpk]
  refine ⟨?_, hacc1, hacc2, ?_⟩
  · intro hafter hpkg hl h1 h2
    rw [hrej hafter hpkg, rejectInFunction_eq _ _ _ _ hl h1 h2]
    simp
  · intro c1 h
    by_cases hafter : g.isDeclaredBefore self.symbol frame.lookupLocation = some false
    · refine ⟨hafter, ?_⟩
      intro hpkg
      rw [hacc2 hpkg] at h
      simp at h
    · rw [hacc1 hafter] at h
      simp at h

/-- The amended claim C15 on the parameter `P` of integral type used in the function
`f`: declared in `top` after the call it is rejected; with unknown order, or declared in
the package `pkg`, it is accepted. -/
theorem checkConstant_parameter_order_witness :
    NamedValueExpression.checkConstant declaredAfterGraph
        (sampleRef (sampleValue SymbolKind.Parameter SymbolKind.PredefinedIntegerType))
        functionEval =
      some (false, functionEval.addDiag
        (constantFunctionDiag DiagCode.ConstEvalIdUsedInCEBeforeDecl
          (sampleRef (sampleValue SymbolKind.Parameter SymbolKind.PredefinedIntegerType))
          ["P"])) ∧
    NamedValueExpression.checkConstant sampleGraph
        (sampleRef (sampleValue SymbolKind.Parameter SymbolKind.PredefinedIntegerType))
        functionEval = some (true, functionEval) ∧
    NamedValueExpression.checkConstant packageGraph
        (sampleRef (sampleValue SymbolKind.Parameter SymbolKind.PredefinedIntegerType))
        functionEval = some (true, functionEval) :=
  ⟨(checkConstant_parameter_order declaredAfterGraph
      (sampleRef (sampleValue SymbolKind.Parameter SymbolKind.PredefinedIntegerType))
      functionEval functionFrame
      (Scope.nested { kind := SymbolKind.Subroutine, name := "f", methodFlags := [] }
        (Scope.top { kind := SymbolKind.InstanceBody, name := "top", methodFlags := [] }))
      (by decide) (by decide) rfl rfl (Or.inl rfl) rfl).1 rfl
      (by
        rintro ⟨sc, hp, hk, _⟩
        have hsc : sc =
            Scope.top { kind := SymbolKind.InstanceBody, name := "top", methodFlags := [] } :=
          (Option.some.inj hp).symm
        subst hsc
        revert hk
        decide)
      (by decide) (by decide) (by decide),
   (checkConstant_parameter_order sampleGraph
      (sampleRef (sampleValue SymbolKind.Parameter SymbolKind.PredefinedIntegerType))
      functionEval functionFrame
      (Scope.nested { kind := SymbolKind.Subroutine, name := "f", methodFlags := [] }
        (Scope.top { kind := SymbolKind.InstanceBody, name := "top", methodFlags := [] }))
      (by decide) (by decide) rfl rfl (Or.inl rfl) rfl).2.1 (by decide),
   (checkConstant_parameter_order packageGraph
      (sampleRef (sampleValue SymbolKind.Parameter SymbolKind.PredefinedIntegerType))
      functionEval functionFrame
      (Scope.nested { kind := SymbolKind.Subroutine, name := "f", methodFlags := [] }
        (Scope.top { kind := SymbolKind.InstanceBody, name := "top", methodFlags := [] }))
      (by decide) (by decide) rfl rfl (Or.inl rfl) rfl).2.2.1
      ⟨_, rfl, by decide, by decide⟩⟩

/-- Claim C15 fails as stated: a parameter of class type whose declaration order is
unknown is not accepted inside the constant function; it is rejected by the base
checks with `ConstEvalClassType`. -/
theorem checkConstant_class_parameter_in_function :
    (NamedValueExpression.checkConstant sampleGraph
        (sampleRef (sampleValue SymbolKind.Parameter SymbolKind.ClassType)) functionEval).map
        (fun p => (p.1, p.2.codes)) = some (false, [DiagCode.ConstEvalClassType]) := by
  decide

/-! ## Claims on recursive assertion instances -/

theorem checkRecursion_of_occurrence (symbol : Symbol)
    (hkind : symbol.kind = SymbolKind.Sequence ∨ symbol.kind = SymbolKind.LetDecl) :
    ∀ (inst : AssertionInstanceDetails) (isRecursive : Bool),
      symbol ∈ inst.chain.map Prod.fst →
      checkRecursion symbol inst isRecursive =
        some (RecursionCheck.rejected
          (if symbol.kind = SymbolKind.Sequence then DiagCode.RecursiveSequence
           else DiagCode.RecursiveLet)) := by
  intro inst
  induction inst with
  | null =>
    intro isRecursive h
    simp [AssertionInstanceDetails.chain] at h
  | details current currentIsRecursive argDetails hasPrevContext prevInstance iharg ihprev =>
    intro isRecursive h
    unfold checkRecursion
    by_cases hc : current = symbol
    · have hv : visitInstance symbol current currentIsRecursive isRecursive =
          RecursionStep.done (RecursionCheck.rejected
            (if symbol.kind = SymbolKind.Sequence then DiagCode.RecursiveSequence
             else DiagCode.RecursiveLet)) := by
        unfold visitInstance
        rcases hkind with hk | hk <;> simp [hc, hk]
      rw [hv]
    · have hv : visitInstance symbol current currentIsRecursive isRecursive =
          RecursionStep.next isRecursive := by
        unfold visitInstance
        rw [if_neg hc]
      rw [hv]
      simp only []
      unfold AssertionInstanceDetails.chain at h
      simp only [List.map_cons, List.mem_cons] at h
      rcases h with h | h
      · exact absurd h.symm hc
      · cases argDetails with
        | null =>
          simp only [] at h ⊢
          cases hasPrevContext with
          | false => simp at h
          | true =>
            simp only [if_true] at h ⊢
            exact ihprev isRecursive h
        | details a b c d e =>
          simp only [] at h ⊢
          exact iharg isRecursive h

/-- Claim C16 fails as stated: for a sequence `r` referenced in its own body with an
argument list that `collectArgs` rejects, `fromLookup` returns `badExpr(comp, nullptr)`
before the recursion check, and neither `RecursiveSequence` nor any other diagnostic is
issued by it. -/
theorem fromLookup_recursive_sequence_arguments_rejected :
    (AssertionInstanceExpression.fromLookup idleArgChecker idleBodyBinder idleLetBinder
        (assertionSymbol SymbolKind.Sequence) [] none (sampleRange 720) taskContext
        (insideFirstInstance SymbolKind.Sequence) emptyState).map
        (fun r =>
          ((match r.1 with
            | InstanceResult.invalid none => true
            | _ => false), r.2.codes)) = some (true, []) ∧
      assertionSymbol SymbolKind.Sequence ∈
        (insideFirstInstance SymbolKind.Sequence).chain.map Prod.fst := by
  decide

/-- Claim C16, amended: if the sequence or let declaration being instantiated already
occurs in the chain of enclosing assertion instances, `fromLookup` returns an invalid
expression, and when `collectArgs` accepts the argument list (or there is none) it
reports `RecursiveSequence` for a sequence and `RecursiveLet` for a let declaration.
The outcome is the same for every argument checker and every binder of the body, and
the state only gains that diagnostic: no argument is mapped and no body is bound. When
`collectArgs` rejects the argument list, the invalid expression is returned before the
recursion check and the state stays as `collectArgs` left it. -/
theorem fromLookup_recursive_sequence_or_let {E : Type} (checkAssertionArg : ArgChecker)
    (bindAssertionBody : BodyBinder) (createLet : LetBinder E) (symbol : Symbol)
    (formalPorts : List AssertionPortSymbol)
    (collected : Option (List ArgumentSyntax × NamedArgMap)) (range : SourceRange)
    (context : BindContext) (assertionInstance : AssertionInstanceDetails) (s : BindState)
    (hkind : symbol.kind = SymbolKind.Sequence ∨ symbol.kind = SymbolKind.LetDecl)
    (hocc : symbol ∈ assertionInstance.chain.map Prod.fst) :
    (∀ (r : InstanceResult E) (s1 : BindState),
        AssertionInstanceExpression.fromLookup checkAssertionArg bindAssertionBody createLet
            symbol formalPorts collected range context assertionInstance s = some (r, s1) →
          r = InstanceResult.invalid none) ∧
      (collected.isSome = true → range.start.valid = true → range.stop.valid = true →
        AssertionInstanceExpression.fromLookup checkAssertionArg bindAssertionBody createLet
            symbol formalPorts collected range context assertionInstance s =
          some (InstanceResult.invalid none, s.addDiag
            (rangeDiagWith
              (if symbol.kind = SymbolKind.Sequence then DiagCode.RecursiveSequence
               else DiagCode.RecursiveLet)
              range [symbol.name]))) ∧
      (collected = none →
        AssertionInstanceExpression.fromLookup checkAssertionArg bindAssertionBody createLet
            symbol formalPorts collected range context assertionInstance s =
          some (InstanceResult.invalid none, s)) := by
  have hrec := checkRecursion_of_occurrence symbol hkind assertionInstance false hocc
  have htype : ∃ typeKind, instanceTypeKind symbol.kind = some typeKind := by
    rcases hkind with hk | hk <;> rw [hk] <;> exact ⟨_, rfl⟩
  obtain ⟨typeKind, htype⟩ := htype
  refine ⟨?_, ?_, ?_⟩
  rotate_left 2
  · intro hnone
    unfold AssertionInstanceExpression.fromLookup AssertionInstanceExpression.prepare
    rw [htype, hnone]
  · intro r s1 h
    unfold AssertionInstanceExpression.fromLookup AssertionInstanceExpression.prepare at h
    rw [htype] at h
    cases collected with
    | none =>
      simp only [Option.some.injEq, Prod.mk.injEq] at h
      exact h.1.symm
    | some args =>
      obtain ⟨orderedArgs, namedArgs⟩ := args
      simp only [hrec] at h
      cases hd : rangeDiag (if symbol.kind = SymbolKind.Sequence then DiagCode.RecursiveSequence
          else DiagCode.RecursiveLet) range with
      | none => rw [hd] at h; exact absurd h (by simp)
      | some d =>
        rw [hd] at h
        simp only [Option.map_some', Option.some.injEq, Prod.mk.injEq] at h
        exact h.1.symm
  · intro hsome h1 h2
    unfold AssertionInstanceExpression.fromLookup AssertionInstanceExpression.prepare
    rw [htype]
    cases collected with
    | none => exact absurd hsome (by simp)
    | some args =>
      obtain ⟨orderedArgs, namedArgs⟩ := args
      simp [hrec, rangeDiag_eq _ _ h1 h2, rangeDiagWith, Diagnostic.addArg, Diagnostic.code,
        Diagnostic.location, Diagnostic.symbol, Diagnostic.args, Diagnostic.ranges,
        Diagnostic.notes]

/-- Claim C16 on a sequence `r` and on a let declaration `r` referenced in their own
bodies. -/
theorem fromLookup_recursive_sequence_or_let_witness :
    AssertionInstanceExpression.fromLookup idleArgChecker idleBodyBinder idleLetBinder
        (assertionSymbol SymbolKind.Sequence) [] (some ([], [])) (sampleRange 720) taskContext
        (insideFirstInstance SymbolKind.Sequence) emptyState =
      some (InstanceResult.invalid none, emptyState.addDiag
        (rangeDiagWith DiagCode.RecursiveSequence (sampleRange 720) ["r"])) ∧
    AssertionInstanceExpression.fromLookup idleArgChecker idleBodyBinder idleLetBinder
        (assertionSymbol SymbolKind.LetDecl) [] (some ([], [])) (sampleRange 720) taskContext
        (insideFirstInstance SymbolKind.LetDecl) emptyState =
      some (InstanceResult.invalid none, emptyState.addDiag
        (rangeDiagWith DiagCode.RecursiveLet (sampleRange 720) ["r"])) :=
  ⟨(fromLookup_recursive_sequence_or_let idleArgChecker idleBodyBinder idleLetBinder
      (assertionSymbol SymbolKind.Sequence) [] (some ([], [])) (sampleRange 720) taskContext
      (insideFirstInstance SymbolKind.Sequence) emptyState (Or.inl rfl) (by decide)).2.1 rfl
      (by decide) (by decide),
   (fromLookup_recursive_sequence_or_let idleArgChecker idleBodyBinder idleLetBinder
      (assertionSymbol SymbolKind.LetDecl) [] (some ([], [])) (sampleRange 720) taskContext
      (insideFirstInstance SymbolKind.LetDecl) emptyState (Or.inr rfl) (by decide)).2.1 rfl
      (by decide) (by decide)⟩

/-! ## Claims on tagged union expressions -/

/-- Claim C18: for a tagged union assignment target and a member name that exists in
it, `TaggedUnionExpression::fromSyntax` with no initializer expression succeeds if and
only if the type of the member is void; for a member of another type it reports
`TaggedUnionMissingInit` and returns an invalid expression. -/
theorem taggedUnion_fromSyntax_without_initializer {S E : Type}
    (bindRValue : SymbolKind → S → SourceLocation → BindContext → BindState → E × BindState)
    (bad : E → Bool) (syn : TaggedUnionExpressionSyntax S) (context : BindContext)
    (target : UnionType) (field : FieldSymbol) (s : BindState)
    (htagged : target.isTaggedUnion = true) (hfind : target.find syn.member = some field)
    (hexpr : syn.expr = none) :
    (∀ (r : Bound (TaggedUnionExpression E)) (s1 : BindState),
        TaggedUnionExpression.fromSyntax bindRValue bad syn context (some target) s =
            some (r, s1) →
          (r.bad = false ↔ field.typeKind = SymbolKind.VoidType)) ∧
      (field.typeKind = SymbolKind.VoidType →
        TaggedUnionExpression.fromSyntax bindRValue bad syn context (some target) s =
          some (Bound.ok { type := target, member := field, valueExpr := none,
                           sourceRange := syn.range }, s)) ∧
      (field.typeKind ≠ SymbolKind.VoidType → syn.range.start.valid = true →
        syn.range.stop.valid = true →
        TaggedUnionExpression.fromSyntax bindRValue bad syn context (some target) s =
          some (Bound.invalid none, s.addDiag
            (rangeDiagWith DiagCode.TaggedUnionMissingInit syn.range [field.name]))) := by
  have hform : TaggedUnionExpression.fromSyntax bindRValue bad syn context (some target) s =
      if !(field.typeKind == SymbolKind.VoidType) then
        (rangeDiag DiagCode.TaggedUnionMissingInit syn.range).map
          (fun d => (Bound.invalid none, s.addDiag (d.addArg field.name)))
      else
        some (Bound.ok { type := target, member := field, valueExpr := none,
                         sourceRange := syn.range }, s) := by
    unfold TaggedUnionExpression.fromSyntax
    simp only [htagged, Bool.not_true, Bool.false_eq_true, if_false, hfind, hexpr]
  refine ⟨?_, ?_, ?_⟩
  · intro r s1 h
    rw [hform] at h
    by_cases hv : field.typeKind = SymbolKind.VoidType
    · simp only [hv, beq_self_eq_true, Bool.not_true, Bool.false_eq_true, if_false,
        Option.some.injEq, Prod.mk.injEq] at h
      rw [← h.1]
      simp [Bound.bad, hv]
    · have hv2 : (!(field.typeKind == SymbolKind.VoidType)) = true := by simpa using hv
      rw [if_pos hv2] at h
      cases hd : rangeDiag DiagCode.TaggedUnionMissingInit syn.range with
      | none => rw [hd] at h; exact absurd h (by simp)
      | some d =>
        rw [hd] at h
        simp only [Option.map_some', Option.some.injEq, Prod.mk.injEq] at h
        rw [← h.1]
        simp [Bound.bad, hv]
  · intro hv
    rw [hform]
    simp [hv]
  · intro hv h1 h2
    have hv2 : (!(field.typeKind == SymbolKind.VoidType)) = true := by simpa using hv
    rw [hform, if_pos hv2, rangeDiag_eq _ _ h1 h2]
    simp [rangeDiagWith, Diagnostic.addArg, Diagnostic.code, Diagnostic.location,
      Diagnostic.symbol, Diagnostic.args, Diagnostic.ranges, Diagnostic.notes]

/-- Claim C18 on `tagged Invalid` and `tagged Valid` assigned to the union `u`, whose
member `Invalid` is void and whose member `Valid` is an int. -/
theorem taggedUnion_fromSyntax_without_initializer_witness :
    TaggedUnionExpression.fromSyntax (fun _ (e : Nat) _ _ s => (e, s)) (fun _ => false)
        (taggedWithoutInit "Invalid") taskContext (some sampleUnion) emptyState =
      some (Bound.ok { type := sampleUnion,
                       member := { name := "Invalid", typeKind := SymbolKind.VoidType,
                                   offset := 0 },
                       valueExpr := none,
                       sourceRange := (taggedWithoutInit "Invalid").range }, emptyState) ∧
    TaggedUnionExpression.fromSyntax (fun _ (e : Nat) _ _ s => (e, s)) (fun _ => false)
        (taggedWithoutInit "Valid") taskContext (some sampleUnion) emptyState =
      some (Bound.invalid none, emptyState.addDiag
        (rangeDiagWith DiagCode.TaggedUnionMissingInit (taggedWithoutInit "Valid").range
          ["Valid"])) :=
  ⟨(taggedUnion_fromSyntax_without_initializer (fun _ (e : Nat) _ _ s => (e, s))
      (fun _ => false) (taggedWithoutInit "Invalid") taskContext sampleUnion
      { name := "Invalid", typeKind := SymbolKind.VoidType, offset := 0 } emptyState rfl
      (by decide) rfl).2.1 rfl,
   (taggedUnion_fromSyntax_without_initializer (fun _ (e : Nat) _ _ s => (e, s))
      (fun _ => false) (taggedWithoutInit "Valid") taskContext sampleUnion
      { name := "Valid", typeKind := SymbolKind.PredefinedIntegerType, offset := 1 } emptyState
      rfl (by decide) rfl).2.2 (by decide) (by decide) (by decide)⟩

/-! ## Claims on the binding of min:typ:max -/

/-- Claim C24: `MinTypMaxExpression::fromSyntax` binds all three operands, exactly two
of them with the `UnevaluatedBranch` flag and the one selected by the option
`minTypMax` without it; the type of the result is the type of the selected operand;
`propagateType` sets the new type, hands it to the selected operand alone, leaves the
two others as they are, and returns true. -/
theorem minTypMax_binding_and_propagateType {S E T : Type}
    (create : S → BindContext → bitmask BindFlags → Option T → E) (typeOf : E → T)
    (contextDetermined : BindContext → E → T → E) (options : CompilationOptions)
    (syn : MinTypMaxExpressionSyntax S) (context : BindContext) (assignmentTarget : Option T)
    (propagateContext : BindContext) (newType : T) :
    ((MinTypMaxExpression.build create typeOf options syn context assignmentTarget).min_ =
        create syn.min context (MinTypMaxExpression.branchFlags options MinTypMax.Min)
          assignmentTarget ∧
      (MinTypMaxExpression.build create typeOf options syn context assignmentTarget).typ_ =
        create syn.typ context (MinTypMaxExpression.branchFlags options MinTypMax.Typ)
          assignmentTarget ∧
      (MinTypMaxExpression.build create typeOf options syn context assignmentTarget).max_ =
        create syn.max context (MinTypMaxExpression.branchFlags options MinTypMax.Max)
          assignmentTarget) ∧
    (([MinTypMax.Min, MinTypMax.Typ, MinTypMax.Max].filter
        (fun b => (MinTypMaxExpression.branchFlags options b).has
          BindFlags.UnevaluatedBranch)).length = 2 ∧
      MinTypMaxExpression.branchFlags options options.minTypMax = []) ∧
    ((MinTypMaxExpression.build create typeOf options syn context assignmentTarget).type =
      typeOf (MinTypMaxExpression.build create typeOf options syn context
        assignmentTarget).selected) ∧
    ((MinTypMaxExpression.propagateType contextDetermined
        (MinTypMaxExpression.build create typeOf options syn context assignmentTarget)
        propagateContext newType).1 = true ∧
      (MinTypMaxExpression.propagateType contextDetermined
        (MinTypMaxExpression.build create typeOf options syn context assignmentTarget)
        propagateContext newType).2.type = newType ∧
      (MinTypMaxExpression.propagateType contextDetermined
        (MinTypMaxExpression.build create typeOf options syn context assignmentTarget)
        propagateContext newType).2.selected =
        contextDetermined propagateContext
          (MinTypMaxExpression.build create typeOf options syn context
            assignmentTarget).selected newType ∧
      (options.minTypMax ≠ MinTypMax.Min →
        (MinTypMaxExpression.propagateType contextDetermined
          (MinTypMaxExpression.build create typeOf options syn context assignmentTarget)
          propagateContext newType).2.min_ =
          (MinTypMaxExpression.build create typeOf options syn context assignmentTarget).min_) ∧
      (options.minTypMax ≠ MinTypMax.Typ →
        (MinTypMaxExpression.propagateType contextDetermined
          (MinTypMaxExpression.build create typeOf options syn context assignmentTarget)
          propagateContext newType).2.typ_ =
          (MinTypMaxExpression.build create typeOf options syn context assignmentTarget).typ_) ∧
      (options.minTypMax ≠ MinTypMax.Max →
        (MinTypMaxExpression.propagateType contextDetermined
          (MinTypMaxExpression.build create typeOf options syn context assignmentTarget)
          propagateContext newType).2.max_ =
          (MinTypMaxExpression.build create typeOf options syn context assignmentTarget).max_)) := by
  unfold MinTypMaxExpression.propagateType MinTypMaxExpression.build
    MinTypMaxExpression.selected MinTypMaxExpression.branchFlags
  cases h : options.minTypMax <;> simp [bitmask.has]

/-- Claim C24 with the option `Max` on `1:2:3`: the operand `3` is bound without flag
and receives the new type; the two others keep the `UnevaluatedBranch` binding. -/
theorem minTypMax_binding_and_propagateType_witness :
    (MinTypMaxExpression.propagateType (fun _ (e : Nat × bitmask BindFlags) (t : Nat) => (e.1 + t, e.2))
        (MinTypMaxExpression.build (fun (x : Nat) _ flags _ => (x, flags)) (fun _ => (0 : Nat))
          { minTypMax := MinTypMax.Max } oneTwoThree taskContext none)
        taskContext 100).2.max_ = (103, []) ∧
    (MinTypMaxExpression.propagateType (fun _ (e : Nat × bitmask BindFlags) (t : Nat) => (e.1 + t, e.2))
        (MinTypMaxExpression.build (fun (x : Nat) _ flags _ => (x, flags)) (fun _ => (0 : Nat))
          { minTypMax := MinTypMax.Max } oneTwoThree taskContext none)
        taskContext 100).2.min_ = (1, [BindFlags.UnevaluatedBranch]) :=
  ⟨by
    have h := (minTypMax_binding_and_propagateType
      (fun (x : Nat) _ flags _ => (x, flags)) (fun _ => (0 : Nat))
      (fun _ (e : Nat × bitmask BindFlags) (t : Nat) => (e.1 + t, e.2))
      { minTypMax := MinTypMax.Max } oneTwoThree taskContext none taskContext 100).2.2.2.2.2.1
    exact h,
   by
    have h := (minTypMax_binding_and_propagateType
      (fun (x : Nat) _ flags _ => (x, flags)) (fun _ => (0 : Nat))
      (fun _ (e : Nat × bitmask BindFlags) (t : Nat) => (e.1 + t, e.2))
      { minTypMax := MinTypMax.Max } oneTwoThree taskContext none taskContext 100).2.2.2.2.2.2.1
      (by decide)
    exact h⟩

/-- Claim C25: the expression returned by `MinTypMaxExpression::fromSyntax` is invalid
if and only if at least one of its min, typ or max operands is invalid, whether or not
that operand is the selected one. -/
theorem minTypMax_fromSyntax_bad_iff {S E T : Type}
    (create : S → BindContext → bitmask BindFlags → Option T → E) (typeOf : E → T)
    (bad : E → Bool) (options : CompilationOptions) (syn : MinTypMaxExpressionSyntax S)
    (context : BindContext) (assignmentTarget : Option T) :
    ((MinTypMaxExpression.fromSyntax create typeOf bad options syn context
        assignmentTarget).bad = true ↔
      (bad (MinTypMaxExpression.build create typeOf options syn context assignmentTarget).min_ =
          true ∨
        bad (MinTypMaxExpression.build create typeOf options syn context assignmentTarget).typ_ =
          true ∨
        bad (MinTypMaxExpression.build create typeOf options syn context assignmentTarget).max_ =
          true)) ∧
    (MinTypMaxExpression.fromSyntax create typeOf bad options syn context
        assignmentTarget).bad =
      (bad (create syn.min context (MinTypMaxExpression.branchFlags options MinTypMax.Min)
          assignmentTarget) ||
        bad (create syn.typ context (MinTypMaxExpression.branchFlags options MinTypMax.Typ)
          assignmentTarget) ||
        bad (create syn.max context (MinTypMaxExpression.branchFlags options MinTypMax.Max)
          assignmentTarget)) := by
  constructor
  · unfold MinTypMaxExpression.fromSyntax
    simp only []
    split
    · rename_i h
      simp only [Bound.bad, true_iff]
      simpa [Bool.or_eq_true, or_assoc] using h
    · rename_i h
      simp only [Bound.bad, Bool.false_eq_true, false_iff]
      simpa [Bool.or_eq_true, or_assoc] using h
  · unfold MinTypMaxExpression.fromSyntax MinTypMaxExpression.build
      MinTypMaxExpression.branchFlags
    cases h : options.minTypMax <;> simp only [] <;> split <;> simp_all [Bound.bad]

/-! ## Claims on the evaluation of named values -/

theorem checkConstant_true (g : SymbolGraph) (self : ValueExpressionBase)
    (context c1 : EvalContext)
    (h : NamedValueExpression.checkConstant g self context = some (true, c1)) :
    c1 = context := by
  have rej : ∀ (code : DiagCode) (named : Bool) (c : EvalContext),
      rejectInFunction code self named c ≠ some (true, c1) := by
    intro code named c hr
    unfold rejectInFunction at hr
    cases hd : rangeDiag code self.sourceRange with
    | none => simp [hd] at hr
    | some d =>
      simp only [hd] at hr
      cases hn : (if named then d.addArg self.symbol.name else d).addNote SourceLocation.valid
          DiagCode.NoteDeclarationHere self.symbol.location with
      | none => simp [hn] at hr
      | some d1 => simp [hn] at hr
  unfold NamedValueExpression.checkConstant at h
  split at h
  · simp at h
    exact h.symm
  · cases hb : checkConstantBase self context with
    | none => simp [hb] at h
    | some r =>
      obtain ⟨b, c2⟩ := r
      cases b with
      | false => simp [hb] at h
      | true =>
        have hc2 := (checkConstantBase_true self context c2 hb).1
        subst hc2
        simp only [hb] at h
        split at h
        · simp at h
          exact h.symm
        · cases ht : c2.topFrame with
          | none => simp [ht] at h
          | some frame =>
            simp only [ht] at h
            cases hs : frame.subroutine with
            | none =>
              simp [hs] at h
              exact h.symm
            | some subroutine =>
              simp only [hs] at h
              have key : checkInFunction g self subroutine frame.lookupLocation c2 =
                    some (true, c2) ∨
                  ∃ code named, checkInFunction g self subroutine frame.lookupLocation c2 =
                    rejectInFunction code self named c2 := by
                unfold checkInFunction
                simp only []
                split_ifs
                · exact Or.inr ⟨_, _, rfl⟩
                · exact Or.inl rfl
                · exact Or.inr ⟨_, _, rfl⟩
                · exact Or.inl rfl
                · exact Or.inl rfl
              rcases key with hk | ⟨code, named, hk⟩
              · rw [hk] at h
                simp at h
                exact h.symm
              · rw [hk] at h
                exact absurd h (rej _ _ _)

theorem lastIndex_bits (n : Nat) :
    toUInt64 (toInt32 n - 1) % 2 ^ 32 = (n + 2 ^ 32 - 1) % 2 ^ 32 := by
  unfold toUInt64 toInt32
  split <;> omega

theorem checkConstantBase_isSome (self : ValueExpressionBase) (context : EvalContext)
    (h1 : self.sourceRange.start.valid = true) (h2 : self.sourceRange.stop.valid = true) :
    ∃ b, checkConstantBase self context = some (b, if b then context else
      context.addDiag (rangeDiagWith
        (if self.symbol.typeKind == SymbolKind.ClassType then DiagCode.ConstEvalClassType
          else if self.symbol.typeKind == SymbolKind.CovergroupType then
            DiagCode.ConstEvalCovergroupType
          else DiagCode.SpecparamInConstant) self.sourceRange [])) := by
  unfold checkConstantBase
  split_ifs with ha hb hc
  · exact ⟨false, by simp [rangeDiag_eq _ _ h1 h2]⟩
  · exact ⟨false, by simp [rangeDiag_eq _ _ h1 h2]⟩
  · exact ⟨false, by simp [rangeDiag_eq _ _ h1 h2]⟩
  · exact ⟨true, by simp⟩

/-- Claim C30: `HierarchicalValueExpression::evalImpl` never reaches the
`THROW_UNREACHABLE` default of its second switch: whatever the kind and the type of
the symbol and whatever the options, it returns a constant value or null, as long as
the assertions of the diagnostic store hold (the range of the expression is valid) and
the queue target, when there is one, is a queue. -/
theorem hierarchical_evalImpl_returns (g : SymbolGraph) (self : ValueExpressionBase)
    (context : EvalContext)
    (hstart : self.sourceRange.start.valid = true) (hstop : self.sourceRange.stop.valid = true)
    (hqueue : ∀ target, context.queueTarget = some target →
      ∃ elements, target = ConstantValue.queue elements) :
    ∃ (v : ConstantValue) (c1 : EvalContext),
      HierarchicalValueExpression.evalImpl g self context = some (v, c1) := by
  unfold HierarchicalValueExpression.evalImpl
  split
  · exact ⟨_, _, hierarchicalName_eq self context hstart hstop⟩
  · obtain ⟨b, hb⟩ := checkConstantBase_isSome self context hstart hstop
    cases b with
    | false =>
      rw [hb]
      exact ⟨_, _, rfl⟩
    | true =>
      rw [hb]
      simp only [if_true]
      split
      · rename_i hk
        simp only [Bool.or_eq_true, beq_iff_eq] at hk
        rcases hk with (hk | hk) | hk
        · rw [hk]
          simp only []
          unfold parameterValue
          simp only []
          split
          · cases hq : context.queueTarget with
            | none => exact ⟨_, _, rfl⟩
            | some target =>
              obtain ⟨elements, he⟩ := hqueue target hq
              subst he
              exact ⟨_, _, rfl⟩
          · exact ⟨_, _, rfl⟩
        · rw [hk]
          exact ⟨_, _, rfl⟩
        · rw [hk]
          exact ⟨_, _, rfl⟩
      · exact ⟨_, _, hierarchicalName_eq self context hstart hstop⟩

/-- Claim C30 on a hierarchical reference to a net with the option set: null comes back
with `ConstEvalHierarchicalName`. -/
theorem hierarchical_evalImpl_returns_witness :
    ∃ (v : ConstantValue) (c1 : EvalContext),
      HierarchicalValueExpression.evalImpl sampleGraph
        { isHierarchical := true,
          symbol := sampleValue SymbolKind.Net SymbolKind.PredefinedIntegerType,
          sourceRange := sampleRange 200 } (topLevelEval true) = some (v, c1) :=
  hierarchical_evalImpl_returns sampleGraph
    { isHierarchical := true,
      symbol := sampleValue SymbolKind.Net SymbolKind.PredefinedIntegerType,
      sourceRange := sampleRange 200 } (topLevelEval true) (by decide) (by decide)
    (by intro target h; exact absurd h (by simp [topLevelEval]))

/-- Claim C23 fails as stated: inside a constant function, a parameter `$` that is
declared after the call is rejected by `checkConstant` although a queue target of two
elements is in scope; null comes back with `ConstEvalIdUsedInCEBeforeDecl`. -/
theorem namedValue_evalImpl_unbounded_rejected :
    (NamedValueExpression.evalImpl unboundedAfterGraph
        (sampleRef (sampleValue SymbolKind.Parameter SymbolKind.PredefinedIntegerType))
        { functionEval with queueTarget := some twoElementQueue }).map
        (fun p => (p.1.bad, p.2.codes)) =
      some (true, [DiagCode.ConstEvalIdUsedInCEBeforeDecl]) := by
  decide

/-- Claim C23, amended: when `checkConstant` accepts the reference and the value of the
referenced parameter is the unbounded marker, `NamedValueExpression::evalImpl` returns,
for a queue target of n elements, the signed 32-bit integer whose bits are n - 1 modulo
2^32 (all 32 bits set, the value -1, for the empty queue); with no queue target it
returns the unbounded value unchanged. Nothing is reported. -/
theorem namedValue_evalImpl_unbounded_parameter (g : SymbolGraph)
    (self : ValueExpressionBase) (context : EvalContext)
    (hcheck : NamedValueExpression.checkConstant g self context = some (true, context))
    (hkind : self.symbol.kind = SymbolKind.Parameter)
    (hval : (g.getValue self.symbol).isUnbounded = true) :
    (∀ elements, context.queueTarget = some (ConstantValue.queue elements) →
        NamedValueExpression.evalImpl g self context =
          some (ConstantValue.integer
            { width := 32, isSigned := true,
              bits := (elements.length + 2 ^ 32 - 1) % 2 ^ 32 }, context)) ∧
      (context.queueTarget = some (ConstantValue.queue []) →
        NamedValueExpression.evalImpl g self context =
          some (ConstantValue.integer
            { width := 32, isSigned := true, bits := 2 ^ 32 - 1 }, context)) ∧
      (context.queueTarget = none →
        NamedValueExpression.evalImpl g self context =
          some (g.getValue self.symbol, context)) := by
  have main : ∀ elements, context.queueTarget = some (ConstantValue.queue elements) →
      NamedValueExpression.evalImpl g self context =
        some (ConstantValue.integer
          { width := 32, isSigned := true,
            bits := (elements.length + 2 ^ 32 - 1) % 2 ^ 32 }, context) := by
    intro elements hq
    unfold NamedValueExpression.evalImpl
    rw [hcheck]
    simp only [hkind, parameterValue, hval, if_true, hq, ConstantValue.queueSize,
      Option.map_some', SVInt.create, lastIndex_bits]
  refine ⟨main, ?_, ?_⟩
  · intro hq
    exact main [] hq
  · intro hq
    unfold NamedValueExpression.evalImpl
    rw [hcheck]
    simp only [hkind, parameterValue, hval, if_true, hq, Option.map_some']

/-- The amended claim C23 on the parameter `$` at top level with a queue target of two
elements: the result is the 32-bit integer 1. -/
theorem namedValue_evalImpl_unbounded_parameter_witness :
    NamedValueExpression.evalImpl unboundedGraph
        (sampleRef (sampleValue SymbolKind.Parameter SymbolKind.PredefinedIntegerType))
        { topLevelEval false with queueTarget := some twoElementQueue } =
      some (ConstantValue.integer
        { width := 32, isSigned := true, bits := (2 + 2 ^ 32 - 1) % 2 ^ 32 },
        { topLevelEval false with queueTarget := some twoElementQueue }) :=
  (namedValue_evalImpl_unbounded_parameter unboundedGraph
    (sampleRef (sampleValue SymbolKind.Parameter SymbolKind.PredefinedIntegerType))
    { topLevelEval false with queueTarget := some twoElementQueue }
    rfl rfl rfl).1
    [ConstantValue.str "a", ConstantValue.str "b"] rfl

/-- Claim C26 fails as stated: under `CovergroupExpr`, a variable of class type that is
not `const` and has no local value is rejected by `checkConstant` before the covergroup
branch; null comes back with `ConstEvalClassType` and `CoverageExprVar` is not
reported. -/
theorem namedValue_evalImpl_covergroup_class_variable :
    (NamedValueExpression.evalImpl sampleGraph
        (sampleRef (sampleValue SymbolKind.Variable SymbolKind.ClassType))
        covergroupEval).map (fun p => (p.1.bad, p.2.codes)) =
      some (true, [DiagCode.ConstEvalClassType]) ∧
    (sampleValue SymbolKind.Variable SymbolKind.ClassType).flags.has VariableFlags.Const =
      false ∧
    covergroupEval.findLocal (sampleValue SymbolKind.Variable SymbolKind.ClassType) =
      some none := by
  refine ⟨by decide, by decide, rfl⟩

/-- Claim C26, amended: when `checkConstant` accepts the reference, the flag
`CovergroupExpr` is set, the symbol is not a parameter, enum value or specparam and has
no local constant value, `NamedValueExpression::evalImpl` returns null, and it reports
`CoverageExprVar` (once, at the range of the expression) exactly when the symbol is a
formal argument of direction `Ref`, or a variable other than a formal argument without
the `Const` flag, or not a variable at all; for a formal argument of another direction
and for a `const` variable it reports nothing. -/
theorem namedValue_evalImpl_covergroup (g : SymbolGraph) (self : ValueExpressionBase)
    (context : EvalContext)
    (hcheck : NamedValueExpression.checkConstant g self context = some (true, context))
    (hflag : context.flags.has EvalFlags.CovergroupExpr = true)
    (hparam : self.symbol.kind ≠ SymbolKind.Parameter)
    (henum : self.symbol.kind ≠ SymbolKind.EnumValue)
    (hspec : self.symbol.kind ≠ SymbolKind.Specparam)
    (hlocal : context.findLocal self.symbol = some none)
    (hstart : self.sourceRange.start.valid = true) (hstop : self.sourceRange.stop.valid = true) :
    NamedValueExpression.evalImpl g self context =
      some (ConstantValue.null,
        if (self.symbol.kind = SymbolKind.FormalArgument ∧
              self.symbol.direction = ArgumentDirection.Ref) ∨
            (self.symbol.kind ≠ SymbolKind.FormalArgument ∧
              VariableSymbol.isKind self.symbol.kind = true ∧
              self.symbol.flags.has VariableFlags.Const = false) ∨
            VariableSymbol.isKind self.symbol.kind = false then
          context.addDiag (rangeDiagWith DiagCode.CoverageExprVar self.sourceRange [])
        else context) := by
  have hbody : NamedValueExpression.evalImpl g self context =
      NamedValueExpression.covergroupExpr self context := by
    unfold NamedValueExpression.evalImpl
    rw [hcheck]
    simp only [hlocal, hflag, if_true]
  rw [hbody]
  unfold NamedValueExpression.covergroupExpr coverageExprVar
  rw [rangeDiag_eq _ _ hstart hstop]
  by_cases hf : self.symbol.kind = SymbolKind.FormalArgument
  · have hv : VariableSymbol.isKind self.symbol.kind = true := by rw [hf]; rfl
    by_cases hd : self.symbol.direction = ArgumentDirection.Ref
    · simp [hf, hd]
    · simp [hf, hd, VariableSymbol.isKind]
  · by_cases hv : VariableSymbol.isKind self.symbol.kind = true
    · by_cases hc : self.symbol.flags.has VariableFlags.Const = true
      · simp [hf, hv, hc]
      · simp [hf, hv, hc]
    · simp [hf, hv, hparam, henum]

/-- The amended claim C26 on a variable without `const` in a covergroup expression at
top level: `CoverageExprVar` is reported and null comes back. -/
theorem namedValue_evalImpl_covergroup_witness :
    NamedValueExpression.evalImpl sampleGraph
        (sampleRef (sampleValue SymbolKind.Variable SymbolKind.PredefinedIntegerType))
        covergroupEval =
      some (ConstantValue.null, covergroupEval.addDiag
        (rangeDiagWith DiagCode.CoverageExprVar
          (sampleRef (sampleValue SymbolKind.Variable
            SymbolKind.PredefinedIntegerType)).sourceRange [])) :=
  namedValue_evalImpl_covergroup sampleGraph
    (sampleRef (sampleValue SymbolKind.Variable SymbolKind.PredefinedIntegerType))
    covergroupEval rfl rfl (by decide) (by decide) (by decide) rfl rfl rfl

/-! ## Claims on the evaluation of tagged union expressions -/

theorem fields_of_set (P Q k m v : Nat) (hP : 0 < P) (hm : m < P * Q) (hv : v < P) :
    ((k * (P * Q) + m) / P * P + v) / (P * Q) = k ∧
      ((k * (P * Q) + m) / P * P + v) % P = v ∧
      (k * (P * Q) + m) / P * P + v < (k + 1) * (P * Q) := by
  have h1 : (k * (P * Q) + m) / P = k * Q + m / P := by
    rw [show k * (P * Q) = P * (k * Q) by ring, Nat.mul_add_div hP]
  have h2 : m / P < Q := Nat.div_lt_of_lt_mul hm
  have h3 : m / P * P + v < P * Q := by
    calc m / P * P + v < m / P * P + P := by omega
      _ = (m / P + 1) * P := by ring
      _ ≤ Q * P := Nat.mul_le_mul_right P h2
      _ = P * Q := Nat.mul_comm _ _
  have hPQ : 0 < P * Q := by omega
  have h4 : (k * Q + m / P) * P + v = (m / P * P + v) + (P * Q) * k := by ring
  rw [h1]
  refine ⟨?_, ?_, ?_⟩
  · rw [h4, Nat.add_mul_div_left _ _ hPQ, Nat.div_eq_of_lt h3]
    simp
  · rw [Nat.mul_add_mod_of_lt hv]
  · rw [h4]
    have : (k + 1) * (P * Q) = P * Q + P * Q * k := by ring
    omega

theorem set_range (x value : SVInt) (lo len : Nat) (hlen : 0 < len) :
    x.set (((lo + len : Nat) : Int) - 1) (lo : Int) value =
      { x with bits := (x.bits / 2 ^ (lo + len) * 2 ^ (lo + len) +
          value.bits % 2 ^ len * 2 ^ lo + x.bits % 2 ^ lo) % 2 ^ x.width } := by
  unfold SVInt.set
  have h1 : ¬ ((((lo + len : Nat) : Int) - 1) < (lo : Int)) := by omega
  have h2 : ¬ ((lo : Int) < 0) := by omega
  have h3 : ((((lo + len : Nat) : Int) - 1) + 1).toNat = lo + len := by omega
  have h4 : ((((lo + len : Nat) : Int) - 1) - (lo : Int) + 1).toNat = len := by omega
  simp only [h1, h2, if_false, h3, h4, Int.toNat_ofNat]

theorem tagged_bits (B t w k dbits vbits : Nat) (hk : k < 2 ^ t) (hv : vbits < 2 ^ w)
    (hfit : w + t ≤ B) :
    (dbits / 2 ^ (B - t + t) * 2 ^ (B - t + t) + k % 2 ^ t % 2 ^ t * 2 ^ (B - t) +
        dbits % 2 ^ (B - t)) % 2 ^ B = k * 2 ^ (B - t) + dbits % 2 ^ (B - t) ∧
      (k * 2 ^ (B - t) + dbits % 2 ^ (B - t)) < 2 ^ B ∧
      (k * 2 ^ (B - t) + dbits % 2 ^ (B - t)) / 2 ^ (B - t) = k ∧
      ((k * 2 ^ (B - t) + dbits % 2 ^ (B - t)) / 2 ^ w * 2 ^ w + vbits) < 2 ^ B ∧
      ((k * 2 ^ (B - t) + dbits % 2 ^ (B - t)) / 2 ^ w * 2 ^ w + vbits) / 2 ^ (B - t) = k ∧
      ((k * 2 ^ (B - t) + dbits % 2 ^ (B - t)) / 2 ^ w * 2 ^ w + vbits) % 2 ^ w = vbits := by
  have hBt : B - t + t = B := by omega
  have hpow : 2 ^ B = 2 ^ t * 2 ^ (B - t) := by
    rw [← pow_add]
    congr 1
    omega
  have hM : 2 ^ (B - t) = 2 ^ w * 2 ^ (B - t - w) := by
    rw [← pow_add]
    congr 1
    omega
  have hMpos : 0 < 2 ^ (B - t) := Nat.pow_pos (by decide)
  have hPpos : 0 < 2 ^ w := Nat.pow_pos (by decide)
  have hm : dbits % 2 ^ (B - t) < 2 ^ (B - t) := Nat.mod_lt _ hMpos
  have hlt : k * 2 ^ (B - t) + dbits % 2 ^ (B - t) < 2 ^ B := by
    rw [hpow]
    calc k * 2 ^ (B - t) + dbits % 2 ^ (B - t) < k * 2 ^ (B - t) + 2 ^ (B - t) := by omega
      _ = (k + 1) * 2 ^ (B - t) := by ring
      _ ≤ 2 ^ t * 2 ^ (B - t) := Nat.mul_le_mul_right _ hk
  have hf := fields_of_set (2 ^ w) (2 ^ (B - t - w)) k (dbits % 2 ^ (B - t)) vbits hPpos
    (by rw [← hM]; exact hm) hv
  rw [← hM] at hf
  refine ⟨?_, hlt, ?_, ?_, hf.1, hf.2.1⟩
  · rw [hBt, Nat.mod_mod, Nat.mod_eq_of_lt hk, Nat.add_assoc, Nat.mul_add_mod',
      Nat.mod_eq_of_lt hlt]
  · rw [Nat.add_comm, Nat.add_mul_div_right _ _ hMpos, Nat.div_eq_of_lt hm]
    simp
  · rw [hpow]
    exact lt_of_lt_of_le hf.2.2 (Nat.mul_le_mul_right _ hk)

theorem set_empty (x value : SVInt) : x.set (-1) 0 value = x := by
  simp [SVInt.set]

theorem toInt32_sub_one (n : Nat) (h0 : 0 < n) (hn : n < 2 ^ 31) :
    toInt32 (subUInt32 n 1) = (n : Int) - 1 := by
  unfold toInt32 subUInt32
  split <;> omega

theorem toInt32_sub_tag (n t : Nat) (ht : t ≤ n) (hn : n < 2 ^ 31) :
    toInt32 (subUInt32 n t) = ((n - t : Nat) : Int) := by
  unfold toInt32 subUInt32
  split <;> omega

/-- Claim C29: for a packed tagged union of total width B with t > 0 tag bits, a member
of offset k < 2^t and an initializer that evaluates to an integer of width w with
w + t ≤ B, `TaggedUnionExpression::evalImpl` returns an integer of width B whose top t
bits are k and whose low w bits are the value of the initializer; for a packed union
without tag bits it returns null, and it returns null whenever the initializer
evaluates to null. The default value of the type is an integer of width B, widths are
below 2^31, and the bits of the initializer fit its width. -/
theorem taggedUnion_evalImpl_packed {E : Type}
    (eval : E → EvalContext → ConstantValue × EvalContext)
    (getDefaultValue : UnionType → ConstantValue) (self : TaggedUnionExpression E)
    (context : EvalContext) :
    (∀ (e : E) (v d : SVInt) (c1 : EvalContext),
        self.type.isUnpackedUnion = false → 0 < self.type.tagBits →
        self.member.offset < 2 ^ self.type.tagBits →
        self.valueExpr = some e → eval e context = (ConstantValue.integer v, c1) →
        v.bits < 2 ^ v.width →
        getDefaultValue self.type = ConstantValue.integer d →
        d.width = self.type.bitWidth → self.type.bitWidth < 2 ^ 31 →
        v.width + self.type.tagBits ≤ self.type.bitWidth →
        ∃ r : SVInt,
          TaggedUnionExpression.evalImpl eval getDefaultValue self context =
            some (ConstantValue.integer r, c1) ∧
          r.width = self.type.bitWidth ∧ r.bits < 2 ^ self.type.bitWidth ∧
          r.bits / 2 ^ (self.type.bitWidth - self.type.tagBits) = self.member.offset ∧
          r.bits % 2 ^ v.width = v.bits) ∧
      (self.type.isUnpackedUnion = false → self.type.tagBits = 0 →
        ∃ c1, TaggedUnionExpression.evalImpl eval getDefaultValue self context =
          some (ConstantValue.null, c1)) ∧
      (∀ e : E, self.valueExpr = some e → (eval e context).1.bad = true →
        TaggedUnionExpression.evalImpl eval getDefaultValue self context =
          some (ConstantValue.null, (eval e context).2)) := by
  refine ⟨?_, ?_, ?_⟩
  · intro e v d c1 hpacked htag hoffset hexpr heval hv hdefault hdw hwidth hfit
    have ht0 : (self.type.tagBits == 0) = false := by
      simp only [beq_eq_false_iff_ne, ne_eq]
      omega
    have hB0 : 0 < d.width := by omega
    have e1 : toInt32 (subUInt32 d.width 1) =
        (((d.width - self.type.tagBits + self.type.tagBits : Nat)) : Int) - 1 := by
      rw [toInt32_sub_one d.width hB0 (by omega)]
      have : d.width - self.type.tagBits + self.type.tagBits = d.width := by omega
      rw [this]
    have e2 : toInt32 (subUInt32 d.width self.type.tagBits) =
        ((d.width - self.type.tagBits : Nat) : Int) :=
      toInt32_sub_tag d.width self.type.tagBits (by omega) (by omega)
    have hbits := tagged_bits d.width self.type.tagBits v.width self.member.offset d.bits
      v.bits hoffset hv (by omega)
    obtain ⟨hb1, hb2, hb3, hb4, hb5, hb6⟩ := hbits
    unfold TaggedUnionExpression.evalImpl
    simp only [hexpr, heval, ConstantValue.bad, Option.isSome_some, Bool.and_false,
      Bool.false_eq_true, if_false, hpacked, ht0, hdefault]
    rw [e1, e2, set_range _ _ _ _ htag]
    simp only [SVInt.create, hb1]
    by_cases hw : v.width = 0
    · have hv0 : v.bits = 0 := by
        rw [hw] at hv
        simpa using hv
      have e3 : toInt32 (subUInt32 v.width 1) = -1 := by
        rw [hw]
        rfl
      rw [e3, set_empty]
      refine ⟨_, rfl, hdw, ?_, ?_, ?_⟩
      · rw [← hdw]
        exact hb2
      · rw [← hdw]
        exact hb3
      · rw [hw, hv0]
        simp [Nat.mod_one]
    · have hwpos : 0 < v.width := Nat.pos_of_ne_zero hw
      have e3 : toInt32 (subUInt32 v.width 1) = (((0 + v.width : Nat)) : Int) - 1 := by
        rw [toInt32_sub_one v.width hwpos (by omega)]
        simp
      rw [e3, show (0 : Int) = ((0 : Nat) : Int) from rfl, set_range _ _ 0 v.width hwpos]
      simp only [Nat.zero_add, pow_zero, Nat.mul_one, Nat.mod_one, Nat.add_zero,
        Nat.mod_eq_of_lt hv, Nat.mod_eq_of_lt hb4]
      refine ⟨_, rfl, hdw, ?_, ?_, hb6⟩
      · rw [← hdw]
        exact hb4
      · rw [← hdw]
        exact hb5
  · intro hpacked htag
    unfold TaggedUnionExpression.evalImpl
    simp only [hpacked, htag, beq_self_eq_true, if_true, Bool.false_eq_true, if_false]
    split
    · exact ⟨_, rfl⟩
    · exact ⟨_, rfl⟩
  · intro e hexpr hbad
    unfold TaggedUnionExpression.evalImpl
    simp only [hexpr, hbad, Option.isSome_some, Bool.and_self, if_true]

/-- Claim C29 on `tagged Valid 5` of a packed union of width 33 with one tag bit: the
result has width 33, its top bit is the offset 1 and its low 32 bits are 5. -/
theorem taggedUnion_evalImpl_packed_witness :
    ∃ r : SVInt,
      TaggedUnionExpression.evalImpl numberEval zeroDefault taggedValidFive
          (topLevelEval false) = some (ConstantValue.integer r, topLevelEval false) ∧
        r.width = 33 ∧ r.bits < 2 ^ 33 ∧ r.bits / 2 ^ (33 - 1) = 1 ∧ r.bits % 2 ^ 32 = 5 :=
  (taggedUnion_evalImpl_packed numberEval zeroDefault taggedValidFive (topLevelEval false)).1
    5 (SVInt.create 32 5 true) (SVInt.create 33 0 false) (topLevelEval false)
    rfl (by decide) (by decide) rfl rfl (by decide) rfl rfl (by decide) (by decide)

/-! ## Claims on the expansion of recursive properties -/

theorem checkRecursion_walkChain (p : Symbol) :
    ∀ (inst : AssertionInstanceDetails) (b : Bool),
      checkRecursion p inst b = some (walkChain p inst.chain b) ∨
        (checkRecursion p inst b = none ∧
          ∃ r, walkChain p inst.chain b = RecursionCheck.proceed r) := by
  intro inst
  induction inst with
  | null =>
    intro b
    exact Or.inl rfl
  | details current mark argDetails hasPrevContext prevInstance iharg ihprev =>
    intro b
    unfold checkRecursion AssertionInstanceDetails.chain walkChain
    cases hv : visitInstance p current mark b with
    | done result => exact Or.inl rfl
    | next b1 =>
      simp only []
      cases argDetails with
      | null =>
        cases hasPrevContext with
        | false =>
          simp only [Bool.false_eq_true, if_false]
          exact Or.inr ⟨trivial, b1, rfl⟩
        | true =>
          simp only [if_true]
          exact ihprev b1
      | details a1 a2 a3 a4 a5 =>
        simp only []
        exact iharg b1

theorem walkChain_placeholder (p : Symbol) (hseq : p.kind ≠ SymbolKind.Sequence)
    (hlet : p.kind ≠ SymbolKind.LetDecl) :
    ∀ (l : List (Symbol × Bool)) (b : Bool), (p, true) ∈ l →
      walkChain p l b = RecursionCheck.placeholder := by
  intro l
  induction l with
  | nil =>
    intro b h
    simp at h
  | cons head rest ih =>
    obtain ⟨current, mark⟩ := head
    intro b h
    unfold walkChain
    by_cases hc : current = p
    · cases mark with
      | true =>
        have hv : visitInstance p current true b =
            RecursionStep.done RecursionCheck.placeholder := by
          unfold visitInstance
          simp [hc, hseq, hlet]
        rw [hv]
      | false =>
        have hv : visitInstance p current false b = RecursionStep.next true := by
          unfold visitInstance
          simp [hc, hseq, hlet]
        rw [hv]
        simp only [List.mem_cons, Prod.mk.injEq, Bool.true_eq_false, and_false,
          false_or] at h
        exact ih true h
    · have hv : visitInstance p current mark b = RecursionStep.next b := by
        unfold visitInstance
        rw [if_neg hc]
      rw [hv]
      simp only [List.mem_cons, Prod.mk.injEq] at h
      rcases h with h | h
      · exact absurd h.1.symm hc
      · exact ih b h

theorem checkRecursion_placeholder (p : Symbol) (hseq : p.kind ≠ SymbolKind.Sequence)
    (hlet : p.kind ≠ SymbolKind.LetDecl) (inst : AssertionInstanceDetails) (b : Bool)
    (h : (p, true) ∈ inst.chain) :
    checkRecursion p inst b = some RecursionCheck.placeholder := by
  have hp := walkChain_placeholder p hseq hlet inst.chain b h
  rcases checkRecursion_walkChain p inst b with hw | ⟨_, r, hr⟩
  · rw [hw, hp]
  · rw [hp] at hr
    simp at hr

theorem visitInstance_same (p current : Symbol) (mark : Bool) (hc : current = p) :
    (∃ code, ∀ b : Bool, visitInstance p current mark b =
        RecursionStep.done (RecursionCheck.rejected code)) ∨
      (∀ b : Bool, visitInstance p current mark b =
        RecursionStep.done RecursionCheck.placeholder) ∨
      (∀ b : Bool, visitInstance p current mark b = RecursionStep.next true) := by
  unfold visitInstance
  simp only [hc, if_true]
  by_cases hseq : p.kind = SymbolKind.Sequence
  · exact Or.inl ⟨DiagCode.RecursiveSequence, fun _ => by simp [hseq]⟩
  · by_cases hlet : p.kind = SymbolKind.LetDecl
    · exact Or.inl ⟨DiagCode.RecursiveLet, fun _ => by simp [hseq, hlet]⟩
    · cases mark with
      | true => exact Or.inr (Or.inl (fun _ => by simp [hseq, hlet]))
      | false => exact Or.inr (Or.inr (fun _ => by simp [hseq, hlet]))

theorem checkRecursion_proceed_again (p : Symbol) :
    ∀ (inst : AssertionInstanceDetails) (b r : Bool),
      checkRecursion p inst b = some (RecursionCheck.proceed r) →
      checkRecursion p inst true = some (RecursionCheck.proceed true) := by
  intro inst
  induction inst with
  | null =>
    intro b r _
    rfl
  | details current mark argDetails hasPrevContext prevInstance iharg ihprev =>
    intro b r h
    unfold checkRecursion at h ⊢
    by_cases hc : current = p
    · rcases visitInstance_same p current mark hc with ⟨code, hv⟩ | hv | hv
      · rw [hv b] at h
        simp at h
      · rw [hv b] at h
        simp at h
      · rw [hv b] at h
        rw [hv true]
        simp only [] at h ⊢
        cases argDetails with
        | null =>
          cases hasPrevContext with
          | false => simp at h
          | true =>
            simp only [if_true] at h ⊢
            exact ihprev true r h
        | details a1 a2 a3 a4 a5 =>
          simp only [] at h ⊢
          exact iharg true r h
    · have hv : ∀ b1 : Bool, visitInstance p current mark b1 = RecursionStep.next b1 := by
        intro b1
        unfold visitInstance
        rw [if_neg hc]
      rw [hv true]
      rw [hv b] at h
      simp only [] at h ⊢
      cases argDetails with
      | null =>
        cases hasPrevContext with
        | false => simp at h
        | true =>
          simp only [if_true] at h ⊢
          exact ihprev b r h
      | details a1 a2 a3 a4 a5 =>
        simp only [] at h ⊢
        exact iharg b r h

theorem walkChain_unmarked (p : Symbol) (hseq : p.kind ≠ SymbolKind.Sequence)
    (hlet : p.kind ≠ SymbolKind.LetDecl) :
    ∀ (l : List (Symbol × Bool)) (b : Bool), (p, true) ∉ l →
      walkChain p l b = RecursionCheck.proceed (b || decide ((p, false) ∈ l)) := by
  intro l
  induction l with
  | nil =>
    intro b _
    simp [walkChain]
  | cons head rest ih =>
    obtain ⟨current, mark⟩ := head
    intro b h
    simp only [List.mem_cons, not_or] at h
    unfold walkChain
    by_cases hc : current = p
    · cases mark with
      | true => exact absurd (by rw [hc]) h.1
      | false =>
        have hv : visitInstance p current false b = RecursionStep.next true := by
          unfold visitInstance
          simp [hc, hseq, hlet]
        rw [hv]
        simp only []
        rw [ih true h.2]
        simp [hc]
    · have hv : visitInstance p current mark b = RecursionStep.next b := by
        unfold visitInstance
        rw [if_neg hc]
      rw [hv]
      simp only []
      rw [ih b h.2]
      have hne : ¬ ((p, false) = (current, mark)) := by
        intro hx
        simp only [Prod.mk.injEq] at hx
        exact hc hx.1.symm
      simp [hne]

theorem checkRecursion_unmarked (p : Symbol) (hseq : p.kind ≠ SymbolKind.Sequence)
    (hlet : p.kind ≠ SymbolKind.LetDecl) (inst : AssertionInstanceDetails)
    (hno : (p, true) ∉ inst.chain) (hwalk : (checkRecursion p inst false).isSome = true) :
    checkRecursion p inst false =
      some (RecursionCheck.proceed (decide ((p, false) ∈ inst.chain))) := by
  rcases checkRecursion_walkChain p inst false with hw | ⟨hw, _⟩
  · rw [hw, walkChain_unmarked p hseq hlet inst.chain false hno]
    simp
  · rw [hw] at hwalk
    simp at hwalk

theorem prepare_mapped (checkAssertionArg : ArgChecker) (symbol : Symbol)
    (formalPorts : List AssertionPortSymbol)
    (collected : Option (List ArgumentSyntax × NamedArgMap)) (range : SourceRange)
    (context : BindContext) (assertionInstance : AssertionInstanceDetails) (s : BindState)
    (typeKind : SymbolKind) (details : AssertionInstanceDetails) (isRecursive : Bool)
    (m : ArgMapping)
    (h : AssertionInstanceExpression.prepare checkAssertionArg symbol formalPorts collected
      range context assertionInstance s = some (Prepared.mapped typeKind details isRecursive m)) :
    details = AssertionInstanceDetails.details symbol isRecursive AssertionInstanceDetails.null
        true assertionInstance ∧
      checkRecursion symbol assertionInstance false =
        some (RecursionCheck.proceed isRecursive) := by
  unfold AssertionInstanceExpression.prepare at h
  cases ht : instanceTypeKind symbol.kind with
  | none => simp [ht] at h
  | some tk =>
    simp only [ht] at h
    cases collected with
    | none => simp at h
    | some args =>
      obtain ⟨orderedArgs, namedArgs⟩ := args
      simp only [] at h
      cases hc : checkRecursion symbol assertionInstance false with
      | none => simp [hc] at h
      | some res =>
        cases res with
        | rejected code =>
          simp only [hc] at h
          cases hd : rangeDiag code range with
          | none => simp [hd] at h
          | some d => simp [hd] at h
        | placeholder => simp [hc] at h
        | proceed r =>
          simp only [hc] at h
          cases hm : mapArguments checkAssertionArg context symbol.name range formalPorts
              orderedArgs namedArgs r s with
          | none => simp [hm] at h
          | some m1 =>
            simp only [hm, Option.map_some', Option.some.injEq, Prepared.mapped.injEq] at h
            obtain ⟨_, hd, hr, _⟩ := h
            subst hr
            exact ⟨hd.symm, rfl⟩

theorem fromLookup_placeholder {E : Type} (checkAssertionArg : ArgChecker)
    (bindAssertionBody : BodyBinder) (createLet : LetBinder E) (p : Symbol)
    (hkind : p.kind = SymbolKind.Property) (formalPorts : List AssertionPortSymbol)
    (orderedArgs : List ArgumentSyntax) (namedArgs : NamedArgMap) (range : SourceRange)
    (context : BindContext) (assertionInstance : AssertionInstanceDetails) (s : BindState)
    (hmark : (p, true) ∈ assertionInstance.chain) :
    AssertionInstanceExpression.fromLookup checkAssertionArg bindAssertionBody createLet p
        formalPorts (some (orderedArgs, namedArgs)) range context assertionInstance s =
      some (InstanceResult.expanded
        { typeKind := SymbolKind.PropertyType, symbol := p,
          body := { node := none, bad := true }, isRecursiveProperty := true,
          arguments := [], localVars := [], sourceRange := range }, s) := by
  have hseq : p.kind ≠ SymbolKind.Sequence := by rw [hkind]; decide
  have hlet : p.kind ≠ SymbolKind.LetDecl := by rw [hkind]; decide
  unfold AssertionInstanceExpression.fromLookup AssertionInstanceExpression.prepare
  simp only [hkind, instanceTypeKind,
    checkRecursion_placeholder p hseq hlet assertionInstance false hmark]

theorem fromLookup_unmarked {E : Type} (checkAssertionArg : ArgChecker)
    (bindAssertionBody : BodyBinder) (createLet : LetBinder E) (p : Symbol)
    (hkind : p.kind = SymbolKind.Property) (formalPorts : List AssertionPortSymbol)
    (orderedArgs : List ArgumentSyntax) (namedArgs : NamedArgMap) (range : SourceRange)
    (context : BindContext) (assertionInstance : AssertionInstanceDetails) (s : BindState)
    (hno : (p, true) ∉ assertionInstance.chain)
    (hwalk : (checkRecursion p assertionInstance false).isSome = true) :
    AssertionInstanceExpression.fromLookup checkAssertionArg bindAssertionBody createLet p
        formalPorts (some (orderedArgs, namedArgs)) range context assertionInstance s =
      (mapArguments checkAssertionArg context p.name range formalPorts orderedArgs namedArgs
          (decide ((p, false) ∈ assertionInstance.chain)) s).bind
        (fun m =>
          AssertionInstanceExpression.expand bindAssertionBody createLet p range context
            SymbolKind.PropertyType
            (AssertionInstanceDetails.details p (decide ((p, false) ∈ assertionInstance.chain))
              AssertionInstanceDetails.null true assertionInstance)
            (decide ((p, false) ∈ assertionInstance.chain)) m) := by
  have hseq : p.kind ≠ SymbolKind.Sequence := by rw [hkind]; decide
  have hlet : p.kind ≠ SymbolKind.LetDecl := by rw [hkind]; decide
  unfold AssertionInstanceExpression.fromLookup AssertionInstanceExpression.prepare
  simp only [hkind, instanceTypeKind,
    checkRecursion_unmarked p hseq hlet assertionInstance hno hwalk]
  cases mapArguments checkAssertionArg context p.name range formalPorts orderedArgs namedArgs
      (decide ((p, false) ∈ assertionInstance.chain)) s with
  | none => rfl
  | some m => rfl

theorem expand_property {E : Type} (bindAssertionBody : BodyBinder) (createLet : LetBinder E)
    (p : Symbol) (hkind : p.kind = SymbolKind.Property) (range : SourceRange)
    (context : BindContext) (typeKind : SymbolKind) (details : AssertionInstanceDetails)
    (isRecursive : Bool) (m : ArgMapping) (r : InstanceResult E) (s1 : BindState)
    (h : AssertionInstanceExpression.expand bindAssertionBody createLet p range context typeKind
      details isRecursive m = some (r, s1)) :
    ∃ (b : AssertionExpr × List Symbol × BindState) (e : AssertionInstanceExpression),
      bindAssertionBody p details m.argumentMap m.outputLocalVarArgLoc m.state = some b ∧
        e.body = b.1 ∧ e.isRecursiveProperty = false ∧
        (r = InstanceResult.expanded e ∨ r = InstanceResult.invalid (some e)) := by
  unfold AssertionInstanceExpression.expand at h
  have hk : (p.kind == SymbolKind.LetDecl) = false := by rw [hkind]; decide
  simp only [hk, Bool.false_eq_true, if_false] at h
  cases hb : bindAssertionBody p details m.argumentMap m.outputLocalVarArgLoc m.state with
  | none => simp [hb] at h
  | some b =>
    simp only [hb] at h
    cases hp : checkRecursivePosition context range isRecursive b.2.2 with
    | none => simp [hp] at h
    | some s2 =>
      simp only [hp] at h
      refine ⟨b,
        { typeKind := typeKind, symbol := p, body := b.1, isRecursiveProperty := false,
          arguments := m.actualArgs, localVars := b.2.1, sourceRange := range },
        rfl, rfl, rfl, ?_⟩
      split at h
      · simp only [Option.some.injEq, Prod.mk.injEq] at h
        exact Or.inr h.1.symm
      · simp only [Option.some.injEq, Prod.mk.injEq] at h
        exact Or.inl h.1.symm

/-- Claim C17 fails as stated: for `property r` the reference to `r` directly inside
the body of the first instance of `r` is not a placeholder; `fromLookup` binds the body
once more and returns an instance with `isRecursiveProperty` unset. -/
theorem fromLookup_property_expands_again :
    (AssertionInstanceExpression.fromLookup idleArgChecker idleBodyBinder idleLetBinder
        (assertionSymbol SymbolKind.Property) [] (some ([], [])) (sampleRange 740)
        (referenceTo (assertionSymbol SymbolKind.Property) 740).context
        (insideFirstInstance SymbolKind.Property) emptyState).map
        (fun r =>
          ((match r.1 with
            | InstanceResult.expanded e => some (e.isRecursiveProperty, e.body)
            | _ => none), r.2.codes)) =
      some (some (false, { node := some 0, bad := false }), []) := by
  decide

/-- Claim C17, amended: for a property `p` and a reference to `p` whose argument list
`collectArgs` accepts, `fromLookup` returns a placeholder instance with
`isRecursiveProperty` set, without mapping arguments or binding the body, exactly when
the chain of enclosing assertion instances holds an instance of `p` marked
`isRecursive`. When the chain holds no marked instance of `p`, `fromLookup` maps the
arguments and binds the body, for a new instance that is marked `isRecursive` exactly
when the chain holds an instance of `p`; the instance expression it then returns has
`isRecursiveProperty` unset and the body that the binder made. So a reference to `p`
directly in the body of the first instance of `p` is expanded once more, and the
references to `p` inside that second expansion are placeholders. -/
theorem fromLookup_nested_property_reference {E : Type} (checkAssertionArg : ArgChecker)
    (bindAssertionBody : BodyBinder) (createLet : LetBinder E) (p : Symbol)
    (formalPorts : List AssertionPortSymbol) (orderedArgs : List ArgumentSyntax)
    (namedArgs : NamedArgMap) (range : SourceRange) (context : BindContext)
    (assertionInstance : AssertionInstanceDetails) (s : BindState)
    (hkind : p.kind = SymbolKind.Property) :
    ((p, true) ∈ assertionInstance.chain →
        AssertionInstanceExpression.fromLookup checkAssertionArg bindAssertionBody createLet p
            formalPorts (some (orderedArgs, namedArgs)) range context assertionInstance s =
          some (InstanceResult.expanded
            { typeKind := SymbolKind.PropertyType, symbol := p,
              body := { node := none, bad := true }, isRecursiveProperty := true,
              arguments := [], localVars := [], sourceRange := range }, s)) ∧
      ((p, true) ∉ assertionInstance.chain →
        (checkRecursion p assertionInstance false).isSome = true →
        AssertionInstanceExpression.fromLookup checkAssertionArg bindAssertionBody createLet p
            formalPorts (some (orderedArgs, namedArgs)) range context assertionInstance s =
          (mapArguments checkAssertionArg context p.name range formalPorts orderedArgs namedArgs
              (decide ((p, false) ∈ assertionInstance.chain)) s).bind
            (fun m =>
              AssertionInstanceExpression.expand bindAssertionBody createLet p range context
                SymbolKind.PropertyType
                (AssertionInstanceDetails.details p
                  (decide ((p, false) ∈ assertionInstance.chain))
                  AssertionInstanceDetails.null true assertionInstance)
                (decide ((p, false) ∈ assertionInstance.chain)) m)) ∧
      ((p, true) ∉ assertionInstance.chain →
        ∀ (r : InstanceResult E) (s1 : BindState),
          AssertionInstanceExpression.fromLookup checkAssertionArg bindAssertionBody createLet p
              formalPorts (some (orderedArgs, namedArgs)) range context assertionInstance s =
            some (r, s1) →
          ∃ (m : ArgMapping) (b : AssertionExpr × List Symbol × BindState)
              (e : AssertionInstanceExpression),
            mapArguments checkAssertionArg context p.name range formalPorts orderedArgs namedArgs
                (decide ((p, false) ∈ assertionInstance.chain)) s = some m ∧
              bindAssertionBody p
                (AssertionInstanceDetails.details p
                  (decide ((p, false) ∈ assertionInstance.chain))
                  AssertionInstanceDetails.null true assertionInstance)
                m.argumentMap m.outputLocalVarArgLoc m.state = some b ∧
              e.body = b.1 ∧ e.isRecursiveProperty = false ∧
              (r = InstanceResult.expanded e ∨ r = InstanceResult.invalid (some e))) := by
  refine ⟨?_, ?_, ?_⟩
  · intro hmark
    exact fromLookup_placeholder checkAssertionArg bindAssertionBody createLet p hkind
      formalPorts orderedArgs namedArgs range context assertionInstance s hmark
  · intro hno hwalk
    exact fromLookup_unmarked checkAssertionArg bindAssertionBody createLet p hkind formalPorts
      orderedArgs namedArgs range context assertionInstance s hno hwalk
  · intro hno r s1 h
    have hwalk : (checkRecursion p assertionInstance false).isSome = true := by
      cases hc : checkRecursion p assertionInstance false with
      | some res => rfl
      | none =>
        unfold AssertionInstanceExpression.fromLookup AssertionInstanceExpression.prepare at h
        simp [hkind, instanceTypeKind, hc] at h
    rw [fromLookup_unmarked checkAssertionArg bindAssertionBody createLet p hkind formalPorts
      orderedArgs namedArgs range context assertionInstance s hno hwalk] at h
    cases hm : mapArguments checkAssertionArg context p.name range formalPorts orderedArgs
        namedArgs (decide ((p, false) ∈ assertionInstance.chain)) s with
    | none => simp [hm] at h
    | some m =>
      simp only [hm, Option.bind_some] at h
      obtain ⟨b, e, hb, he1, he2, hr⟩ := expand_property bindAssertionBody createLet p hkind
        range context _ _ _ m r s1 h
      exact ⟨m, b, e, rfl, hb, he1, he2, hr⟩

/-- The amended claim C17 on `property r`: a reference to `r` inside the second
instance of `r`, the one marked recursive, is a placeholder. -/
theorem fromLookup_nested_property_reference_witness :
    AssertionInstanceExpression.fromLookup idleArgChecker idleBodyBinder idleLetBinder
        (assertionSymbol SymbolKind.Property) [] (some ([], [])) (sampleRange 740)
        (referenceTo (assertionSymbol SymbolKind.Property) 740).context
        (innermostInstance [(assertionSymbol SymbolKind.Property, false),
          (assertionSymbol SymbolKind.Property, true)] AssertionInstanceDetails.null)
        emptyState =
      some (InstanceResult.expanded
        { typeKind := SymbolKind.PropertyType, symbol := assertionSymbol SymbolKind.Property,
          body := { node := none, bad := true }, isRecursiveProperty := true,
          arguments := [], localVars := [], sourceRange := sampleRange 740 }, emptyState) :=
  (fromLookup_nested_property_reference idleArgChecker idleBodyBinder idleLetBinder
    (assertionSymbol SymbolKind.Property) [] [] [] (sampleRange 740)
    (referenceTo (assertionSymbol SymbolKind.Property) 740).context
    (innermostInstance [(assertionSymbol SymbolKind.Property, false),
      (assertionSymbol SymbolKind.Property, true)] AssertionInstanceDetails.null)
    emptyState rfl).1 (by decide)

/-- One step of a nest of instances is a call of `fromLookup` that goes on to lines 866
to 896 with the new instance, and the rest of the nest stands in the body context of
that instance. -/
theorem nestedExpansions_step {E : Type} (checkAssertionArg : ArgChecker)
    (bindAssertionBody : BodyBinder) (createLet : LetBinder E)
    (ports : Symbol → List AssertionPortSymbol) (reference : AssertionReference)
    (s : BindState) (rest : List (AssertionReference × BindState))
    (assertionInstance : AssertionInstanceDetails) (es : List (Symbol × Bool))
    (h : nestedExpansions checkAssertionArg ports ((reference, s) :: rest) assertionInstance =
      some es) :
    ∃ (typeKind : SymbolKind) (isRecursive : Bool) (m : ArgMapping)
        (more : List (Symbol × Bool)),
      es = (reference.symbol, isRecursive) :: more ∧
        nestedExpansions checkAssertionArg ports rest
            (AssertionInstanceDetails.details reference.symbol isRecursive
              AssertionInstanceDetails.null true assertionInstance) = some more ∧
        AssertionInstanceExpression.fromLookup checkAssertionArg bindAssertionBody createLet
            reference.symbol (ports reference.symbol) reference.collected reference.range
            reference.context assertionInstance s =
          AssertionInstanceExpression.expand bindAssertionBody createLet reference.symbol
            reference.range reference.context typeKind
            (AssertionInstanceDetails.details reference.symbol isRecursive
              AssertionInstanceDetails.null true assertionInstance) isRecursive m := by
  rw [nestedExpansions] at h
  cases hprep : AssertionInstanceExpression.prepare checkAssertionArg reference.symbol
      (ports reference.symbol) reference.collected reference.range reference.context
      assertionInstance s with
  | none => simp [hprep] at h
  | some prepared =>
    cases prepared with
    | rejected s1 => simp [hprep] at h
    | placeholder expr s1 => simp [hprep] at h
    | mapped typeKind details r m =>
      simp only [hprep] at h
      obtain ⟨hdetails, _⟩ := prepare_mapped checkAssertionArg reference.symbol
        (ports reference.symbol) reference.collected reference.range reference.context
        assertionInstance s typeKind details r m hprep
      subst hdetails
      cases hn : nestedExpansions checkAssertionArg ports rest
          (AssertionInstanceDetails.details reference.symbol r AssertionInstanceDetails.null
            true assertionInstance) with
      | none => simp [hn] at h
      | some more =>
        simp only [hn, Option.map_some', Option.some.injEq] at h
        refine ⟨typeKind, r, m, more, h.symm, hn, ?_⟩
        unfold AssertionInstanceExpression.fromLookup
        rw [hprep]

theorem bindIffExpr_isResolved {S E X : Type} (binder : CoverBinder S E X)
    (self : CoverageBinSymbol S E X) (iffClause : Option S) (s : BindState) :
    (bindIffExpr binder self iffClause s).1.isResolved = self.isResolved := by
  unfold bindIffExpr
  cases iffClause <;> rfl

theorem bindNumberOfBins_isResolved {S E X : Type} (binder : CoverBinder S E X)
    (self : CoverageBinSymbol S E X) (size : Option (Option S)) (s : BindState) :
    (bindNumberOfBins binder self size s).1.isResolved = self.isResolved := by
  unfold bindNumberOfBins
  split <;> rfl

theorem bindWithExpr_isResolved {S E X : Type} (binder : CoverBinder S E X)
    (self : CoverageBinSymbol S E X) (withClause : S) (s : BindState) :
    (bindWithExpr binder self withClause s).1.isResolved = self.isResolved := rfl

theorem resolveInitializer_isResolved {S E X : Type} (binder : CoverBinder S E X)
    (self : CoverageBinSymbol S E X) (coverpoint : ScopeSymbol)
    (init : CoverageBinInitializerSyntax S) (s : BindState) :
    (resolveInitializer binder self coverpoint init s).bin.isResolved = self.isResolved := by
  unfold resolveInitializer
  cases init with
  | RangeCoverageBinInitializer valueRanges withClause =>
    cases withClause <;> simp [bindWithExpr_isResolved]
  | IdWithExprCoverageBinInitializer id idRange withClause =>
    simp only []
    split
    · split <;> simp [bindWithExpr_isResolved]
    · simp [bindWithExpr_isResolved]
  | TransListCoverageBinInitializer sets =>
    simp only []
    split <;> rfl
  | ExpressionCoverageBinInitializer expr =>
    simp only []
    split
    · split <;> rfl
    · rfl
  | DefaultCoverageBinInitializer => rfl
  | Other => rfl

theorem resolveBindings_isResolved {S E X : Type} (binder : CoverBinder S E X)
    (self : CoverageBinSymbol S E X) (syn : BinSyntax S) (scope : ScopeSymbol)
    (s : BindState) :
    (resolveBindings binder self syn scope s).bin.isResolved = self.isResolved := by
  unfold resolveBindings
  cases syn with
  | BinsSelection iffClause expr =>
    simp only []
    exact bindIffExpr_isResolved binder self iffClause s
  | CoverageBins iffClause size init =>
    simp only []
    split
    · rfl
    · rw [resolveInitializer_isResolved, bindNumberOfBins_isResolved, bindIffExpr_isResolved]

theorem resolve_isResolved {S E X : Type} (binder : CoverBinder S E X)
    (self : CoverageBinSymbol S E X) (s : BindState) :
    (self.resolve binder s).bin.isResolved = true := by
  unfold CoverageBinSymbol.resolve
  split
  · rename_i h
    exact h
  · split
    · rw [resolveBindings_isResolved]
    · rfl

theorem call_of_resolved {S E X : Type} (binder : CoverBinder S E X)
    (self : CoverageBinSymbol S E X) (s : BindState) (g : Getter)
    (h : self.isResolved = true) :
    self.call binder s g =
      { bin := self, state := s, resolved := false, value := some (self.stored g) } := by
  cases g <;>
    simp [CoverageBinSymbol.call, CoverageBinSymbol.getIffExpr,
      CoverageBinSymbol.getNumberOfBinsExpr, CoverageBinSymbol.getSetCoverageExpr,
      CoverageBinSymbol.getWithExpr, CoverageBinSymbol.getCrossSelectExpr,
      CoverageBinSymbol.getValues, CoverageBinSymbol.getTransList, CoverageBinSymbol.lazily,
      GetterCall.wrap, CoverageBinSymbol.stored, h]

theorem call_isResolved {S E X : Type} (binder : CoverBinder S E X)
    (self : CoverageBinSymbol S E X) (s : BindState) (g : Getter) :
    (self.call binder s g).bin.isResolved = true := by
  by_cases h : self.isResolved = true
  · rw [call_of_resolved binder self s g h]
    exact h
  · have hf : self.isResolved = false := by simpa using h
    cases g <;>
      simp [CoverageBinSymbol.call, CoverageBinSymbol.getIffExpr,
        CoverageBinSymbol.getNumberOfBinsExpr, CoverageBinSymbol.getSetCoverageExpr,
        CoverageBinSymbol.getWithExpr, CoverageBinSymbol.getCrossSelectExpr,
        CoverageBinSymbol.getValues, CoverageBinSymbol.getTransList, CoverageBinSymbol.lazily,
        GetterCall.wrap, hf, resolve_isResolved]

theorem calls_of_resolved {S E X : Type} (binder : CoverBinder S E X) :
    ∀ (l : List Getter) (self : CoverageBinSymbol S E X) (s : BindState),
      self.isResolved = true →
      CoverageBinSymbol.calls binder l self s =
        l.map (fun g => { bin := self, state := s, resolved := false,
                          value := some (self.stored g) }) := by
  intro l
  induction l with
  | nil =>
    intro self s _
    rfl
  | cons g rest ih =>
    intro self s h
    rw [CoverageBinSymbol.calls, call_of_resolved binder self s g h]
    simp only [List.map_cons]
    rw [ih self s h]

theorem bindCovergroupExpr_agree {S E X : Type} (b1 b2 : CoverBinder S E X)
    (hagree : b1.agreeWhenResolved b2) (bin : CoverageBinSymbol S E X)
    (h : bin.isResolved = true) :
    bindCovergroupExpr b1 bin = bindCovergroupExpr b2 bin := by
  obtain ⟨hb, he, _⟩ := hagree
  obtain ⟨h1, h2, _⟩ := hb bin h
  funext syn typed extraFlags iterator s
  unfold bindCovergroupExpr
  rw [h1, h2, he]

theorem bindItems_agree {S E X : Type} (b1 b2 : CoverBinder S E X)
    (hagree : b1.agreeWhenResolved b2) (bin : CoverageBinSymbol S E X)
    (h : bin.isResolved = true) :
    ∀ (l : List S) (s : BindState), bindItems b1 bin l s = bindItems b2 bin l s := by
  intro l
  induction l with
  | nil =>
    intro s
    rfl
  | cons elem rest ih =>
    intro s
    simp only [bindItems, bindCovergroupExpr_agree b1 b2 hagree bin h, ih]

theorem bindValues_agree {S E X : Type} (b1 b2 : CoverBinder S E X)
    (hagree : b1.agreeWhenResolved b2) (bin : CoverageBinSymbol S E X)
    (h : bin.isResolved = true) :
    ∀ (l : List (S × Bool)) (s : BindState), bindValues b1 bin l s = bindValues b2 bin l s := by
  intro l
  induction l with
  | nil =>
    intro s
    rfl
  | cons head rest ih =>
    obtain ⟨elem, isOpenRange⟩ := head
    intro s
    simp only [bindValues, bindCovergroupExpr_agree b1 b2 hagree bin h, ih]

theorem bindCount_agree {S E X : Type} (b1 b2 : CoverBinder S E X)
    (hagree : b1.agreeWhenResolved b2) (bin : CoverageBinSymbol S E X)
    (h : bin.isResolved = true) :
    bindCount b1 bin = bindCount b2 bin := by
  funext syn s
  unfold bindCount
  rw [bindCovergroupExpr_agree b1 b2 hagree bin h, hagree.2.2.2.1]

theorem transRangeList_agree {S E X : Type} (b1 b2 : CoverBinder S E X)
    (hagree : b1.agreeWhenResolved b2) (bin : CoverageBinSymbol S E X)
    (h : bin.isResolved = true) :
    TransRangeList.create b1 bin = TransRangeList.create b2 bin := by
  funext syn s
  unfold TransRangeList.create
  rw [bindItems_agree b1 b2 hagree bin h, bindCount_agree b1 b2 hagree bin h]

theorem bindTransSet_agree {S E X : Type} (b1 b2 : CoverBinder S E X)
    (hagree : b1.agreeWhenResolved b2) (bin : CoverageBinSymbol S E X)
    (h : bin.isResolved = true) :
    ∀ (l : List (TransRangeSyntax S)) (s : BindState),
      bindTransSet b1 bin l s = bindTransSet b2 bin l s := by
  intro l
  induction l with
  | nil =>
    intro s
    rfl
  | cons head rest ih =>
    intro s
    simp only [bindTransSet, transRangeList_agree b1 b2 hagree bin h, ih]

theorem bindTransList_agree {S E X : Type} (b1 b2 : CoverBinder S E X)
    (hagree : b1.agreeWhenResolved b2) (bin : CoverageBinSymbol S E X)
    (h : bin.isResolved = true) :
    ∀ (l : List (List (TransRangeSyntax S))) (s : BindState),
      bindTransList b1 bin l s = bindTransList b2 bin l s := by
  intro l
  induction l with
  | nil =>
    intro s
    rfl
  | cons head rest ih =>
    intro s
    simp only [bindTransList, bindTransSet_agree b1 b2 hagree bin h, ih]

theorem bindIffExpr_agree {S E X : Type} (b1 b2 : CoverBinder S E X)
    (hagree : b1.agreeWhenResolved b2) (bin : CoverageBinSymbol S E X)
    (h : bin.isResolved = true) :
    bindIffExpr b1 bin = bindIffExpr b2 bin := by
  funext iffClause s
  unfold bindIffExpr
  rw [(hagree.1 bin h).1, hagree.2.2.1]

theorem bindNumberOfBins_agree {S E X : Type} (b1 b2 : CoverBinder S E X)
    (hagree : b1.agreeWhenResolved b2) (bin : CoverageBinSymbol S E X)
    (h : bin.isResolved = true) :
    bindNumberOfBins b1 bin = bindNumberOfBins b2 bin := by
  funext size s
  unfold bindNumberOfBins
  rw [bindCovergroupExpr_agree b1 b2 hagree bin h, hagree.2.2.2.1]

theorem bindWithExpr_agree {S E X : Type} (b1 b2 : CoverBinder S E X)
    (hagree : b1.agreeWhenResolved b2) (bin : CoverageBinSymbol S E X)
    (h : bin.isResolved = true) :
    bindWithExpr b1 bin = bindWithExpr b2 bin := by
  funext withClause s
  unfold bindWithExpr
  rw [bindCovergroupExpr_agree b1 b2 hagree bin h, hagree.2.2.1]

theorem resolveInitializer_agree {S E X : Type} (b1 b2 : CoverBinder S E X)
    (hagree : b1.agreeWhenResolved b2) (bin : CoverageBinSymbol S E X)
    (h : bin.isResolved = true) :
    resolveInitializer b1 bin = resolveInitializer b2 bin := by
  funext coverpoint init s
  unfold resolveInitializer
  cases init with
  | RangeCoverageBinInitializer valueRanges withClause =>
    simp only [bindValues_agree b1 b2 hagree bin h]
    cases withClause with
    | none => rfl
    | some clause =>
      simp only []
      rw [bindWithExpr_agree b1 b2 hagree _ (by exact h)]
  | IdWithExprCoverageBinInitializer id idRange withClause =>
    simp only [bindWithExpr_agree b1 b2 hagree bin h]
  | TransListCoverageBinInitializer sets =>
    simp only [bindTransList_agree b1 b2 hagree bin h]
  | ExpressionCoverageBinInitializer expr =>
    obtain ⟨_, _, _, _, hbad, hmis, hrange, hname, htype⟩ := hagree
    simp only [bindCovergroupExpr_agree b1 b2 ⟨by assumption, by assumption, by assumption,
      by assumption, hbad, hmis, hrange, hname, htype⟩ bin h, hbad, hmis, hrange, hname, htype]
  | DefaultCoverageBinInitializer => rfl
  | Other => rfl

theorem resolveBindings_agree {S E X : Type} (b1 b2 : CoverBinder S E X)
    (hagree : b1.agreeWhenResolved b2) (bin : CoverageBinSymbol S E X)
    (h : bin.isResolved = true) :
    resolveBindings b1 bin = resolveBindings b2 bin := by
  funext syn scope s
  unfold resolveBindings
  cases syn with
  | BinsSelection iffClause expr =>
    simp only [bindIffExpr_agree b1 b2 hagree bin h]
    rw [(hagree.1 _ (by rw [bindIffExpr_isResolved]; exact h)).2.2]
  | CoverageBins iffClause size init =>
    simp only [bindIffExpr_agree b1 b2 hagree bin h]
    rw [bindNumberOfBins_agree b1 b2 hagree _ (by rw [bindIffExpr_isResolved]; exact h),
      resolveInitializer_agree b1 b2 hagree _
        (by rw [bindNumberOfBins_isResolved, bindIffExpr_isResolved]; exact h)]

theorem resolve_agree {S E X : Type} (b1 b2 : CoverBinder S E X)
    (hagree : b1.agreeWhenResolved b2) (self : CoverageBinSymbol S E X) (s : BindState) :
    self.resolve b1 s = self.resolve b2 s := by
  unfold CoverageBinSymbol.resolve
  split
  · rfl
  · split
    · rw [resolveBindings_agree b1 b2 hagree _ rfl]
    · rfl

/-- Claim C21: for every coverage bin and every sequence of calls of its getters,
`resolve` runs at most once. The first call leaves the bin with `isResolved` set and
every later call returns the field as stored, without running `resolve` and without
changing the bin or the state; `isResolved` is set after every call; `resolve` sets
the flag before it binds anything, the bindings being those of the bin with the flag
set (what the binding functions would do on a bin without the flag plays no part), and
leaves it set however it ends. -/
theorem coverageBin_resolves_once {S E X : Type} (binder : CoverBinder S E X)
    (self : CoverageBinSymbol S E X) (s : BindState) :
    (∀ (g : Getter) (rest : List Getter),
        CoverageBinSymbol.calls binder (g :: rest) self s =
          self.call binder s g ::
            rest.map (fun later =>
              { bin := (self.call binder s g).bin, state := (self.call binder s g).state,
                resolved := false,
                value := some ((self.call binder s g).bin.stored later) })) ∧
      (∀ l : List Getter,
        ((CoverageBinSymbol.calls binder l self s).filter (fun c => c.resolved)).length ≤ 1) ∧
      (∀ (l : List Getter) (c : GetterCall S E X (FieldValue E X)),
        c ∈ CoverageBinSymbol.calls binder l self s → c.bin.isResolved = true) ∧
      (∀ (syn : BinSyntax S) (scope : ScopeSymbol), self.isResolved = false →
        self.syntaxNode = some syn → self.parentScope = some scope →
        self.resolve binder s =
          resolveBindings binder { self with isResolved := true } syn scope s) ∧
      (∀ other : CoverBinder S E X, binder.agreeWhenResolved other →
        self.resolve binder s = self.resolve other s) ∧
      (self.resolve binder s).bin.isResolved = true := by
  have first : ∀ (g : Getter) (rest : List Getter),
      CoverageBinSymbol.calls binder (g :: rest) self s =
        self.call binder s g ::
          rest.map (fun later =>
            { bin := (self.call binder s g).bin, state := (self.call binder s g).state,
              resolved := false,
              value := some ((self.call binder s g).bin.stored later) }) := by
    intro g rest
    rw [CoverageBinSymbol.calls,
      calls_of_resolved binder rest _ _ (call_isResolved binder self s g)]
  refine ⟨first, ?_, ?_, ?_, fun other hagree => resolve_agree binder other hagree self s,
    resolve_isResolved binder self s⟩
  · intro l
    cases l with
    | nil => simp [CoverageBinSymbol.calls]
    | cons g rest =>
      rw [first g rest, List.filter_cons]
      have hrest : (List.map (fun later : Getter =>
          ({ bin := (self.call binder s g).bin, state := (self.call binder s g).state,
             resolved := false,
             value := some ((self.call binder s g).bin.stored later) } :
            GetterCall S E X (FieldValue E X))) rest).filter (fun c => c.resolved) = [] := by
        rw [List.filter_eq_nil_iff]
        intro c hc
        rw [List.mem_map] at hc
        obtain ⟨later, _, hl⟩ := hc
        rw [← hl]
        simp
      rw [hrest]
      split <;> simp
  · intro l c hc
    cases l with
    | nil => simp [CoverageBinSymbol.calls] at hc
    | cons g rest =>
      rw [first g rest] at hc
      rcases List.mem_cons.mp hc with hc | hc
      · rw [hc]
        exact call_isResolved binder self s g
      · rw [List.mem_map] at hc
        obtain ⟨later, _, hl⟩ := hc
        rw [← hl]
        exact call_isResolved binder self s g
  · intro syn scope hres hsyn hscope
    unfold CoverageBinSymbol.resolve
    simp [hres, hsyn, hscope]

/-- Claim C21 on the bin `bins b = { 2 } iff (1)`: of the calls `getValues`,
`getIffExpr`, `getValues` at most one runs `resolve`, and `resolve` leaves the flag
set. -/
theorem coverageBin_resolves_once_witness :
    ((CoverageBinSymbol.calls idleCoverBinder
        [Getter.getValues, Getter.getIffExpr, Getter.getValues] sampleBin emptyState).filter
        (fun c => c.resolved)).length ≤ 1 ∧
      (sampleBin.resolve idleCoverBinder emptyState).bin.isResolved = true :=
  ⟨(coverageBin_resolves_once idleCoverBinder sampleBin emptyState).2.1
      [Getter.getValues, Getter.getIffExpr, Getter.getValues],
   (coverageBin_resolves_once idleCoverBinder sampleBin emptyState).2.2.2.2.2⟩

/-- Claim C22 fails as stated: when the binding of the `iff` expression of a bin calls
`getIffExpr` of that bin, while its `resolve` is in progress, the inner call finds
`isResolved` set and returns the null field without a diagnostic; the outer call ends
with the `iff` expression bound and no diagnostic at all. -/
theorem coverageBin_reentry_without_diagnostic :
    (sampleBin.getIffExpr reentrantBinder emptyState).value = some (some 101) ∧
      (sampleBin.getIffExpr reentrantBinder emptyState).state.codes = [] ∧
      (sampleBin.getIffExpr reentrantBinder emptyState).resolved = true ∧
      (sampleBin.getIffExpr reentrantBinder emptyState).bin.isResolved = true := by
  decide

/-- Claim C22, amended: a coverage bin has two states, told apart by the flag
`isResolved`; a getter called on a bin whose flag is set, as it is from the first
statement of `resolve` on and so while `resolve` is in progress, returns the field as
stored at that moment, does not run `resolve`, leaves the bin as it is and reports
nothing; every call of a getter leaves the flag set, and the binding functions that
`resolve` calls only ever see the bin with the flag set. -/
theorem coverageBin_getter_when_flag_set {S E X : Type} (binder : CoverBinder S E X)
    (self : CoverageBinSymbol S E X) (s : BindState) (g : Getter)
    (hflag : self.isResolved = true) :
    self.call binder s g =
        { bin := self, state := s, resolved := false, value := some (self.stored g) } ∧
      (∀ (other : CoverageBinSymbol S E X) (s1 : BindState) (g1 : Getter),
        (other.call binder s1 g1).bin.isResolved = true) ∧
      (∀ (other : CoverageBinSymbol S E X) (s1 : BindState) (binder1 : CoverBinder S E X),
        binder.agreeWhenResolved binder1 →
        other.resolve binder s1 = other.resolve binder1 s1) :=
  ⟨call_of_resolved binder self s g hflag,
   fun other s1 g1 => call_isResolved binder other s1 g1,
   fun other s1 binder1 hagree => resolve_agree binder binder1 hagree other s1⟩

/-- The amended claim C22 on the bin `bins b = { 2 } iff (1)` while its `resolve` is in
progress, before the `iff` expression is bound: `getIffExpr` returns null and changes
nothing. -/
theorem coverageBin_getter_when_flag_set_witness :
    ({ sampleBin with isResolved := true } : CoverageBinSymbol Nat Nat Nat).call
        idleCoverBinder emptyState Getter.getIffExpr =
      { bin := { sampleBin with isResolved := true }, state := emptyState, resolved := false,
        value := some (({ sampleBin with isResolved := true } :
          CoverageBinSymbol Nat Nat Nat).stored Getter.getIffExpr) } :=
  (coverageBin_getter_when_flag_set idleCoverBinder { sampleBin with isResolved := true }
    emptyState Getter.getIffExpr rfl).1

/-! ## Claims on the attributes of a symbol -/

theorem mem_firstOccurrences : ∀ (l : List String) (x : String),
    x ∈ firstOccurrences l ↔ x ∈ l := by
  intro l
  induction l with
  | nil =>
    intro x
    simp [firstOccurrences]
  | cons y rest ih =>
    intro x
    simp only [firstOccurrences, List.mem_cons, List.mem_filter, ih, bne_iff_ne, ne_eq]
    constructor
    · rintro (h | ⟨h, _⟩)
      · exact Or.inl h
      · exact Or.inr h
    · rintro (h | h)
      · exact Or.inl h
      · by_cases hxy : x = y
        · exact Or.inl hxy
        · exact Or.inr ⟨h, hxy⟩

theorem nodup_firstOccurrences : ∀ l : List String, (firstOccurrences l).Nodup := by
  intro l
  induction l with
  | nil => simp [firstOccurrences]
  | cons y rest ih =>
    simp only [firstOccurrences, List.nodup_cons, List.mem_filter, bne_iff_ne, ne_eq,
      not_true_eq_false, and_false, not_false_eq_true, true_and]
    exact ih.filter _

theorem firstOccurrences_concat : ∀ (l : List String) (x : String),
    firstOccurrences (l ++ [x]) =
      if x ∈ l then firstOccurrences l else firstOccurrences l ++ [x] := by
  intro l
  induction l with
  | nil =>
    intro x
    simp [firstOccurrences]
  | cons y rest ih =>
    intro x
    rw [List.cons_append, firstOccurrences, firstOccurrences, ih x]
    by_cases hx : x ∈ rest
    · simp [hx]
    · by_cases hxy : x = y
      · subst hxy
        simp [hx, List.filter_append]
      · simp [hx, hxy, List.filter_append]

theorem set_map_of_nodup {α β : Type} [DecidableEq α] (F : α → β) (b : β) :
    ∀ (l : List α) (i : Nat) (n : α), l.Nodup → l[i]? = some n →
      (l.map F).set i b = l.map (fun m => if m = n then b else F m) := by
  intro l
  induction l with
  | nil =>
    intro i n _ h
    simp at h
  | cons x rest ih =>
    intro i n hnodup h
    rw [List.nodup_cons] at hnodup
    cases i with
    | zero =>
      simp only [List.getElem?_cons_zero, Option.some.injEq] at h
      subst h
      simp only [List.map_cons, List.set_cons_zero, if_true]
      congr 1
      apply List.map_congr_left
      intro m hm
      have : m ≠ x := fun hx => hnodup.1 (hx ▸ hm)
      simp [this]
    | succ j =>
      simp only [List.getElem?_cons_succ] at h
      have hn : n ∈ rest := List.mem_iff_getElem?.mpr ⟨j, h⟩
      have hx : x ≠ n := fun hx => hnodup.1 (hx ▸ hn)
      simp only [List.map_cons, List.set_cons_succ, hx, if_false]
      rw [ih j n hnodup.2 h]

theorem makeAttribute_name {S : Type}
    (factory : String → SourceLocation → S → AttributeSymbol S)
    (hfactory : ∀ name loc expr, (factory name loc expr).name = name)
    (spec : AttributeSpecSyntax S) : (makeAttribute factory spec).name = spec.name := by
  unfold makeAttribute
  cases spec.value with
  | none => rfl
  | some expr => exact hfactory _ _ _

theorem lastOccurrence_concat {S : Type} (specs : List (AttributeSpecSyntax S))
    (spec : AttributeSpecSyntax S) (name : String) :
    lastOccurrence (specs ++ [spec]) name =
      if spec.name = name then some spec else lastOccurrence specs name := by
  unfold lastOccurrence
  by_cases h : spec.name = name
  · simp [List.filter_append, h]
  · simp [List.filter_append, h]

theorem lastOccurrence_of_mem {S : Type} (specs : List (AttributeSpecSyntax S)) (name : String)
    (h : name ∈ specs.map (fun spec => spec.name)) :
    ∃ spec, lastOccurrence specs name = some spec ∧ spec.name = name ∧ spec ∈ specs := by
  unfold lastOccurrence
  cases hl : (specs.filter (fun spec => spec.name == name)).getLast? with
  | none =>
    rw [List.getLast?_eq_none_iff, List.filter_eq_nil_iff] at hl
    rw [List.mem_map] at h
    obtain ⟨spec, hs, hn⟩ := h
    exact absurd (by simpa using hn) (hl spec hs)
  | some spec =>
    rw [List.getLast?_eq_some_iff] at hl
    obtain ⟨ys, hy⟩ := hl
    have hm : spec ∈ specs.filter (fun spec => spec.name == name) := by
      rw [hy]
      simp
    rw [List.mem_filter] at hm
    exact ⟨spec, rfl, by simpa using hm.2, hm.1⟩

theorem addAttribute_invariant {S : Type}
    (factory : String → SourceLocation → S → AttributeSymbol S) (s0 : BindState)
    (named : List (AttributeSpecSyntax S)) (build : AttributeBuild S)
    (spec : AttributeSpecSyntax S) (hne : spec.name.isEmpty = false)
    (hinv : build.invariant factory s0 named) :
    (addAttribute factory build spec).invariant factory s0 (named ++ [spec]) := by
  obtain ⟨hA, hB, hC, added, hD1, hD2, hD3⟩ := hinv
  have hlen : build.attrs.length =
      (firstOccurrences (named.map (fun spec => spec.name))).length := by
    have := congrArg List.length hA
    simpa using this
  unfold addAttribute
  rw [if_neg (by simp [hne])]
  simp only []
  cases hfind : build.nameMap.find? (fun entry => entry.1 == spec.name) with
  | some entry =>
    have hmem : entry ∈ build.nameMap := List.mem_of_find?_eq_some hfind
    have hname : entry.1 = spec.name := by
      have := List.find?_some hfind
      simpa using this
    have hidx : (firstOccurrences (named.map (fun spec => spec.name)))[entry.2]? =
        some spec.name := by
      rw [← hname]
      exact hB entry hmem
    have hin : spec.name ∈ named.map (fun spec => spec.name) :=
      (mem_firstOccurrences _ _).mp (List.mem_iff_getElem?.mpr ⟨entry.2, hidx⟩)
    have hfo : firstOccurrences ((named ++ [spec]).map (fun spec => spec.name)) =
        firstOccurrences (named.map (fun spec => spec.name)) := by
      rw [List.map_append, List.map_cons, List.map_nil, firstOccurrences_concat, if_pos hin]
    unfold AttributeBuild.invariant
    simp only [hfo]
    refine ⟨?_, hB, hC, ?_⟩
    · rw [List.map_set, hA,
        set_map_of_nodup _ _ _ _ _ (nodup_firstOccurrences _) hidx]
      apply List.map_congr_left
      intro m _
      rw [lastOccurrence_concat]
      by_cases hm : m = spec.name
      · simp [hm]
      · have hm2 : ¬ spec.name = m := fun hx => hm hx.symm
        simp [hm, hm2]
    · refine ⟨added ++ [(Diagnostic.create DiagCode.DuplicateAttribute
          (makeAttribute factory spec).location).addArg spec.name], ?_, ?_, ?_⟩
      · simp [BindState.addDiag, hD1]
      · intro d hd
        rcases List.mem_append.mp hd with hd | hd
        · exact hD2 d hd
        · simp only [List.mem_singleton] at hd
          rw [hd]
          rfl
      · simp only [List.length_append, List.length_set, List.length_cons, List.length_nil]
        omega
  | none =>
    have hnot : spec.name ∉ named.map (fun spec => spec.name) := by
      intro hin
      obtain ⟨index, hi⟩ := hC spec.name ((mem_firstOccurrences _ _).mpr hin)
      have := List.find?_eq_none.mp hfind (spec.name, index) hi
      simp at this
    have hfo : firstOccurrences ((named ++ [spec]).map (fun spec => spec.name)) =
        firstOccurrences (named.map (fun spec => spec.name)) ++ [spec.name] := by
      rw [List.map_append, List.map_cons, List.map_nil, firstOccurrences_concat, if_neg hnot]
    unfold AttributeBuild.invariant
    simp only [hfo]
    refine ⟨?_, ?_, ?_, ?_⟩
    · rw [List.map_append, List.map_append, hA]
      congr 1
      · apply List.map_congr_left
        intro m hm
        rw [lastOccurrence_concat]
        have hm2 : ¬ spec.name = m := by
          intro hx
          rw [← hx] at hm
          exact hnot ((mem_firstOccurrences _ _).mp hm)
        simp [hm2]
      · simp [lastOccurrence_concat]
    · intro entry hentry
      rcases List.mem_append.mp hentry with he | he
      · have hold := hB entry he
        have hlt : entry.2 <
            (firstOccurrences (named.map (fun spec => spec.name))).length := by
          obtain ⟨hlt, _⟩ := List.getElem?_eq_some.mp hold
          exact hlt
        rw [List.getElem?_append_left hlt]
        exact hold
      · simp only [List.mem_singleton] at he
        rw [he]
        simp only [List.length_append, List.length_cons, List.length_nil,
          Nat.add_sub_cancel]
        rw [hlen]
        exact List.getElem?_concat_length _ _
    · intro name hn
      rcases List.mem_append.mp hn with hn | hn
      · obtain ⟨index, hi⟩ := hC name hn
        exact ⟨index, List.mem_append.mpr (Or.inl hi)⟩
      · simp only [List.mem_singleton] at hn
        rw [hn]
        exact ⟨_, List.mem_append.mpr (Or.inr (List.mem_singleton.mpr rfl))⟩
    · refine ⟨added, hD1, hD2, ?_⟩
      simp only [List.length_append, List.length_cons, List.length_nil]
      omega

theorem foldl_addAttribute_invariant {S : Type}
    (factory : String → SourceLocation → S → AttributeSymbol S) (s0 : BindState) :
    ∀ (rest done : List (AttributeSpecSyntax S)) (build : AttributeBuild S),
      build.invariant factory s0 (done.filter (fun spec => !spec.name.isEmpty)) →
      (rest.foldl (addAttribute factory) build).invariant factory s0
        ((done ++ rest).filter (fun spec => !spec.name.isEmpty)) := by
  intro rest
  induction rest with
  | nil =>
    intro done build h
    simpa using h
  | cons spec rest ih =>
    intro done build h
    rw [List.foldl_cons, show done ++ spec :: rest = (done ++ [spec]) ++ rest by simp]
    apply ih
    by_cases hempty : spec.name.isEmpty = true
    · have hstep : addAttribute factory build spec = build := by
        unfold addAttribute
        rw [if_pos hempty]
      rw [hstep, List.filter_append]
      simpa [hempty] using h
    · have hne : spec.name.isEmpty = false := by simpa using hempty
      rw [List.filter_append]
      have hsingle : List.filter (fun spec : AttributeSpecSyntax S => !spec.name.isEmpty) [spec] =
          [spec] := by
        simp [hne]
      rw [hsingle]
      exact addAttribute_invariant factory s0 _ build spec hne h

theorem createAttributes_invariant {S : Type}
    (factory : String → SourceLocation → S → AttributeSymbol S)
    (syntaxList : List (AttributeInstanceSyntax S)) (s : BindState) :
    ∃ build : AttributeBuild S,
      createAttributes factory syntaxList s = (build.attrs, build.state) ∧
      build.invariant factory s (namedSpecs syntaxList) := by
  refine ⟨syntaxList.foldl
    (fun (build : AttributeBuild S) (inst : AttributeInstanceSyntax S) =>
      inst.specs.foldl (addAttribute factory) build)
    { nameMap := [], attrs := [], state := s }, rfl, ?_⟩
  have hfold : syntaxList.foldl
      (fun (build : AttributeBuild S) (inst : AttributeInstanceSyntax S) =>
        inst.specs.foldl (addAttribute factory) build)
      { nameMap := [], attrs := [], state := s } =
      ((syntaxList.map (fun inst => inst.specs)).flatten).foldl (addAttribute factory)
        { nameMap := [], attrs := [], state := s } := by
    rw [List.foldl_flatten, List.foldl_map]
  rw [hfold]
  have hinit : ({ nameMap := [], attrs := [], state := s } : AttributeBuild S).invariant
      factory s (([] : List (AttributeSpecSyntax S)).filter
        (fun spec => !spec.name.isEmpty)) := by
    unfold AttributeBuild.invariant
    refine ⟨by simp [firstOccurrences], by simp, by simp [firstOccurrences], [], by simp,
      by simp, by simp⟩
  have h := foldl_addAttribute_invariant factory s
    ((syntaxList.map (fun inst => inst.specs)).flatten) [] _ hinit
  simpa [namedSpecs] using h

theorem names_of_map_some {S : Type} (G : String → Option (AttributeSymbol S)) :
    ∀ (names : List String) (attrs : List (AttributeSymbol S)),
      attrs.map some = names.map G →
      (∀ name ∈ names, ∃ a, G name = some a ∧ a.name = name) →
      attrs.map (fun a => a.name) = names := by
  intro names
  induction names with
  | nil =>
    intro attrs h _
    cases attrs with
    | nil => rfl
    | cons a rest => simp at h
  | cons name others ih =>
    intro attrs h hG
    cases attrs with
    | nil => simp at h
    | cons a rest =>
      simp only [List.map_cons, List.cons.injEq] at h ⊢
      obtain ⟨a1, ha1, hn⟩ := hG name (List.mem_cons_self _ _)
      rw [ha1] at h
      simp only [Option.some.injEq] at h
      refine ⟨?_, ih rest h.2 (fun n hn2 => hG n (List.mem_cons_of_mem _ hn2))⟩
      rw [h.1]
      exact hn

/-- Claim C27: when the factory makes attributes of the name it is given,
`createAttributes` returns a list whose names are non-empty and pairwise distinct and
are exactly the distinct non-empty names of the specs in order of first occurrence;
each entry is the attribute made of the last spec of its name; and the
`DuplicateAttribute` diagnostics that the scope gains number the specs of non-empty
name minus the length of the result. -/
theorem createAttributes_distinct_names {S : Type}
    (factory : String → SourceLocation → S → AttributeSymbol S)
    (hfactory : ∀ name loc expr, (factory name loc expr).name = name)
    (syntaxList : List (AttributeInstanceSyntax S)) (s : BindState) :
    (∀ a ∈ (createAttributes factory syntaxList s).1, a.name.isEmpty = false) ∧
      ((createAttributes factory syntaxList s).1.map (fun a => a.name)).Nodup ∧
      (createAttributes factory syntaxList s).1.map (fun a => a.name) =
        firstOccurrences ((namedSpecs syntaxList).map (fun spec => spec.name)) ∧
      (∀ a ∈ (createAttributes factory syntaxList s).1,
        ∃ spec, lastOccurrence (namedSpecs syntaxList) a.name = some spec ∧
          a = makeAttribute factory spec) ∧
      (∃ added : List BindDiag,
        (createAttributes factory syntaxList s).2.diags = s.diags ++ added ∧
        (∀ d ∈ added, d.code = DiagCode.DuplicateAttribute) ∧
        added.length =
          (namedSpecs syntaxList).length - (createAttributes factory syntaxList s).1.length) := by
  obtain ⟨build, hresult, hA, _, _, added, hD1, hD2, hD3⟩ :=
    createAttributes_invariant factory syntaxList s
  rw [hresult]
  simp only []
  have hG : ∀ name ∈ firstOccurrences ((namedSpecs syntaxList).map (fun spec => spec.name)),
      ∃ a, (lastOccurrence (namedSpecs syntaxList) name).map (makeAttribute factory) = some a ∧
        a.name = name := by
    intro name hn
    obtain ⟨spec, hl, hs, _⟩ := lastOccurrence_of_mem (namedSpecs syntaxList) name
      ((mem_firstOccurrences _ _).mp hn)
    exact ⟨makeAttribute factory spec, by rw [hl]; rfl,
      by rw [makeAttribute_name factory hfactory, hs]⟩
  have hnames := names_of_map_some _ _ build.attrs hA hG
  have hentry : ∀ a ∈ build.attrs,
      ∃ spec, lastOccurrence (namedSpecs syntaxList) a.name = some spec ∧
        a = makeAttribute factory spec ∧ spec ∈ namedSpecs syntaxList := by
    intro a ha
    have hsome : some a ∈ build.attrs.map some := List.mem_map.mpr ⟨a, ha, rfl⟩
    rw [hA, List.mem_map] at hsome
    obtain ⟨name, hn, hval⟩ := hsome
    obtain ⟨spec, hl, hs, hmem⟩ := lastOccurrence_of_mem (namedSpecs syntaxList) name
      ((mem_firstOccurrences _ _).mp hn)
    rw [hl] at hval
    simp only [Option.map_some', Option.some.injEq] at hval
    have hname : a.name = name := by
      rw [← hval, makeAttribute_name factory hfactory, hs]
    exact ⟨spec, by rw [hname]; exact hl, hval.symm, hmem⟩
  refine ⟨?_, ?_, hnames, ?_, added, hD1, hD2, by omega⟩
  · intro a ha
    obtain ⟨spec, _, hval, hmem⟩ := hentry a ha
    rw [hval, makeAttribute_name factory hfactory]
    unfold namedSpecs at hmem
    rw [List.mem_filter] at hmem
    simpa using hmem.2
  · rw [hnames]
    exact nodup_firstOccurrences _
  · intro a ha
    obtain ⟨spec, hl, hval, _⟩ := hentry a ha
    exact ⟨spec, hl, hval⟩

/-- Claim C27 on `(* a, b = 2, a = 3 *)` and a spec without name: the result has the
names `a` and `b`, the entry for `a` comes from the spec `a = 3`, and one
`DuplicateAttribute` is reported. -/
theorem createAttributes_distinct_names_witness :
    ((createAttributes sampleFactory sampleAttributes emptyState).1.map (fun a => a.name) =
        firstOccurrences ((namedSpecs sampleAttributes).map (fun spec => spec.name))) ∧
      (createAttributes sampleFactory sampleAttributes emptyState).1.map
          (fun a => (a.name, a.expr)) = [("a", some 3), ("b", some 2)] ∧
      (createAttributes sampleFactory sampleAttributes emptyState).2.codes =
        [DiagCode.DuplicateAttribute] :=
  ⟨(createAttributes_distinct_names sampleFactory (fun _ _ _ => rfl) sampleAttributes
      emptyState).2.2.1, by decide, by decide⟩

end slang
